import Mathlib

/-!
# CD stage provisioning chain: a shallow embedding

The Go handlers of the stage chain are embedded as state-passing functions.
A Go `error` is an `Option Err` (`none` is `nil`); a call that talks to the
cluster takes the cluster state and returns the new one next to its result.
-/

namespace CdPipeline

/-! ## Errors -/

/-- Go error values: the two API status reasons the handlers look at, a plain
formatted error, and an error wrapped with a message. -/
inductive Err where
  | notFound (what : String)
  | alreadyExists (what : String)
  | errorf (text : String)
  | wrap (text : String) (cause : Err)
deriving DecidableEq, Repr

/-- Go `error`: `none` is `nil`. -/
abbrev Error := Option Err

/-- Embeds `k8sErrors.IsNotFound`: the status reason of the error, seen through wrapping. -/
def IsNotFound : Err → Bool
  | .notFound _ => true
  | .wrap _ cause => IsNotFound cause
  | _ => false

/-- Embeds `errors.Wrapf(err, text)` for a non-nil `err`. -/
def Wrapf (err : Err) (text : String) : Err := .wrap text err

/-! ## API types (`api/v1alpha1/stage_types.go`) -/

/-- The part of `metaV1.OwnerReference` the handlers read. -/
structure OwnerReference where
  Kind : String
  Name : String
deriving DecidableEq, Repr

/-- The part of `metaV1.ObjectMeta` the handlers read or write. A Go map that
may be nil is an optional association list. -/
structure ObjectMeta where
  Name : String
  Namespace : String
  Labels : Option (List (String × String)) := none
  Annotations : Option (List (String × String)) := none
  Finalizers : List String := []
  DeletionTimestamp : Option Nat := none
  OwnerReferences : List OwnerReference := []
deriving DecidableEq, Repr

structure QualityGate where
  QualityGateType : String
  StepName : String
  AutotestName : Option String := none
  BranchName : Option String := none
deriving DecidableEq, Repr

structure Library where
  Name : String := ""
  Branch : String := ""
deriving DecidableEq, Repr

structure Source where
  Type_ : String := ""
  Library : Library := {}
deriving DecidableEq, Repr

structure StageSpec where
  Name : String := ""
  CdPipeline : String := ""
  Description : String := ""
  TriggerType : String := ""
  Order : Int := 0
  QualityGates : List QualityGate := []
  Source : Source := {}
  JobProvisioning : String := ""
deriving DecidableEq, Repr

/-- Embeds `Stage`: metadata and spec (the status block is not read by the handlers below). -/
structure Stage where
  meta : ObjectMeta
  Spec : StageSpec := {}
deriving DecidableEq, Repr

/-- Embeds `Stage.IsFirst`. -/
def Stage.IsFirst (stage : Stage) : Bool := stage.Spec.Order == 0

/-! ## Handler chain -/

/-- Embeds `handler.CdStageHandler`: `ServeRequest(stage) error` over the cluster state `σ`. -/
abbrev CdStageHandler (σ : Type) := Stage → σ → Error × σ

/-- Modelled from the spec: `nextServeOrNil` is called by every handler but is not
in the sources. It serves the request with the next handler of the chain, or
returns `nil` when there is none. -/
def nextServeOrNil {σ : Type} (next : Option (CdStageHandler σ)) (stage : Stage) (s : σ) :
    Error × σ :=
  match next with
  | some h => h stage s
  | none => (none, s)

/-! ## `DelegateNamespaceCreation` (`controllers/stage/chain/delegate_namespace_creation.go`) -/

/-- The chain elements that the two delegating handlers can build. -/
inductive NamespaceStep where
  | CheckNamespaceExist
  | PutKioskSpace
  | PutNamespace
  | PutOpenshiftProject
  | DeleteNamespace
  | DeleteOpenshiftProject
deriving DecidableEq, Repr

/-- The values of `platform.ManageNamespace()`, `platform.IsKubernetes()` and
`platform.KioskEnabled()` (package `platform` is not in the sources). -/
structure PlatformFlags where
  ManageNamespace : Bool
  IsKubernetes : Bool
  KioskEnabled : Bool
deriving DecidableEq, Repr

/-- The implementations of the chain elements: each is built from the delegating
handler's `next` and is then a `CdStageHandler`. -/
abbrev StepImpl (σ : Type) := NamespaceStep → Option (CdStageHandler σ) → CdStageHandler σ

/-- Embeds `DelegateNamespaceCreation.ServeRequest`. -/
def DelegateNamespaceCreation.ServeRequest {σ : Type} (p : PlatformFlags) (impl : StepImpl σ)
    (next : Option (CdStageHandler σ)) : CdStageHandler σ := fun stage s =>
  if !p.ManageNamespace then
    nextServeOrNil (some (impl .CheckNamespaceExist next)) stage s
  else if p.IsKubernetes then
    if p.KioskEnabled then
      nextServeOrNil (some (impl .PutKioskSpace next)) stage s
    else
      nextServeOrNil (some (impl .PutNamespace next)) stage s
  else
    nextServeOrNil (some (impl .PutOpenshiftProject next)) stage s

/-- The dispatch table as the specification words it, over
(ManageNamespace, IsKubernetes, KioskEnabled). -/
def creationTable : Bool → Bool → Bool → NamespaceStep
  | false, _, _ => .CheckNamespaceExist
  | true, true, true => .PutKioskSpace
  | true, true, false => .PutNamespace
  | true, false, _ => .PutOpenshiftProject

/-- A step implementation that only records which element served the request. -/
def recordingImpl : StepImpl (List NamespaceStep) := fun step _ _ log => (none, log ++ [step])

/-! ## RBAC objects (`k8s.io/api/rbac/v1`) -/

/-- Embeds `k8sApi.GroupName`. -/
def GroupName : String := "rbac.authorization.k8s.io"

structure Subject where
  Kind : String
  APIGroup : String := ""
  Name : String
  Namespace : String := ""
deriving DecidableEq, Repr

structure RoleRef where
  APIGroup : String := ""
  Kind : String := ""
  Name : String := ""
deriving DecidableEq, Repr

structure PolicyRule where
  Verbs : List String := []
  APIGroups : List String := []
  Resources : List String := []
deriving DecidableEq, Repr

structure Role where
  meta : ObjectMeta
  Rules : List PolicyRule := []
deriving DecidableEq, Repr

structure RoleBinding where
  meta : ObjectMeta
  Subjects : List Subject := []
  RoleRef : RoleRef := {}
deriving DecidableEq, Repr

/-- Embeds `types.NamespacedName`. -/
structure NamespacedName where
  Namespace : String
  Name : String
deriving DecidableEq, Repr

/-! ## The object-store client, as the RBAC manager uses it -/

/-- The calls of `client.Client` that `KubernetesRbac` makes, one pair per object
kind (Go passes a typed pointer; here the call is typed). -/
structure RbacClient (σ : Type) where
  GetRoleBinding : NamespacedName → σ → Except Err RoleBinding × σ
  CreateRoleBinding : RoleBinding → σ → Error × σ
  GetRole : NamespacedName → σ → Except Err Role × σ
  CreateRole : Role → σ → Error × σ

/-- One call on the object store. -/
inductive RbacCall where
  | getRoleBinding (key : NamespacedName)
  | createRoleBinding (rb : RoleBinding)
  | getRole (key : NamespacedName)
  | createRole (r : Role)
deriving DecidableEq, Repr

/-- The same client, with every call appended to a log kept next to the state. -/
def RbacClient.traced {σ : Type} (c : RbacClient σ) : RbacClient (σ × List RbacCall) where
  GetRoleBinding key s := ((c.GetRoleBinding key s.1).1, (c.GetRoleBinding key s.1).2, s.2 ++ [.getRoleBinding key])
  CreateRoleBinding rb s := ((c.CreateRoleBinding rb s.1).1, (c.CreateRoleBinding rb s.1).2, s.2 ++ [.createRoleBinding rb])
  GetRole key s := ((c.GetRole key s.1).1, (c.GetRole key s.1).2, s.2 ++ [.getRole key])
  CreateRole r s := ((c.CreateRole r s.1).1, (c.CreateRole r s.1).2, s.2 ++ [.createRole r])

/-- Whether a logged call writes to the store. -/
def RbacCall.isCreate : RbacCall → Bool
  | .createRoleBinding _ => true
  | .createRole _ => true
  | _ => false

/-! ## `RbacManager` and `KubernetesRbac` (`pkg/controller/stage/rbac/rbac.go`) -/

/-- The `RbacManager` interface. -/
structure RbacManager (σ : Type) where
  GetRoleBinding : String → String → σ → Except Err RoleBinding × σ
  CreateRoleBinding : String → String → List Subject → RoleRef → σ → Error × σ
  GetRole : String → String → σ → Except Err Role × σ
  CreateRole : String → String → List PolicyRule → σ → Error × σ

/-- Embeds `KubernetesRbac.GetRoleBinding`. -/
def KubernetesRbac.GetRoleBinding {σ : Type} (client : RbacClient σ) (name ns : String)
    (s : σ) : Except Err RoleBinding × σ :=
  match client.GetRoleBinding { Namespace := ns, Name := name } s with
  | (.error err, s1) => (.error err, s1)
  | (.ok rb, s1) => (.ok rb, s1)

/-- Embeds `KubernetesRbac.CreateRoleBinding`. -/
def KubernetesRbac.CreateRoleBinding {σ : Type} (client : RbacClient σ) (name ns : String)
    (subjects : List Subject) (roleRef : RoleRef) (s : σ) : Error × σ :=
  let rb : RoleBinding :=
    { meta := { Name := name, Namespace := ns }, Subjects := subjects, RoleRef := roleRef }
  match client.CreateRoleBinding rb s with
  | (some err, s1) => (some err, s1)
  | (none, s1) => (none, s1)

/-- Embeds `KubernetesRbac.GetRole`. -/
def KubernetesRbac.GetRole {σ : Type} (client : RbacClient σ) (name ns : String)
    (s : σ) : Except Err Role × σ :=
  match client.GetRole { Namespace := ns, Name := name } s with
  | (.error err, s1) => (.error err, s1)
  | (.ok r, s1) => (.ok r, s1)

/-- Embeds `KubernetesRbac.CreateRole`. -/
def KubernetesRbac.CreateRole {σ : Type} (client : RbacClient σ) (name ns : String)
    (rules : List PolicyRule) (s : σ) : Error × σ :=
  let r : Role := { meta := { Name := name, Namespace := ns }, Rules := rules }
  match client.CreateRole r s with
  | (some err, s1) => (some err, s1)
  | (none, s1) => (none, s1)

/-- Embeds `InitRbacManager`. -/
def InitRbacManager {σ : Type} (client : RbacClient σ) : RbacManager σ where
  GetRoleBinding := KubernetesRbac.GetRoleBinding client
  CreateRoleBinding := KubernetesRbac.CreateRoleBinding client
  GetRole := KubernetesRbac.GetRole client
  CreateRole := KubernetesRbac.CreateRole client

/-! ## `ConfigureRbac` (`pkg/controller/stage/chain/configure_rbac.go`) -/

def roleKind : String := "Role"
def clusterRoleKind : String := "ClusterRole"
def serviceAccountKind : String := "ServiceAccount"
def adminConsoleServiceAccountName : String := "edp-admin-console"
def jenkinsServiceAccountName : String := "jenkins"
def adminClusterRoleName : String := "admin"
def viewClusterRoleName : String := "view"
def clusterOpenshiftType : String := "openshift"
def groupKind : String := "Group"
def acViewRoleName : String := "admin-console-view-deployments"
def acViewRbName : String := "ac-deployments-viewer"
def jenkinsAdminRbName : String := "jenkins-admin"

structure ConfigureRbac (σ : Type) where
  next : Option (CdStageHandler σ)
  rbac : RbacManager σ

structure options where
  subjects : List Subject := []
  rf : RoleRef := {}
  pr : List PolicyRule := []
deriving DecidableEq, Repr

/-- Embeds `ConfigureRbac.roleBindingExists`. -/
def ConfigureRbac.roleBindingExists {σ : Type} (h : ConfigureRbac σ) (name ns : String)
    (s : σ) : (Bool × Error) × σ :=
  match h.rbac.GetRoleBinding name ns s with
  | (.error err, s1) => if IsNotFound err then ((false, none), s1) else ((false, some err), s1)
  | (.ok _, s1) => ((true, none), s1)

/-- Embeds `ConfigureRbac.createRoleBinding`. -/
def ConfigureRbac.createRoleBinding {σ : Type} (h : ConfigureRbac σ) (rbName ns : String)
    (opts : options) (s : σ) : Error × σ :=
  match h.roleBindingExists rbName ns s with
  | ((_, some err), s1) =>
    (some (Wrapf err ("unable to check existence of " ++ rbName ++ " rolebinding")), s1)
  | ((true, none), s1) => (none, s1)
  | ((false, none), s1) =>
    match h.rbac.CreateRoleBinding rbName ns opts.subjects opts.rf s1 with
    | (some err, s2) => (some (Wrapf err ("unable to create " ++ rbName ++ " rolebinding")), s2)
    | (none, s2) => (none, s2)

/-- Embeds `ConfigureRbac.roleExists`. -/
def ConfigureRbac.roleExists {σ : Type} (h : ConfigureRbac σ) (name ns : String)
    (s : σ) : (Bool × Error) × σ :=
  match h.rbac.GetRole name ns s with
  | (.error err, s1) => if IsNotFound err then ((false, none), s1) else ((false, some err), s1)
  | (.ok _, s1) => ((true, none), s1)

/-- Embeds `ConfigureRbac.createRole`. -/
def ConfigureRbac.createRole {σ : Type} (h : ConfigureRbac σ) (rName ns : String)
    (opts : options) (s : σ) : Error × σ :=
  match h.roleExists rName ns s with
  | ((_, some err), s1) =>
    (some (Wrapf err ("unable to check existence of " ++ rName ++ " role")), s1)
  | ((true, none), s1) => (none, s1)
  | ((false, none), s1) =>
    match h.rbac.CreateRole rName ns opts.pr s1 with
    | (some err, s2) => (some (Wrapf err ("unable to create " ++ rName ++ " role")), s2)
    | (none, s2) => (none, s2)

/-- Embeds `buildAcViewRoleOptions`. -/
def buildAcViewRoleOptions (sourceNamespace : String) : options :=
  { subjects :=
      [{ Kind := serviceAccountKind, Name := adminConsoleServiceAccountName,
         Namespace := sourceNamespace }],
    rf := { Name := acViewRoleName, APIGroup := GroupName, Kind := roleKind },
    pr := [{ Verbs := ["get", "list"], APIGroups := ["apps"], Resources := ["deployments"] }] }

/-- Embeds `getJenkinsAdminRoleSubjects`; `platformType` is the value of
`helper.GetPlatformTypeEnv()`. -/
def getJenkinsAdminRoleSubjects (platformType sourceNamespace : String) : List Subject :=
  if platformType != clusterOpenshiftType then
    [{ Kind := serviceAccountKind, Name := jenkinsServiceAccountName,
       Namespace := sourceNamespace }]
  else
    [{ Kind := groupKind, Name := sourceNamespace ++ "-edp-super-admin" },
     { Kind := groupKind, Name := sourceNamespace ++ "-edp-admin" },
     { Kind := serviceAccountKind, Name := jenkinsServiceAccountName,
       Namespace := sourceNamespace }]

/-- Embeds `buildJenkinsAdminRoleOptions`. -/
def buildJenkinsAdminRoleOptions (platformType sourceNamespace : String) : options :=
  { subjects := getJenkinsAdminRoleSubjects platformType sourceNamespace,
    rf := { Name := adminClusterRoleName, APIGroup := GroupName, Kind := clusterRoleKind } }

/-- Embeds `buildViewGroupRoleOptions`. -/
def buildViewGroupRoleOptions (sourceNamespace : String) : options :=
  { subjects := [{ Kind := groupKind, Name := sourceNamespace ++ "-edp-view" }],
    rf := { Name := viewClusterRoleName, APIGroup := GroupName, Kind := clusterRoleKind } }

/-- Embeds `generateTargetNamespaceName`. -/
def generateTargetNamespaceName (stage : Stage) : String :=
  stage.meta.Namespace ++ "-" ++ stage.meta.Name

/-- Embeds `generateViewGroupRbName`. -/
def generateViewGroupRbName (ns : String) : String := ns ++ "-view"

/-- Embeds `ConfigureRbac.ServeRequest`; `platformType` is the value of
`helper.GetPlatformTypeEnv()`. -/
def ConfigureRbac.ServeRequest {σ : Type} (platformType : String) (h : ConfigureRbac σ) :
    CdStageHandler σ := fun stage s =>
  let targetNamespace := generateTargetNamespaceName stage
  let acViewOpts := buildAcViewRoleOptions stage.meta.Namespace
  match h.createRole acViewRoleName targetNamespace acViewOpts s with
  | (some err, s1) => (some err, s1)
  | (none, s1) =>
    match h.createRoleBinding acViewRbName targetNamespace acViewOpts s1 with
    | (some err, s2) => (some err, s2)
    | (none, s2) =>
      let jenkinsAdminOpts := buildJenkinsAdminRoleOptions platformType stage.meta.Namespace
      match h.createRoleBinding jenkinsAdminRbName targetNamespace jenkinsAdminOpts s2 with
      | (some err, s3) => (some err, s3)
      | (none, s3) =>
        if platformType == clusterOpenshiftType then
          let viewGroupRbName := generateViewGroupRbName stage.meta.Namespace
          let viewGroupOpts := buildViewGroupRoleOptions stage.meta.Namespace
          match h.createRoleBinding viewGroupRbName targetNamespace viewGroupOpts s3 with
          | (some err, s4) => (some err, s4)
          | (none, s4) => nextServeOrNil h.next stage s4
        else
          nextServeOrNil h.next stage s3

/-! ## The object store behind the client -/

/-- Modelled from the spec: the cluster object store is an external collaborator
(`Get(kind, namespace, name) -> object | NotFound`, `Create(object) -> error`).
Here it holds the Roles and RoleBindings, each kind addressed by namespace and
name. -/
structure RbacStore where
  roles : List Role := []
  roleBindings : List RoleBinding := []
deriving DecidableEq, Repr

/-- Whether a metadata block is the one addressed by `key`. -/
def ObjectMeta.hasKey (m : ObjectMeta) (key : NamespacedName) : Bool :=
  m.Namespace == key.Namespace && m.Name == key.Name

/-- The key of a metadata block. -/
def ObjectMeta.key (m : ObjectMeta) : NamespacedName :=
  { Namespace := m.Namespace, Name := m.Name }

/-- Modelled from the spec: a store whose `Get` and `Create` do not fail by
themselves: `Get` answers NotFound exactly for an absent object, `Create` adds
an absent object and answers AlreadyExists for a present one. -/
def storeRbacClient : RbacClient RbacStore where
  GetRoleBinding key s :=
    match s.roleBindings.find? (fun rb => rb.meta.hasKey key) with
    | some rb => (.ok rb, s)
    | none => (.error (.notFound key.Name), s)
  CreateRoleBinding rb s :=
    if s.roleBindings.any (fun x => x.meta.hasKey rb.meta.key) then
      (some (.alreadyExists rb.meta.Name), s)
    else (none, { s with roleBindings := s.roleBindings ++ [rb] })
  GetRole key s :=
    match s.roles.find? (fun r => r.meta.hasKey key) with
    | some r => (.ok r, s)
    | none => (.error (.notFound key.Name), s)
  CreateRole r s :=
    if s.roles.any (fun x => x.meta.hasKey r.meta.key) then
      (some (.alreadyExists r.meta.Name), s)
    else (none, { s with roles := s.roles ++ [r] })

/-- The handler `ConfigureRbac` over `KubernetesRbac` and a client whose calls are logged. -/
def tracedConfigureRbac {σ : Type} (c : RbacClient σ)
    (next : Option (CdStageHandler (σ × List RbacCall))) : ConfigureRbac (σ × List RbacCall) :=
  { next := next, rbac := InitRbacManager c.traced }

/-- A client whose every call fails with the error `e` and leaves the state alone. -/
def failingRbacClient (e : Err) : RbacClient Unit where
  GetRoleBinding _ s := (.error e, s)
  CreateRoleBinding _ s := (some e, s)
  GetRole _ s := (.error e, s)
  CreateRole _ s := (some e, s)

/-- The store of the test case "rbac already exists": the target namespace of stage
`test-stage` in `test-ns` already holds a bare `jenkins-admin` binding. -/
def rbacAlreadyExistsStore : RbacStore :=
  { roleBindings := [{ meta := { Name := "jenkins-admin", Namespace := "test-ns-test-stage" } }] }

/-- How many Roles of the store are addressed by `key`. -/
def RbacStore.roleCount (s : RbacStore) (key : NamespacedName) : Nat :=
  s.roles.countP (fun r => r.meta.hasKey key)

/-- How many RoleBindings of the store are addressed by `key`. -/
def RbacStore.roleBindingCount (s : RbacStore) (key : NamespacedName) : Nat :=
  s.roleBindings.countP (fun rb => rb.meta.hasKey key)

/-- Runs `ConfigureRbac.ServeRequest` as the last handler of a chain, on the store, with
its calls logged from an empty log. -/
def runConfigureRbac (platformType : String) (stage : Stage) (s : RbacStore) :
    Error × RbacStore × List RbacCall :=
  ConfigureRbac.ServeRequest platformType (tracedConfigureRbac storeRbacClient none) stage (s, [])

/-! ## History annotation
(`pkg/controller/stage/chain/delete_environment_label_from_codebase_image_streams.go`) -/

def lastDeletedEnvsAnnotationKey : String := "deploy.edp.epam.com/last-deleted-envs"

/-- The pieces of a character list between occurrences of `sep`; there is always at
least one piece. -/
def splitChars (sep : Char) : List Char → List (List Char)
  | [] => [[]]
  | c :: cs =>
    if c = sep then [] :: splitChars sep cs
    else
      match splitChars sep cs with
      | piece :: pieces => (c :: piece) :: pieces
      | [] => [[c]]

/-- Embeds `strings.Split(s, sep)` for a separator of one character. -/
def Split (s : String) (sep : Char) : List String :=
  (splitChars sep s.data).map String.mk

/-- Embeds `findVal`. -/
def findVal : List String → String → Bool
  | [], _ => false
  | env :: envs, val => if env == val then true else findVal envs val

/-- Embeds `buildAnnotationValue`. -/
def buildAnnotationValue (envs val : String) : String :=
  if envs.length == 0 then val
  else if findVal (Split envs ',') val then envs
  else envs ++ "," ++ val

/-! ## Go maps as association lists -/

/-- Embeds `m[k]` on a Go map of strings: the zero value for an absent key. -/
def mapGet (m : List (String × String)) (k : String) : String :=
  match m.find? (fun p => p.1 == k) with
  | some p => p.2
  | none => ""

/-- Embeds `m[k] = v`. -/
def mapSet (m : List (String × String)) (k v : String) : List (String × String) :=
  if m.any (fun p => p.1 == k) then m.map (fun p => if p.1 == k then (k, v) else p)
  else m ++ [(k, v)]

/-- Embeds `delete(m, k)`. -/
def mapDelete (m : List (String × String)) (k : String) : List (String × String) :=
  m.filter (fun p => p.1 != k)

/-! ## Pipelines, image streams and the calls of the deletion handlers -/

/-- The part of `CDPipelineSpec` the handlers read (the type is not in the sources). -/
structure CDPipelineSpec where
  Name : String := ""
  InputDockerStreams : List String := []
  DeploymentType : String := ""
deriving DecidableEq, Repr

structure CDPipeline where
  meta : ObjectMeta
  Spec : CDPipelineSpec := {}
deriving DecidableEq, Repr

/-- The part of `CodebaseImageStreamSpec` the handlers read (codebase operator API). -/
structure CodebaseImageStreamSpec where
  Codebase : String := ""
  ImageName : String := ""
deriving DecidableEq, Repr

structure CodebaseImageStream where
  meta : ObjectMeta
  Spec : CodebaseImageStreamSpec := {}
deriving DecidableEq, Repr

/-- A Go result `(*T, error)`: the pointer may be nil whatever the error is. -/
abbrev Fetched (α : Type) := Option α × Error

/-- The part of `EDPComponent` the handlers read (component operator API): the record of a
platform component, here the docker registry with its URL. -/
structure EDPComponent where
  meta : ObjectMeta
  Url : String := ""
deriving DecidableEq, Repr

/-- The calls the stage handlers make on the cluster: `Create`, `Update` and `List` of
`client.Client`, the fetch of a platform component, and the helpers `util.GetCdPipeline`,
`cluster.GetCodebaseImageStream` and `util.FindPreviousStage`, which are not in the
sources. -/
structure StageClient (σ : Type) where
  GetCdPipeline : Stage → σ → Fetched CDPipeline × σ
  GetCodebaseImageStream : String → String → σ → Fetched CodebaseImageStream × σ
  FindPreviousStage : Int → String → String → σ → Fetched Stage × σ
  UpdateCodebaseImageStream : CodebaseImageStream → σ → Error × σ
  ListStages : String → String → String → σ → (List Stage × Error) × σ
  UpdateStage : Stage → σ → Error × σ
  GetEDPComponent : String → String → σ → Fetched EDPComponent × σ
  CreateCodebaseImageStream : CodebaseImageStream → σ → Error × σ

/-- One call on the cluster made by a stage handler. -/
inductive StageCall where
  | getCdPipeline (stage : Stage)
  | getCodebaseImageStream (name ns : String)
  | findPreviousStage (order : Int) (pipeline ns : String)
  | updateCodebaseImageStream (stream : CodebaseImageStream)
  | listStages (ns label value : String)
  | updateStage (stage : Stage)
  | getEDPComponent (name ns : String)
  | createCodebaseImageStream (stream : CodebaseImageStream)
deriving DecidableEq, Repr

/-- The same client, with every call appended to a log kept next to the state. -/
def StageClient.traced {σ : Type} (c : StageClient σ) : StageClient (σ × List StageCall) where
  GetCdPipeline stage s :=
    ((c.GetCdPipeline stage s.1).1, (c.GetCdPipeline stage s.1).2,
      s.2 ++ [.getCdPipeline stage])
  GetCodebaseImageStream name ns s :=
    ((c.GetCodebaseImageStream name ns s.1).1, (c.GetCodebaseImageStream name ns s.1).2,
      s.2 ++ [.getCodebaseImageStream name ns])
  FindPreviousStage order pipeline ns s :=
    ((c.FindPreviousStage order pipeline ns s.1).1, (c.FindPreviousStage order pipeline ns s.1).2,
      s.2 ++ [.findPreviousStage order pipeline ns])
  UpdateCodebaseImageStream stream s :=
    ((c.UpdateCodebaseImageStream stream s.1).1, (c.UpdateCodebaseImageStream stream s.1).2,
      s.2 ++ [.updateCodebaseImageStream stream])
  ListStages ns label value s :=
    ((c.ListStages ns label value s.1).1, (c.ListStages ns label value s.1).2,
      s.2 ++ [.listStages ns label value])
  UpdateStage stage s :=
    ((c.UpdateStage stage s.1).1, (c.UpdateStage stage s.1).2, s.2 ++ [.updateStage stage])
  GetEDPComponent name ns s :=
    ((c.GetEDPComponent name ns s.1).1, (c.GetEDPComponent name ns s.1).2,
      s.2 ++ [.getEDPComponent name ns])
  CreateCodebaseImageStream stream s :=
    ((c.CreateCodebaseImageStream stream s.1).1, (c.CreateCodebaseImageStream stream s.1).2,
      s.2 ++ [.createCodebaseImageStream stream])

/-- What a Go function did: it returned a value, or it panicked on a nil pointer. -/
inductive Outcome (α σ : Type) where
  | done (val : α) (s : σ)
  | panic (s : σ)
deriving DecidableEq, Repr

/-- The cluster state a Go function left behind. -/
def Outcome.state {α σ : Type} : Outcome α σ → σ
  | .done _ s => s
  | .panic s => s

/-! ## `DeleteEnvironmentLabelFromCodebaseImageStreams`
(`pkg/controller/stage/chain/delete_environment_label_from_codebase_image_streams.go`) -/

/-- Embeds `deleteLabel`. -/
def deleteLabel (m : ObjectMeta) (label : String) : ObjectMeta :=
  match m.Labels with
  | some labels => { m with Labels := some (mapDelete labels label) }
  | none => m

/-- Embeds `ObjectMeta.GetAnnotations`. -/
def ObjectMeta.GetAnnotations (m : ObjectMeta) : List (String × String) :=
  m.Annotations.getD []

/-- Embeds `setAnnotation`. -/
def setAnnotation (m : ObjectMeta) (val : String) : ObjectMeta :=
  let m1 : ObjectMeta :=
    match m.Annotations with
    | none => { m with Annotations := some [] }
    | some _ => m
  { m1 with
    Annotations := some (mapSet m1.GetAnnotations lastDeletedEnvsAnnotationKey
      (buildAnnotationValue (mapGet m1.GetAnnotations lastDeletedEnvsAnnotationKey) val)) }

/-- The text `%v` prints for a stream object; only used inside an error message. -/
def sprintStream (stream : CodebaseImageStream) : String :=
  "&\x7b" ++ stream.meta.Namespace ++ "/" ++ stream.meta.Name ++ " " ++ stream.Spec.Codebase
    ++ " " ++ stream.Spec.ImageName ++ "\x7d"

/-- The loop of `deleteEnvironmentLabel` over the remaining input stream names. -/
def deleteEnvironmentLabelLoop {σ : Type} (h : StageClient σ) (stage : Stage)
    (pipe : CDPipeline) : List String → σ → Outcome Error σ
  | [], s => .done none s
  | name :: rest, s =>
    match h.GetCodebaseImageStream name stage.meta.Namespace s with
    | ((_, some err), s1) =>
      .done (some (Wrapf err ("couldn't get " ++ name ++ " codebase image stream"))) s1
    | ((stream, none), s1) =>
      -- the stream whose metadata is edited, after the branch for a stage that is not first
      let resolved : Outcome Error σ ⊕ (Option CodebaseImageStream × σ) :=
        if !stage.IsFirst then
          match h.FindPreviousStage stage.Spec.Order pipe.Spec.Name stage.meta.Namespace s1 with
          | ((_, some err), s2) => .inl (.done (some err) s2)
          | ((none, none), s2) => .inl (.panic s2)
          | ((some previousStage, none), s2) =>
            match stream with
            | none => .inl (.panic s2)
            | some raw =>
              let cisName := pipe.meta.Name ++ "-" ++ previousStage.Spec.Name ++ "-"
                ++ raw.Spec.Codebase ++ "-verified"
              match h.GetCodebaseImageStream cisName stage.meta.Namespace s2 with
              | ((none, some _), s3) => .inl (.panic s3)
              | ((some got, some err), s3) =>
                .inl (.done (some (Wrapf err
                  ("unable to get codebase image stream " ++ got.meta.Name))) s3)
              | ((got, none), s3) => .inr (got, s3)
        else .inr (stream, s1)
      match resolved with
      | .inl out => out
      | .inr (none, s3) => .panic s3
      | .inr (some target, s3) =>
        let env := pipe.Spec.Name ++ "/" ++ stage.Spec.Name
        let updated : CodebaseImageStream :=
          { target with meta := deleteLabel ( setAnnotation target.meta env) env }
        match h.UpdateCodebaseImageStream updated s3 with
        | (some err, s4) =>
          .done (some (Wrapf err
            ("couldn't update " ++ sprintStream updated ++ " codebase image stream"))) s4
        | (none, s4) => deleteEnvironmentLabelLoop h stage pipe rest s4

/-- Embeds `DeleteEnvironmentLabelFromCodebaseImageStreams.deleteEnvironmentLabel`. -/
def deleteEnvironmentLabel {σ : Type} (h : StageClient σ) (stage : Stage) (s : σ) :
    Outcome Error σ :=
  match h.GetCdPipeline stage s with
  | ((_, some err), s1) =>
    .done (some (Wrapf err ("couldn't get " ++ stage.Spec.CdPipeline ++ " cd pipeline"))) s1
  | ((none, none), s1) => .panic s1
  | ((some pipe, none), s1) =>
    if pipe.Spec.InputDockerStreams.length == 0 then
      .done (some (.errorf
        ("pipeline " ++ pipe.Spec.Name ++ " doesn't contain codebase image streams"))) s1
    else
      deleteEnvironmentLabelLoop h stage pipe pipe.Spec.InputDockerStreams s1

/-! ## The object store behind the stage client -/

/-- Modelled from the spec: the cluster object store is an external collaborator
(`Get(kind, namespace, name) -> object | NotFound`, `Update(object) -> error`). Here it
holds the pipelines, image streams and stages, each kind addressed by namespace and
name. -/
structure StageStore where
  pipelines : List CDPipeline := []
  streams : List CodebaseImageStream := []
  stages : List Stage := []
  components : List EDPComponent := []
deriving DecidableEq, Repr

/-- Modelled from the spec: the name of the pipeline a stage belongs to ("belongs to exactly
one Pipeline by name reference"; the reconciler produces an "OwnerReference from Stage to
Pipeline"): the owner reference of kind `CDPipeline` when the stage has one, as in the
tests of `PutCodebaseImageStream`, and `Spec.CdPipeline` otherwise. -/
def cdPipelineNameOf (stage : Stage) : String :=
  match stage.meta.OwnerReferences.find? (fun o => o.Kind == "CDPipeline") with
  | some o => o.Name
  | none => stage.Spec.CdPipeline

/-- Whether the metadata carries the label `label` with the value `value`. -/
def ObjectMeta.hasLabel (m : ObjectMeta) (label value : String) : Bool :=
  (m.Labels.getD []).any (fun p => p.1 == label && p.2 == value)

/-- Modelled from the spec: `util.FindPreviousStage` is not in the sources; it finds "the
sibling with the largest `Order` strictly less than this Stage's (same Pipeline, same
namespace)". A sibling is a stage of namespace `ns` whose `Spec.CdPipeline` is
`pipeline`. -/
def previousStageOf (order : Int) (pipeline ns : String) (stages : List Stage) : Option Stage :=
  stages.foldl
    (fun best x =>
      if x.meta.Namespace == ns && x.Spec.CdPipeline == pipeline && decide (x.Spec.Order < order)
      then
        match best with
        | none => some x
        | some b => if b.Spec.Order < x.Spec.Order then some x else some b
      else best)
    none

/-- Modelled from the spec: a store whose calls do not fail by themselves. `Get` answers
NotFound exactly for an absent object, `Create` adds an absent object and answers
AlreadyExists for a present one, `Update` replaces a present object and answers NotFound
for an absent one, `List` answers the stages of a namespace that carry the label;
`util.GetCdPipeline` fetches the pipeline that `cdPipelineNameOf` names in the stage's
namespace. -/
def storeStageClient : StageClient StageStore where
  GetCdPipeline stage s :=
    match s.pipelines.find?
        (fun p => p.meta.hasKey { Namespace := stage.meta.Namespace, Name := cdPipelineNameOf stage })
    with
    | some p => ((some p, none), s)
    | none => ((none, some (.notFound (cdPipelineNameOf stage))), s)
  GetCodebaseImageStream name ns s :=
    match s.streams.find? (fun x => x.meta.hasKey { Namespace := ns, Name := name }) with
    | some x => ((some x, none), s)
    | none => ((none, some (.notFound name)), s)
  FindPreviousStage order pipeline ns s :=
    match previousStageOf order pipeline ns s.stages with
    | some x => ((some x, none), s)
    | none => ((none, some (.errorf "couldn't find previous stage")), s)
  UpdateCodebaseImageStream stream s :=
    if s.streams.any (fun x => x.meta.hasKey stream.meta.key) then
      (none, { s with
        streams := s.streams.map (fun x => if x.meta.hasKey stream.meta.key then stream else x) })
    else (some (.notFound stream.meta.Name), s)
  ListStages ns label value s :=
    ((s.stages.filter (fun x => x.meta.Namespace == ns && x.meta.hasLabel label value), none), s)
  UpdateStage stage s :=
    if s.stages.any (fun x => x.meta.hasKey stage.meta.key) then
      (none, { s with
        stages := s.stages.map (fun x => if x.meta.hasKey stage.meta.key then stage else x) })
    else (some (.notFound stage.meta.Name), s)
  GetEDPComponent name ns s :=
    match s.components.find? (fun x => x.meta.hasKey { Namespace := ns, Name := name }) with
    | some x => ((some x, none), s)
    | none => ((none, some (.notFound name)), s)
  CreateCodebaseImageStream stream s :=
    if s.streams.any (fun x => x.meta.hasKey stream.meta.key) then
      (some (.alreadyExists stream.meta.Name), s)
    else (none, { s with streams := s.streams ++ [stream] })

/-- Whether a logged call is an update of an image stream. -/
def StageCall.updatedStream : StageCall → Option CodebaseImageStream
  | .updateCodebaseImageStream stream => some stream
  | _ => none

/-! ### A pipeline with two stages -/

/-- The input stream `app-main` of pipeline `pipe`. -/
def rawStream : CodebaseImageStream :=
  { meta := { Name := "app-main", Namespace := "ns", Labels := some [("pipe/dev", "v1")] },
    Spec := { Codebase := "app" } }

/-- The verified stream that stage `dev` of pipeline `pipe` derives for codebase `app`. -/
def devVerifiedStream : CodebaseImageStream :=
  { meta := { Name := "pipe-dev-app-verified", Namespace := "ns",
              Labels := some [("pipe/qa", "v1")] },
    Spec := { Codebase := "app" } }

/-- The entry stage `dev` (Order 0). -/
def devStage : Stage :=
  { meta := { Name := "pipe-dev", Namespace := "ns" },
    Spec := { Name := "dev", CdPipeline := "pipe", Order := 0 } }

/-- The second stage `qa` (Order 1). -/
def qaStage : Stage :=
  { meta := { Name := "pipe-qa", Namespace := "ns" },
    Spec := { Name := "qa", CdPipeline := "pipe", Order := 1 } }

/-- The pipeline `pipe` with the one input stream `app-main`. -/
def pipePipeline : CDPipeline :=
  { meta := { Name := "pipe", Namespace := "ns" },
    Spec := { Name := "pipe", InputDockerStreams := ["app-main"] } }

/-- A store holding the pipeline, its two stages, the input stream and the stream that
stage `dev` derived. -/
def twoStageStore : StageStore :=
  { pipelines := [pipePipeline], streams := [rawStream, devVerifiedStream],
    stages := [devStage, qaStage] }

/-- The stream of stage `dev` after the cleanup for stage `qa`: the label `pipe/qa` is gone
and the history annotation records it. -/
def devVerifiedCleaned : CodebaseImageStream :=
  { meta := { Name := "pipe-dev-app-verified", Namespace := "ns", Labels := some [],
              Annotations := some [("deploy.edp.epam.com/last-deleted-envs", "pipe/qa")] },
    Spec := { Codebase := "app" } }

/-- The input stream after the cleanup for stage `dev`. -/
def rawStreamCleaned : CodebaseImageStream :=
  { meta := { Name := "app-main", Namespace := "ns", Labels := some [],
              Annotations := some [("deploy.edp.epam.com/last-deleted-envs", "pipe/dev")] },
    Spec := { Codebase := "app" } }

/-! ## Stage ordering and the deletion protocol (`controllers/stage`) -/

/-- Embeds `cdPipeApi.StageCdPipelineLabelName`, the label that names the owning pipeline. -/
def StageCdPipelineLabelName : String := "app.edp.epam.com/cdPipelineName"

/-- Whether one of the listed stages has an `Order` strictly greater than `order`. -/
def hasGreaterOrder (order : Int) : List Stage → Bool
  | [] => false
  | x :: rest => if x.Spec.Order > order then true else hasGreaterOrder order rest

/-- Modelled from the spec: `ReconcileStage.isLastStage` is not in the sources, only its
test is. It lists the stages of the stage's namespace that are labelled with the stage's
pipeline and answers `false` when one of them has a strictly greater `Order` ("a Stage must
not be deleted while any sibling with strictly greater `Order` still exists"). -/
def isLastStage {σ : Type} (c : StageClient σ) (stage : Stage) (s : σ) : (Bool × Error) × σ :=
  match c.ListStages stage.meta.Namespace StageCdPipelineLabelName stage.Spec.CdPipeline s with
  | ((_, some err), s1) => ((false, some (Wrapf err "failed to list stages")), s1)
  | ((items, none), s1) => ((!hasGreaterOrder stage.Spec.Order items, none), s1)

/-- Embeds `reconcile.Result`. -/
structure ReconcileResult where
  Requeue : Bool := false
  RequeueAfter : Nat := 0
deriving DecidableEq, Repr

/-- The reconciler `ReconcileStage`, with the cleanup chain it runs on deletion and the two constants
whose values are not in the sources: the backoff `waitForParentStagesDeletion` and the
finalizer name `envLabelDeletionFinalizer`. -/
structure ReconcileStage (σ : Type) where
  client : StageClient σ
  deleteChain : Stage → σ → Outcome Error σ
  waitForParentStagesDeletion : Nat
  envLabelDeletionFinalizer : String

/-- Whether a listed stage blocks the deletion of `stage`: a sibling other than the stage
itself whose `Order` is greater than or equal to the stage's. -/
def blocksDeletion (stage : Stage) (x : Stage) : Bool :=
  x.meta.Name != stage.meta.Name && decide (x.Spec.Order ≥ stage.Spec.Order)

/-- Modelled from the spec: `ReconcileStage.tryToDeleteCDStage` is not in the sources, only
its tests are. Without a deletion request it ensures the deletion finalizer. On a deletion
request, "if any sibling Stage of the same Pipeline has `Order >= this.Order` (excluding
self)" it asks to be called again after the fixed backoff; otherwise it runs the cleanup
chain and then clears the finalizer, and a cleanup failure leaves the finalizer in
place. -/
def tryToDeleteCDStage {σ : Type} (r : ReconcileStage σ) (stage : Stage) (s : σ) :
    Outcome (Option ReconcileResult × Error) σ :=
  if stage.meta.DeletionTimestamp.isNone then
    if r.envLabelDeletionFinalizer ∈ stage.meta.Finalizers then .done (none, none) s
    else
      match r.client.UpdateStage
          { stage with meta := { stage.meta with
              Finalizers := stage.meta.Finalizers ++ [r.envLabelDeletionFinalizer] } } s with
      | (some err, s1) => .done (some {}, some (Wrapf err "failed to update cd stage status")) s1
      | (none, s1) => .done (none, none) s1
  else
    match r.client.ListStages stage.meta.Namespace StageCdPipelineLabelName
        stage.Spec.CdPipeline s with
    | ((_, some err), s1) => .done (some {}, some (Wrapf err "failed to list stages")) s1
    | ((items, none), s1) =>
      if items.any (blocksDeletion stage) then
        .done (some { RequeueAfter := r.waitForParentStagesDeletion }, none) s1
      else
        match r.deleteChain stage s1 with
        | .panic s2 => .panic s2
        | .done (some err) s2 => .done (some {}, some (Wrapf err "failed to delete Stage")) s2
        | .done none s2 =>
          match r.client.UpdateStage
              { stage with meta := { stage.meta with
                  Finalizers := stage.meta.Finalizers.filter
                    (fun f => f != r.envLabelDeletionFinalizer) } } s2 with
          | (some err, s3) =>
            .done (some {}, some (Wrapf err "failed to update cd stage status")) s3
          | (none, s3) => .done (some {}, none) s3

/-- The reconciler over a logged client, with the label cleanup of
`deleteEnvironmentLabel` as its cleanup chain. -/
def tracedReconcileStage {σ : Type} (c : StageClient σ) (wait : Nat) (finalizer : String) :
    ReconcileStage (σ × List StageCall) :=
  { client := c.traced, deleteChain := deleteEnvironmentLabel c.traced,
    waitForParentStagesDeletion := wait, envLabelDeletionFinalizer := finalizer }

/-! ### The stages of the tests -/

/-- The stage whose deletion `TestTryToDeleteCDStage_PostponeDeletion` requests. -/
def stageToRemove : Stage :=
  { meta := { Name := "stage-name", Namespace := "stage-namespace",
              Labels := some [(StageCdPipelineLabelName, "cd-pipeline-name")],
              Finalizers := ["envLabelDeletion"], DeletionTimestamp := some 1 },
    Spec := { CdPipeline := "cd-pipeline-name", Order := 0 } }

/-- The later stage of the same pipeline in that test. -/
def parentStage : Stage :=
  { meta := { Name := "stage-name2", Namespace := "stage-namespace",
              Labels := some [(StageCdPipelineLabelName, "cd-pipeline-name")] },
    Spec := { CdPipeline := "cd-pipeline-name", Order := 1 } }

/-- The stage that `TestReconcileStage_isLastStage` asks about, with the given `Order`. -/
def lastStageProbe (order : Int) : Stage :=
  { meta := { Name := "stage-1", Namespace := "ns-1" },
    Spec := { Order := order, CdPipeline := "cd-pipeline-1" } }

/-- The one stage in the store of `TestReconcileStage_isLastStage`, with the given `Order`. -/
def lastStageSibling (order : Int) : Stage :=
  { meta := { Name := "stage-2", Namespace := "ns-1",
              Labels := some [(StageCdPipelineLabelName, "cd-pipeline-1")] },
    Spec := { Order := order } }

/-! ## Quality gates of the CI job (`pkg/controller/stage/chain`, `put_jenkins_job`) -/

/-- Modelled from the spec: the record `{name: Type, step_name: StepName}` of one quality
gate, in the form the tests of `getQualityGateStages` expect. -/
def qualityGateRecord (g : QualityGate) : String :=
  "\x7b\"name\":\"" ++ g.QualityGateType ++ "\",\"step_name\":\"" ++ g.StepName ++ "\"\x7d"

/-- Modelled from the spec: the partition of the list "into maximal runs of immediately
adjacent entries sharing the same `Type`". -/
def adjacentRuns : List QualityGate → List (List QualityGate)
  | [] => []
  | g :: gs =>
    match adjacentRuns gs with
    | [] => [[g]]
    | [] :: runs => [g] :: runs
    | (h :: run) :: runs =>
      if g.QualityGateType == h.QualityGateType then (g :: h :: run) :: runs
      else [g] :: (h :: run) :: runs

/-- Modelled from the spec: "a run of length > 1 renders as a bracketed list of records; a
run of length 1 renders as a single unbracketed record". -/
def renderRun (run : List QualityGate) : String :=
  match run with
  | [g] => qualityGateRecord g
  | _ => "[" ++ ",".intercalate (run.map qualityGateRecord) ++ "]"

/-- Modelled from the spec: `getQualityGateStages` is not in the sources, only its tests
are. It returns the absent string for an empty or nil list; otherwise the fragments of the
runs "in original order, joined by commas". It has no failing path. -/
def getQualityGateStages (qualityGates : List QualityGate) : Option String × Error :=
  if qualityGates.length == 0 then (none, none)
  else (some (",".intercalate ((adjacentRuns qualityGates).map renderRun)), none)

/-- A quality gate of the tests: type, step name, and the autotest on branch `master`. -/
def testGate (gateType step : String) : QualityGate :=
  { QualityGateType := gateType, StepName := step, AutotestName := some step,
    BranchName := some "master" }

/-- The gates of `TestGetQualityGateStagesMethod_ShouldReturnParsedStagesScenarioFirst`. -/
def scenarioFirstGates : List QualityGate :=
  [testGate "autotests" "aut1", testGate "autotests" "aut2", testGate "autotests" "aut3",
   testGate "autotests" "aut4", testGate "manual" "man1"]

/-- The gates of `TestGetQualityGateStagesMethod_ShouldReturnParsedStagesScenarioSecond`. -/
def scenarioSecondGates : List QualityGate :=
  [testGate "autotests" "aut1", testGate "autotests" "aut3", testGate "autotests" "aut4",
   testGate "manual" "man1", testGate "autotests" "aut2"]

/-! ## `DelegateNamespaceDeletion` (`controllers/stage/chain/delegate_namespace_deletion.go`) -/

/-- Embeds `DelegateNamespaceDeletion.ServeRequest`. -/
def DelegateNamespaceDeletion.ServeRequest {σ : Type} (p : PlatformFlags) (impl : StepImpl σ)
    (next : Option (CdStageHandler σ)) : CdStageHandler σ := fun stage s =>
  if p.IsKubernetes then
    nextServeOrNil (some (impl .DeleteNamespace next)) stage s
  else
    nextServeOrNil (some (impl .DeleteOpenshiftProject next)) stage s

/-! ## `DeleteEnvironmentLabelFromCodebaseImageStreams.ServeRequest` -/

structure DeleteEnvironmentLabelFromCodebaseImageStreams (σ : Type) where
  next : Option (CdStageHandler σ)
  client : StageClient σ

/-- Embeds `DeleteEnvironmentLabelFromCodebaseImageStreams.ServeRequest`. -/
def DeleteEnvironmentLabelFromCodebaseImageStreams.ServeRequest {σ : Type}
    (h : DeleteEnvironmentLabelFromCodebaseImageStreams σ) (stage : Stage) (s : σ) :
    Outcome Error σ :=
  match deleteEnvironmentLabel h.client stage s with
  | .panic s1 => .panic s1
  | .done (some err) s1 => .done (some (Wrapf err "couldn't set environment status")) s1
  | .done none s1 => .done (nextServeOrNil h.next stage s1).1 (nextServeOrNil h.next stage s1).2

/-- A next handler that records its invocation as an update of the stage. -/
def recordingNext {σ : Type} : CdStageHandler (σ × List StageCall) :=
  fun stage s => (none, s.1, s.2 ++ [.updateStage stage])

/-- The store of the two-stage pipeline in which the stream derived by stage `dev` is
missing. -/
def missingDerivedStore : StageStore :=
  { twoStageStore with streams := [rawStream] }

/-- The store of the two-stage pipeline whose pipeline declares no input stream. -/
def noInputStore : StageStore :=
  { twoStageStore with
    pipelines := [{ meta := { Name := "pipe", Namespace := "ns" }, Spec := { Name := "pipe" } }] }

/-! ## The objects of one `ConfigureRbac` run, in order -/

/-- One object that a run ensures: a Role or a RoleBinding, its name and its options. -/
structure EnsureStep where
  isRole : Bool
  name : String
  opts : options
deriving DecidableEq, Repr

/-- Ensuring one object in the namespace `ns`: `createRole` or `createRoleBinding`. -/
def ConfigureRbac.ensure {σ : Type} (h : ConfigureRbac σ) (ns : String) (step : EnsureStep)
    (s : σ) : Error × σ :=
  if step.isRole then h.createRole step.name ns step.opts s
  else h.createRoleBinding step.name ns step.opts s

/-- Ensuring a list of objects one after the other, stopping at the first error. -/
def ConfigureRbac.ensureInOrder {σ : Type} (h : ConfigureRbac σ) (ns : String) :
    List EnsureStep → σ → Error × σ
  | [], s => (none, s)
  | step :: rest, s =>
    match h.ensure ns step s with
    | (some err, s1) => (some err, s1)
    | (none, s1) => h.ensureInOrder ns rest s1

/-- The objects of a run as the specification orders them: the console view role, its
binding, the `jenkins-admin` binding and, on the openshift platform type only, the
view-group binding. -/
def rbacSteps (platformType sourceNamespace : String) : List EnsureStep :=
  [{ isRole := true, name := acViewRoleName, opts := buildAcViewRoleOptions sourceNamespace },
   { isRole := false, name := acViewRbName, opts := buildAcViewRoleOptions sourceNamespace },
   { isRole := false, name := jenkinsAdminRbName,
     opts := buildJenkinsAdminRoleOptions platformType sourceNamespace }]
  ++ (if platformType == clusterOpenshiftType then
        [{ isRole := false, name := generateViewGroupRbName sourceNamespace,
           opts := buildViewGroupRoleOptions sourceNamespace }]
      else [])

/-- The namespace and name a logged call addresses. -/
def RbacCall.key : RbacCall → NamespacedName
  | .getRoleBinding key => key
  | .createRoleBinding rb => rb.meta.key
  | .getRole key => key
  | .createRole r => r.meta.key

/-- Whether a logged call is about a Role (and not a RoleBinding). -/
def RbacCall.onRole : RbacCall → Bool
  | .getRole _ => true
  | .createRole _ => true
  | _ => false

/-- Whether a logged call reads or creates the object of `step` in the namespace `ns`. -/
def RbacCall.addresses (ns : String) (step : EnsureStep) (call : RbacCall) : Bool :=
  call.key == { Namespace := ns, Name := step.name } && call.onRole == step.isRole

/-- The store client with one fault: reading the RoleBinding `bad` fails with an error
that is not NotFound. -/
def faultyStoreRbacClient (bad : NamespacedName) : RbacClient RbacStore where
  GetRoleBinding key s :=
    if key = bad then (.error (.errorf "timeout"), s) else storeRbacClient.GetRoleBinding key s
  CreateRoleBinding := storeRbacClient.CreateRoleBinding
  GetRole := storeRbacClient.GetRole
  CreateRole := storeRbacClient.CreateRole

/-- The stage `test-stage` of the namespace `test-ns`, as in the RBAC tests. -/
def rbacTestStage : Stage := { meta := { Name := "test-stage", Namespace := "test-ns" } }

/-! ## The deletion that proceeds -/

/-- The reconciler over the object store, with the label cleanup of
`deleteEnvironmentLabel` as its cleanup chain. -/
def storeReconcileStage (wait : Nat) (finalizer : String) : ReconcileStage StageStore :=
  { client := storeStageClient, deleteChain := deleteEnvironmentLabel storeStageClient,
    waitForParentStagesDeletion := wait, envLabelDeletionFinalizer := finalizer }

/-- The stage whose deletion `TestTryToDeleteCDStage_Success` requests. -/
def successStage : Stage :=
  { meta := { Name := "stub-name", Namespace := "stub-namespace",
              Finalizers := ["envLabelDeletion"], DeletionTimestamp := some 1 },
    Spec := { Name := "stub-name", CdPipeline := "stub-cdPipeline-name", Order := 0 } }

/-- The pipeline of that test. -/
def successPipeline : CDPipeline :=
  { meta := { Name := "stub-cdPipeline-name", Namespace := "stub-namespace" },
    Spec := { Name := "stub-name", InputDockerStreams := ["docker-image-name"] } }

/-- The input stream of that test, carrying the consumption label of the stage. -/
def successImage : CodebaseImageStream :=
  { meta := { Name := "docker-image-name", Namespace := "stub-namespace",
              Labels := some [("stub-name/stub-name", "stub-data")] } }

/-- The store of that test. -/
def successStore : StageStore :=
  { pipelines := [successPipeline], streams := [successImage], stages := [successStage] }

/-- The second stage `qa`, labelled with its pipeline and marked for deletion. -/
def qaStageDeleting : Stage :=
  { meta := { Name := "pipe-qa", Namespace := "ns",
              Labels := some [(StageCdPipelineLabelName, "pipe")],
              Finalizers := ["envLabelDeletion"], DeletionTimestamp := some 1 },
    Spec := { Name := "qa", CdPipeline := "pipe", Order := 1 } }

/-- The entry stage `dev`, labelled with its pipeline. -/
def devStageLabelled : Stage :=
  { meta := { Name := "pipe-dev", Namespace := "ns",
              Labels := some [(StageCdPipelineLabelName, "pipe")] },
    Spec := { Name := "dev", CdPipeline := "pipe", Order := 0 } }

/-- The input stream `app-main` when it carries the labels of both stages. -/
def rawStreamBoth : CodebaseImageStream :=
  { meta := { Name := "app-main", Namespace := "ns",
              Labels := some [("pipe/dev", "v1"), ("pipe/qa", "v1")] },
    Spec := { Codebase := "app" } }

/-- A store in which stage `qa` is being deleted and no stage comes after it. -/
def qaDeletingStore : StageStore :=
  { pipelines := [pipePipeline], streams := [rawStreamBoth, devVerifiedStream],
    stages := [devStageLabelled, qaStageDeleting] }

/-- Stage `qa` after its deletion finalizer was cleared. -/
def qaStageReleased : Stage :=
  { qaStageDeleting with meta := { qaStageDeleting.meta with Finalizers := [] } }

/-- The stage of `TestTryToDeleteCDStage_Success` after its deletion finalizer was cleared. -/
def successStageReleased : Stage :=
  { successStage with meta := { successStage.meta with Finalizers := [] } }

/-- The input stream of that test after the cleanup. -/
def successImageCleaned : CodebaseImageStream :=
  { meta := { Name := "docker-image-name", Namespace := "stub-namespace", Labels := some [],
              Annotations := some [("deploy.edp.epam.com/last-deleted-envs",
                "stub-name/stub-name")] } }

/-! ## `PutCodebaseImageStream` (`controllers/stage/chain`, `put_codebase_image_stream`) -/

/-- The name of the platform component that records the docker registry, the constant
`dockerRegistryName` of the tests. -/
def dockerRegistryName : String := "docker-registry"

/-- Embeds `k8sErrors.IsAlreadyExists`: the status reason of the error, seen through
wrapping. -/
def IsAlreadyExists : Err → Bool
  | .alreadyExists _ => true
  | .wrap _ cause => IsAlreadyExists cause
  | _ => false

structure PutCodebaseImageStream (σ : Type) where
  next : Option (CdStageHandler σ)
  client : StageClient σ

/-- Modelled from the spec: step 2 of the image-stream promoter, which is not in the
sources. "If Stage.Order != 0: find the sibling with the largest `Order` strictly less than
this Stage's (same Pipeline, same namespace); resolve and fetch its derived stream
`{pipeline}-{previousStage}-{codebase}-verified`; missing is fatal." The lookup takes the
arguments `deleteEnvironmentLabel` gives it; the texts of these errors are not attested. -/
def PutCodebaseImageStream.fetchPreviousVerified {σ : Type} (c : StageClient σ) (stage : Stage)
    (pipe : CDPipeline) (codebase : String) (s : σ) : Error × σ :=
  if stage.Spec.Order == 0 then (none, s)
  else
    match c.FindPreviousStage stage.Spec.Order pipe.Spec.Name stage.meta.Namespace s with
    | ((some previousStage, none), s1) =>
      match c.GetCodebaseImageStream
          (pipe.meta.Name ++ "-" ++ previousStage.Spec.Name ++ "-" ++ codebase ++ "-verified")
          stage.meta.Namespace s1 with
      | ((some _, none), s2) => (none, s2)
      | ((_, err), s2) =>
        (some (Wrapf (err.getD (.notFound (pipe.meta.Name ++ "-" ++ previousStage.Spec.Name
            ++ "-" ++ codebase ++ "-verified")))
          ("failed to get " ++ pipe.meta.Name ++ "-" ++ previousStage.Spec.Name ++ "-"
            ++ codebase ++ "-verified" ++ " codebase image stream")), s2)
    | ((_, err), s1) =>
      (some (Wrapf (err.getD (.errorf "previous stage not found"))
        "failed to find previous stage"), s1)

/-- Modelled from the spec: the upsert of step 3 of the image-stream promoter, which is not
in the sources: "create if absent, update in place if present". As the test
`TestPutCodebaseImageStream_ShouldFailCreatingCbis` shows, the stream is created without
being fetched first; on AlreadyExists the stream of that name is fetched and updated with
the codebase and the image name, and any other error of `Create` is returned. -/
def PutCodebaseImageStream.upsert {σ : Type} (c : StageClient σ)
    (name imageName codebaseName ns : String) (s : σ) : Error × σ :=
  match c.CreateCodebaseImageStream
      { meta := { Name := name, Namespace := ns },
        Spec := { Codebase := codebaseName, ImageName := imageName } } s with
  | (none, s1) => (none, s1)
  | (some err, s1) =>
    if IsAlreadyExists err then
      match c.GetCodebaseImageStream name ns s1 with
      | ((some existing, none), s2) =>
        c.UpdateCodebaseImageStream
          { existing with Spec := { Codebase := codebaseName, ImageName := imageName } } s2
      | ((_, err2), s2) => (some (err2.getD (.notFound name)), s2)
    else (some err, s1)

/-- Modelled from the spec: the loop of the image-stream promoter over the remaining input
stream names, which is not in the sources. "For every input stream declared by the owning
Pipeline: 1. Fetch the named artifact stream in the Stage's namespace; missing is fatal.
2. [the previous stage's derived stream] 3. Upsert this Stage's derived stream
`{pipeline}-{stage}-{codebase}-verified` with image reference
`{registry-url}/{namespace}/{codebase}`, referencing the same codebase". The names and the
error texts are those of the tests. -/
def PutCodebaseImageStream.promote {σ : Type} (c : StageClient σ) (stage : Stage)
    (pipe : CDPipeline) (registryUrl : String) : List String → σ → Error × σ
  | [], s => (none, s)
  | name :: rest, s =>
    match c.GetCodebaseImageStream name stage.meta.Namespace s with
    | ((some stream, none), s1) =>
      match PutCodebaseImageStream.fetchPreviousVerified c stage pipe stream.Spec.Codebase s1
      with
      | (some err, s2) => (some err, s2)
      | (none, s2) =>
        match PutCodebaseImageStream.upsert c
            (pipe.meta.Name ++ "-" ++ stage.Spec.Name ++ "-" ++ stream.Spec.Codebase
              ++ "-verified")
            (registryUrl ++ "/" ++ stage.meta.Namespace ++ "/" ++ stream.Spec.Codebase)
            stream.Spec.Codebase stage.meta.Namespace s2 with
        | (some err, s3) =>
          (some (Wrapf err ("failed to create " ++ pipe.meta.Name ++ "-" ++ stage.Spec.Name
            ++ "-" ++ stream.Spec.Codebase ++ "-verified")), s3)
        | (none, s3) => PutCodebaseImageStream.promote c stage pipe registryUrl rest s3
    | ((_, err), s1) =>
      (some (Wrapf (err.getD (.notFound name))
        ("failed to get " ++ name ++ " codebase image stream")), s1)

/-- Modelled from the spec: `PutCodebaseImageStream.ServeRequest` is not in the sources,
only its tests are. It fetches the owning pipeline, then the registry URL, which "comes
from a platform component record named "docker-registry" in the owning namespace; its
absence is fatal", then promotes every input stream of the pipeline and serves the request
with the next handler. As in the tests, the component is fetched before any stream. -/
def PutCodebaseImageStream.ServeRequest {σ : Type} (h : PutCodebaseImageStream σ) :
    CdStageHandler σ := fun stage s =>
  match h.client.GetCdPipeline stage s with
  | ((some pipe, none), s1) =>
    match h.client.GetEDPComponent dockerRegistryName stage.meta.Namespace s1 with
    | ((some registry, none), s2) =>
      match PutCodebaseImageStream.promote h.client stage pipe registry.Url
          pipe.Spec.InputDockerStreams s2 with
      | (some err, s3) => (some err, s3)
      | (none, s3) => nextServeOrNil h.next stage s3
    | ((_, err), s2) =>
      (some (Wrapf (err.getD (.notFound dockerRegistryName))
        ("failed to get " ++ dockerRegistryName ++ " EDP component")), s2)
  | ((_, err), s1) =>
    (some (Wrapf (err.getD (.notFound stage.Spec.CdPipeline))
      ("couldn't get " ++ stage.Spec.CdPipeline ++ " cd pipeline")), s1)

/-! ### The objects of the tests of `PutCodebaseImageStream` -/

/-- The process environment, as `os.LookupEnv` reads it. -/
abbrev Env := String → Option String

/-- Embeds `os.Setenv`. -/
def Setenv (env : Env) (key value : String) : Env :=
  fun k => if k = key then some value else env k

/-- Embeds `os.Unsetenv`. -/
def Unsetenv (env : Env) (key : String) : Env :=
  fun k => if k = key then none else env k

/-- The name of the platform variable, `platform.TypeEnv`; the doc comment of
`DelegateNamespaceDeletion.ServeRequest` names it. -/
def platform.TypeEnv : String := "PLATFORM_TYPE"

/-- Embeds `platform.Openshift`. -/
def platform.Openshift : String := "openshift"

/-- Embeds `platform.Kubernetes`. -/
def platform.Kubernetes : String := "kubernetes"

/-- Modelled from the spec: `platform.GetPlatformTypeEnv` is not in the sources, only its
tests are. The platform is "environment-sourced": the value of the platform variable when
it is set, and `Openshift` when it is not. -/
def platform.GetPlatformTypeEnv (env : Env) : String :=
  match env platform.TypeEnv with
  | some platformType => platformType
  | none => platform.Openshift

/-- Modelled from the spec: `platform.IsKubernetes` is not in the sources, only its test
is: whether the platform type is `Kubernetes`. -/
def platform.IsKubernetes (env : Env) : Bool :=
  platform.GetPlatformTypeEnv env == platform.Kubernetes

/-- Whether a logged call is one that ensuring `step` in the namespace `ns` makes: the read
of the object under its name, or the creation of the object built from the step's
options. -/
def RbacCall.madeFor (ns : String) (step : EnsureStep) : RbacCall → Bool
  | .getRole key => step.isRole && key == { Namespace := ns, Name := step.name }
  | .createRole r =>
    step.isRole && r == { meta := { Name := step.name, Namespace := ns }, Rules := step.opts.pr }
  | .getRoleBinding key => !step.isRole && key == { Namespace := ns, Name := step.name }
  | .createRoleBinding rb =>
    !step.isRole && rb == { meta := { Name := step.name, Namespace := ns },
                            Subjects := step.opts.subjects, RoleRef := step.opts.rf }

/-! ### A pipeline whose metadata name is not its `Spec.Name` -/

/-- The pipeline object `cdp` whose `Spec.Name` is `pipe`. -/
def cdpPipeline : CDPipeline :=
  { meta := { Name := "cdp", Namespace := "ns" },
    Spec := { Name := "pipe", InputDockerStreams := ["app-main"] } }

/-- The entry stage `dev` of that pipeline: owned by the object `cdp`, naming the pipeline
`pipe`. -/
def cdpDevStage : Stage :=
  { meta := { Name := "cdp-dev", Namespace := "ns",
              OwnerReferences := [{ Kind := "CDPipeline", Name := "cdp" }] },
    Spec := { Name := "dev", CdPipeline := "pipe", Order := 0 } }

/-- The second stage `qa` of that pipeline. -/
def cdpQaStage : Stage :=
  { meta := { Name := "cdp-qa", Namespace := "ns",
              OwnerReferences := [{ Kind := "CDPipeline", Name := "cdp" }] },
    Spec := { Name := "qa", CdPipeline := "pipe", Order := 1 } }

/-- The stream that stage `dev` of that pipeline derives for codebase `app`. -/
def cdpDevVerifiedStream : CodebaseImageStream :=
  { meta := { Name := "cdp-dev-app-verified", Namespace := "ns",
              Labels := some [("pipe/qa", "v1")] },
    Spec := { Codebase := "app" } }

/-- That stream after the cleanup for stage `qa`. -/
def cdpDevVerifiedCleaned : CodebaseImageStream :=
  { meta := { Name := "cdp-dev-app-verified", Namespace := "ns", Labels := some [],
              Annotations := some [("deploy.edp.epam.com/last-deleted-envs", "pipe/qa")] },
    Spec := { Codebase := "app" } }

/-- The store of that pipeline. -/
def cdpStore : StageStore :=
  { pipelines := [cdpPipeline], streams := [rawStream, cdpDevVerifiedStream],
    stages := [cdpDevStage, cdpQaStage] }

/-! ## `CreateCDPipeline` (`service/cdpipeline.go`) -/

/-- Embeds `error.Error()`: the message of an error. A wrapped error prints its text, a
colon and its cause; a status error prints what it is about and its reason. -/
def Err.Error : Err → String
  | .notFound what => what ++ " not found"
  | .alreadyExists what => what ++ " already exists"
  | .errorf text => text
  | .wrap text cause => text ++ ": " ++ cause.Error

/-- The status of `edpv1alpha1.CDPipeline` (the type is not in the sources); a time is a
number. -/
structure edpv1alpha1.CDPipelineStatus where
  Status : String := ""
  LastTimeUpdated : Nat := 0
deriving DecidableEq, Repr

/-- The part of `edpv1alpha1.CDPipeline` that `CreateCDPipeline` reads or writes. -/
structure edpv1alpha1.CDPipeline where
  meta : ObjectMeta
  Spec : CDPipelineSpec := {}
  Status : edpv1alpha1.CDPipelineStatus := {}
deriving DecidableEq, Repr

/-- The part of a `Secret` that `getJenkinsCreds` reads. -/
structure Secret where
  Data : List (String × String) := []
deriving DecidableEq, Repr

def service.StatusInit : String := "initialized"
def service.StatusFailed : String := "failed"
def service.StatusFinished : String := "created"
def service.StatusInProgress : String := "in progress"

/-- What `CreateCDPipeline` calls outside the sources, over a world state `σ`: the clock
`time.Now`, the `Get` of a secret by namespace and name through the client set, and the
Jenkins client `J` with its constructor `jenkinsClient.Init(url, username, token)` and its
call `CreateFolder`. The typed `Get` answers an object next to its error. -/
structure service.Collaborators (σ J : Type) where
  Now : σ → Nat × σ
  GetSecret : String → String → σ → (Secret × Error) × σ
  Init : String → String → String → σ → Except Err J × σ
  CreateFolder : J → String → σ → Error × σ

/-- Embeds `setCdPipelineStatusFields`. -/
def service.setCdPipelineStatusFields (cr : edpv1alpha1.CDPipeline) (status : String)
    (time : Nat) : edpv1alpha1.CDPipeline :=
  { cr with Status := { cr.Status with Status := status, LastTimeUpdated := time } }

/-- Embeds `rollbackCdPipeline`. -/
def service.rollbackCdPipeline {σ J : Type} (w : service.Collaborators σ J)
    (cr : edpv1alpha1.CDPipeline) (s : σ) : edpv1alpha1.CDPipeline × σ :=
  (service.setCdPipelineStatusFields cr service.StatusFailed (w.Now s).1, (w.Now s).2)

/-- Embeds `getJenkinsCreds`: the token, the username and the error. -/
def service.getJenkinsCreds {σ J : Type} (w : service.Collaborators σ J) (ns : String)
    (s : σ) : (String × String × Error) × σ :=
  match w.GetSecret ns "jenkins-token" s with
  | ((_, some err), s1) => (("", "", some (.errorf err.Error)), s1)
  | ((jenkinsTokenSecret, none), s1) =>
    ((mapGet jenkinsTokenSecret.Data "token", mapGet jenkinsTokenSecret.Data "username", none),
      s1)

/-- Embeds `CreateCDPipeline`: the error, and the pipeline object and the world as the call
left them. `ClientSet.CreateOpenshiftClients()` only builds the client set that `GetSecret`
stands for. -/
def service.CreateCDPipeline {σ J : Type} (w : service.Collaborators σ J)
    (cr : edpv1alpha1.CDPipeline) (s : σ) : Error × edpv1alpha1.CDPipeline × σ :=
  if cr.Status.Status != service.StatusInit then
    (some (.errorf ("CD Pipeline " ++ cr.Spec.Name ++ " is not in init status. Skipped")),
      cr, s)
  else
    let cr1 := service.setCdPipelineStatusFields cr service.StatusInProgress (w.Now s).1
    let jenkinsUrl := "http://jenkins." ++ cr1.meta.Namespace ++ ":8080"
    match service.getJenkinsCreds w cr1.meta.Namespace (w.Now s).2 with
    | ((_, _, some err), s1) =>
      (some err, service.rollbackCdPipeline w cr1 s1)
    | ((jenkinsToken, jenkinsUsername, none), s1) =>
      match w.Init jenkinsUrl jenkinsUsername jenkinsToken s1 with
      | (.error err, s2) => (some err, service.rollbackCdPipeline w cr1 s2)
      | (.ok jenkins, s2) =>
        match w.CreateFolder jenkins (cr1.meta.Name ++ "-cd-pipeline") s2 with
        | (some err, s3) => (some err, service.rollbackCdPipeline w cr1 s3)
        | (none, s3) =>
          (none, service.setCdPipelineStatusFields cr1 service.StatusFinished (w.Now s3).1,
            (w.Now s3).2)

/-- Collaborators over a clock: the secret `jenkins-token` is present in the namespaces of
`known`, the client is built for every URL, and the folder `failing` cannot be created. -/
def service.clockCollaborators (known : List String) (failing : String) :
    service.Collaborators Nat String where
  Now s := (s, s + 1)
  GetSecret ns name s :=
    if ns ∈ known then (({ Data := [("token", "t0"), ("username", "admin")] }, none), s)
    else (({}, some (.notFound ("secrets " ++ name))), s)
  Init url _ _ s := (.ok url, s)
  CreateFolder _ name s := if name = failing then (some (.errorf "folder refused"), s) else (none, s)

/-- A pipeline in the status `initialized`. -/
def service.initPipeline : edpv1alpha1.CDPipeline :=
  { meta := { Name := "pipe", Namespace := "ns" }, Spec := { Name := "pipe" },
    Status := { Status := "initialized", LastTimeUpdated := 3 } }

/-! ### A pipeline whose input stream is named like a derived stream -/

/-- C1: `DelegateNamespaceCreation.ServeRequest` hands the request to the one chain
element that the table over (ManageNamespace, IsKubernetes, KioskEnabled) names, and
its result (error and cluster state) is that element's result; with elements that
only record themselves, exactly that one element is recorded. -/
theorem delegateNamespaceCreation_dispatch {σ : Type} (p : PlatformFlags) (impl : StepImpl σ)
    (next : Option (CdStageHandler σ)) (stage : Stage) (s : σ) (log : List NamespaceStep) :
    DelegateNamespaceCreation.ServeRequest p impl next stage s
        = impl (creationTable p.ManageNamespace p.IsKubernetes p.KioskEnabled) next stage s
      ∧ DelegateNamespaceCreation.ServeRequest p recordingImpl none stage log
        = (none, log ++ [creationTable p.ManageNamespace p.IsKubernetes p.KioskEnabled]) := by
  obtain ⟨m, k, q⟩ := p
  cases m <;> cases k <;> cases q <;>
    simp [DelegateNamespaceCreation.ServeRequest, nextServeOrNil, creationTable, recordingImpl]

/-! ## C2: get-or-create -/

/-- C2: `createRoleBinding` and `createRole` are get-or-create over any client. With the
calls logged: when `Get` answers NotFound the only further call is one `Create` of the
object built from the name, namespace and options, and the result is `nil` exactly when
that `Create` succeeded (its error wrapped otherwise); when `Get` answers an object the
log holds the `Get` alone, the state is the one `Get` left and the result is `nil`; when
`Get` fails otherwise its error is returned wrapped and the log holds the `Get` alone. -/
theorem createRole_createRoleBinding_getOrCreate {σ : Type} (c : RbacClient σ)
    (next : Option (CdStageHandler (σ × List RbacCall))) (name ns : String) (opts : options)
    (s : σ) (log : List RbacCall) :
    (∀ e s1, c.GetRoleBinding { Namespace := ns, Name := name } s = (.error e, s1) →
        IsNotFound e = true →
        (tracedConfigureRbac c next).createRoleBinding name ns opts (s, log)
          = ((c.CreateRoleBinding { meta := { Name := name, Namespace := ns }, Subjects := opts.subjects, RoleRef := opts.rf } s1).1.map
                fun err => Wrapf err ("unable to create " ++ name ++ " rolebinding"),
             (c.CreateRoleBinding { meta := { Name := name, Namespace := ns }, Subjects := opts.subjects, RoleRef := opts.rf } s1).2,
             log ++ [.getRoleBinding { Namespace := ns, Name := name },
                     .createRoleBinding { meta := { Name := name, Namespace := ns }, Subjects := opts.subjects, RoleRef := opts.rf }]))
    ∧ (∀ rb s1, c.GetRoleBinding { Namespace := ns, Name := name } s = (.ok rb, s1) →
        (tracedConfigureRbac c next).createRoleBinding name ns opts (s, log)
          = (none, s1, log ++ [.getRoleBinding { Namespace := ns, Name := name }]))
    ∧ (∀ e s1, c.GetRoleBinding { Namespace := ns, Name := name } s = (.error e, s1) →
        IsNotFound e = false →
        (tracedConfigureRbac c next).createRoleBinding name ns opts (s, log)
          = (some (Wrapf e ("unable to check existence of " ++ name ++ " rolebinding")),
             s1, log ++ [.getRoleBinding { Namespace := ns, Name := name }]))
    ∧ (∀ e s1, c.GetRole { Namespace := ns, Name := name } s = (.error e, s1) →
        IsNotFound e = true →
        (tracedConfigureRbac c next).createRole name ns opts (s, log)
          = ((c.CreateRole { meta := { Name := name, Namespace := ns }, Rules := opts.pr } s1).1.map
                fun err => Wrapf err ("unable to create " ++ name ++ " role"),
             (c.CreateRole { meta := { Name := name, Namespace := ns }, Rules := opts.pr } s1).2,
             log ++ [.getRole { Namespace := ns, Name := name },
                     .createRole { meta := { Name := name, Namespace := ns }, Rules := opts.pr }]))
    ∧ (∀ r s1, c.GetRole { Namespace := ns, Name := name } s = (.ok r, s1) →
        (tracedConfigureRbac c next).createRole name ns opts (s, log)
          = (none, s1, log ++ [.getRole { Namespace := ns, Name := name }]))
    ∧ (∀ e s1, c.GetRole { Namespace := ns, Name := name } s = (.error e, s1) →
        IsNotFound e = false →
        (tracedConfigureRbac c next).createRole name ns opts (s, log)
          = (some (Wrapf e ("unable to check existence of " ++ name ++ " role")),
             s1, log ++ [.getRole { Namespace := ns, Name := name }])) := by
  refine ⟨?_, ?_, ?_, ?_, ?_, ?_⟩
  · intro e s1 hget hnf
    cases hc : c.CreateRoleBinding { meta := { Name := name, Namespace := ns }, Subjects := opts.subjects, RoleRef := opts.rf } s1 with
    | mk r s2 =>
      cases r <;>
        simp [ConfigureRbac.createRoleBinding, ConfigureRbac.roleBindingExists,
          tracedConfigureRbac, InitRbacManager, KubernetesRbac.GetRoleBinding,
          KubernetesRbac.CreateRoleBinding, RbacClient.traced, hget, hnf, hc]
  · intro rb s1 hget
    simp [ConfigureRbac.createRoleBinding, ConfigureRbac.roleBindingExists,
      tracedConfigureRbac, InitRbacManager, KubernetesRbac.GetRoleBinding,
      RbacClient.traced, hget]
  · intro e s1 hget hnf
    simp [ConfigureRbac.createRoleBinding, ConfigureRbac.roleBindingExists,
      tracedConfigureRbac, InitRbacManager, KubernetesRbac.GetRoleBinding,
      RbacClient.traced, hget, hnf]
  · intro e s1 hget hnf
    cases hc : c.CreateRole { meta := { Name := name, Namespace := ns }, Rules := opts.pr } s1 with
    | mk r s2 =>
      cases r <;>
        simp [ConfigureRbac.createRole, ConfigureRbac.roleExists,
          tracedConfigureRbac, InitRbacManager, KubernetesRbac.GetRole,
          KubernetesRbac.CreateRole, RbacClient.traced, hget, hnf, hc]
  · intro r s1 hget
    simp [ConfigureRbac.createRole, ConfigureRbac.roleExists,
      tracedConfigureRbac, InitRbacManager, KubernetesRbac.GetRole,
      RbacClient.traced, hget]
  · intro e s1 hget hnf
    simp [ConfigureRbac.createRole, ConfigureRbac.roleExists,
      tracedConfigureRbac, InitRbacManager, KubernetesRbac.GetRole,
      RbacClient.traced, hget, hnf]

/-- Witness for C2 on the store of the test "rbac already exists": the existing
`jenkins-admin` binding is found and the store is left as it was; the absent role is
created after one `Get`; an error other than NotFound comes back wrapped. -/
theorem createRole_createRoleBinding_getOrCreate_witness :
    (tracedConfigureRbac storeRbacClient none).createRoleBinding "jenkins-admin"
        "test-ns-test-stage" (buildJenkinsAdminRoleOptions "openshift" "test-ns")
        (rbacAlreadyExistsStore, [])
      = (none, rbacAlreadyExistsStore,
          [] ++ [.getRoleBinding { Namespace := "test-ns-test-stage", Name := "jenkins-admin" }])
    ∧ ((tracedConfigureRbac storeRbacClient none).createRole "admin-console-view-deployments"
        "test-ns-test-stage" (buildAcViewRoleOptions "test-ns")
        (rbacAlreadyExistsStore, [])).1 = none
    ∧ (tracedConfigureRbac (failingRbacClient (.errorf "timeout")) none).createRole "r" "n" {}
        ((), [])
      = (some (Wrapf (.errorf "timeout") ("unable to check existence of " ++ "r" ++ " role")),
          (), [] ++ [.getRole { Namespace := "n", Name := "r" }]) :=
  ⟨(createRole_createRoleBinding_getOrCreate storeRbacClient none "jenkins-admin"
      "test-ns-test-stage" (buildJenkinsAdminRoleOptions "openshift" "test-ns")
      rbacAlreadyExistsStore []).2.1 _ _ rfl,
   by
    have h := (createRole_createRoleBinding_getOrCreate storeRbacClient none
      "admin-console-view-deployments" "test-ns-test-stage" (buildAcViewRoleOptions "test-ns")
      rbacAlreadyExistsStore []).2.2.2.1 (.notFound "admin-console-view-deployments")
      rbacAlreadyExistsStore rfl (by decide)
    rw [h]
    decide,
   (createRole_createRoleBinding_getOrCreate (failingRbacClient (.errorf "timeout")) none
      "r" "n" {} () []).2.2.2.2.2 _ _ rfl (by decide)⟩

/-! ## C3: idempotency of `ConfigureRbac.ServeRequest` -/

theorem find?_none_of_any_false {α : Type} (p : α → Bool) (l : List α)
    (h : l.any p = false) : l.find? p = none := by
  induction l with
  | nil => rfl
  | cons a t ih =>
    simp only [List.any_cons, Bool.or_eq_false_iff] at h
    simp [List.find?_cons, h.1, ih h.2]

theorem find?_some_of_any_true {α : Type} (p : α → Bool) (l : List α)
    (h : l.any p = true) : ∃ a, l.find? p = some a := by
  induction l with
  | nil => simp at h
  | cons a t ih =>
    by_cases hp : p a = true
    · exact ⟨a, by simp [List.find?_cons, hp]⟩
    · simp only [List.any_cons, Bool.or_eq_true] at h
      obtain ⟨b, hb⟩ := ih (h.resolve_left hp)
      exact ⟨b, by simp [List.find?_cons, hp, hb]⟩

/-- On the store, `createRole` is a `Get` alone when the role is present and a `Get`
followed by a successful `Create` when it is absent. -/
theorem createRole_store (name ns : String) (opts : options) (s : RbacStore)
    (log : List RbacCall) :
    (tracedConfigureRbac storeRbacClient none).createRole name ns opts (s, log) =
      if s.roles.any (fun r => r.meta.hasKey { Namespace := ns, Name := name }) then
        (none, s, log ++ [.getRole { Namespace := ns, Name := name }])
      else
        (none,
          { s with roles := s.roles ++ [{ meta := { Name := name, Namespace := ns }, Rules := opts.pr }] },
          log ++ [.getRole { Namespace := ns, Name := name },
            .createRole { meta := { Name := name, Namespace := ns }, Rules := opts.pr }]) := by
  by_cases h : s.roles.any (fun r => r.meta.hasKey { Namespace := ns, Name := name }) = true
  · obtain ⟨r, hr⟩ := find?_some_of_any_true _ _ h
    rw [if_pos h]
    simp [ConfigureRbac.createRole, ConfigureRbac.roleExists, tracedConfigureRbac,
      InitRbacManager, KubernetesRbac.GetRole, RbacClient.traced, storeRbacClient, hr]
  · rw [if_neg h]
    have h0 : s.roles.any (fun r => r.meta.hasKey { Namespace := ns, Name := name }) = false := by
      simpa using h
    have h1 : ¬ ∃ x ∈ s.roles, x.meta.hasKey { Namespace := ns, Name := name } = true := by
      simpa using h0
    have hf := find?_none_of_any_false _ _ h0
    simp [ConfigureRbac.createRole, ConfigureRbac.roleExists, tracedConfigureRbac,
      InitRbacManager, KubernetesRbac.GetRole, KubernetesRbac.CreateRole, RbacClient.traced,
      storeRbacClient, hf, IsNotFound, ObjectMeta.key, h1]

/-- On the store, `createRoleBinding` is a `Get` alone when the binding is present and a
`Get` followed by a successful `Create` when it is absent. -/
theorem createRoleBinding_store (name ns : String) (opts : options) (s : RbacStore)
    (log : List RbacCall) :
    (tracedConfigureRbac storeRbacClient none).createRoleBinding name ns opts (s, log) =
      if s.roleBindings.any (fun r => r.meta.hasKey { Namespace := ns, Name := name }) then
        (none, s, log ++ [.getRoleBinding { Namespace := ns, Name := name }])
      else
        (none,
          { s with roleBindings := s.roleBindings ++ [{ meta := { Name := name, Namespace := ns }, Subjects := opts.subjects, RoleRef := opts.rf }] },
          log ++ [.getRoleBinding { Namespace := ns, Name := name },
            .createRoleBinding { meta := { Name := name, Namespace := ns }, Subjects := opts.subjects, RoleRef := opts.rf }]) := by
  by_cases h : s.roleBindings.any (fun r => r.meta.hasKey { Namespace := ns, Name := name }) = true
  · obtain ⟨r, hr⟩ := find?_some_of_any_true _ _ h
    rw [if_pos h]
    simp [ConfigureRbac.createRoleBinding, ConfigureRbac.roleBindingExists, tracedConfigureRbac,
      InitRbacManager, KubernetesRbac.GetRoleBinding, RbacClient.traced, storeRbacClient, hr]
  · rw [if_neg h]
    have h0 : s.roleBindings.any
        (fun r => r.meta.hasKey { Namespace := ns, Name := name }) = false := by
      simpa using h
    have h1 : ¬ ∃ x ∈ s.roleBindings, x.meta.hasKey { Namespace := ns, Name := name } = true := by
      simpa using h0
    have hf := find?_none_of_any_false _ _ h0
    simp [ConfigureRbac.createRoleBinding, ConfigureRbac.roleBindingExists, tracedConfigureRbac,
      InitRbacManager, KubernetesRbac.GetRoleBinding, KubernetesRbac.CreateRoleBinding,
      RbacClient.traced, storeRbacClient, hf, IsNotFound, ObjectMeta.key, h1]

theorem hasKey_iff (m : ObjectMeta) (k : NamespacedName) :
    m.hasKey k = true ↔ k = { Namespace := m.Namespace, Name := m.Name } := by
  obtain ⟨kns, kname⟩ := k
  simp only [ObjectMeta.hasKey, Bool.and_eq_true, beq_iff_eq, NamespacedName.mk.injEq]
  constructor <;> rintro ⟨a, b⟩ <;> exact ⟨a.symm, b.symm⟩

theorem any_hasKey_iff_pos {α : Type} (f : α → ObjectMeta) (l : List α) (k : NamespacedName) :
    l.any (fun a => (f a).hasKey k) = true ↔ 0 < l.countP (fun a => (f a).hasKey k) := by
  rw [List.countP_pos_iff, List.any_eq_true]

/-- One `createRole` on the store: it succeeds, the role is present afterwards, nothing
is removed, a key is never held twice because of it, and bindings are untouched. -/
theorem createRole_step (name ns : String) (opts : options) (x : RbacStore × List RbacCall) :
    ∃ x', (tracedConfigureRbac storeRbacClient none).createRole name ns opts x = (none, x')
      ∧ 0 < x'.1.roleCount { Namespace := ns, Name := name }
      ∧ (∀ k, x.1.roleCount k ≤ x'.1.roleCount k)
      ∧ ((∀ k, x.1.roleCount k ≤ 1) → ∀ k, x'.1.roleCount k ≤ 1)
      ∧ x'.1.roleBindings = x.1.roleBindings := by
  obtain ⟨s, log⟩ := x
  rw [createRole_store]
  by_cases h : s.roles.any (fun r => r.meta.hasKey { Namespace := ns, Name := name }) = true
  · rw [if_pos h]
    exact ⟨_, rfl, (any_hasKey_iff_pos _ _ _).1 h, fun _ => le_rfl, fun hk => hk, rfl⟩
  · rw [if_neg h]
    have h0 : s.roleCount { Namespace := ns, Name := name } = 0 := by
      have := (any_hasKey_iff_pos (fun r : Role => r.meta) s.roles
        { Namespace := ns, Name := name }).not.1 h
      simpa [RbacStore.roleCount] using this
    refine ⟨_, rfl, ?_, ?_, ?_, rfl⟩
    · simp [RbacStore.roleCount, List.countP_append, ObjectMeta.hasKey]
    · intro k
      simp [RbacStore.roleCount, List.countP_append]
    · intro hk k
      by_cases hkey : k = { Namespace := ns, Name := name }
      · subst hkey
        simp only [RbacStore.roleCount] at h0
        rw [RbacStore.roleCount, List.countP_append, h0, Nat.zero_add]
        exact List.countP_le_length _
      · have hf : ObjectMeta.hasKey { Name := name, Namespace := ns } k = false := by
          have := (hasKey_iff { Name := name, Namespace := ns } k).not.2 hkey
          simpa using this
        have := hk k
        simp only [RbacStore.roleCount] at this
        simp [RbacStore.roleCount, List.countP_append, hf, this]

/-- One `createRoleBinding` on the store: it succeeds, the binding is present afterwards,
nothing is removed, a key is never held twice because of it, and roles are untouched. -/
theorem createRoleBinding_step (name ns : String) (opts : options)
    (x : RbacStore × List RbacCall) :
    ∃ x', (tracedConfigureRbac storeRbacClient none).createRoleBinding name ns opts x = (none, x')
      ∧ 0 < x'.1.roleBindingCount { Namespace := ns, Name := name }
      ∧ (∀ k, x.1.roleBindingCount k ≤ x'.1.roleBindingCount k)
      ∧ ((∀ k, x.1.roleBindingCount k ≤ 1) → ∀ k, x'.1.roleBindingCount k ≤ 1)
      ∧ x'.1.roles = x.1.roles := by
  obtain ⟨s, log⟩ := x
  rw [createRoleBinding_store]
  by_cases h : s.roleBindings.any
      (fun r => r.meta.hasKey { Namespace := ns, Name := name }) = true
  · rw [if_pos h]
    exact ⟨_, rfl, (any_hasKey_iff_pos _ _ _).1 h, fun _ => le_rfl, fun hk => hk, rfl⟩
  · rw [if_neg h]
    have h0 : s.roleBindingCount { Namespace := ns, Name := name } = 0 := by
      have := (any_hasKey_iff_pos (fun r : RoleBinding => r.meta) s.roleBindings
        { Namespace := ns, Name := name }).not.1 h
      simpa [RbacStore.roleBindingCount] using this
    refine ⟨_, rfl, ?_, ?_, ?_, rfl⟩
    · simp [RbacStore.roleBindingCount, List.countP_append, ObjectMeta.hasKey]
    · intro k
      simp [RbacStore.roleBindingCount, List.countP_append]
    · intro hk k
      by_cases hkey : k = { Namespace := ns, Name := name }
      · subst hkey
        simp only [RbacStore.roleBindingCount] at h0
        rw [RbacStore.roleBindingCount, List.countP_append, h0, Nat.zero_add]
        exact List.countP_le_length _
      · have hf : ObjectMeta.hasKey { Name := name, Namespace := ns } k = false := by
          have := (hasKey_iff { Name := name, Namespace := ns } k).not.2 hkey
          simpa using this
        have := hk k
        simp only [RbacStore.roleBindingCount] at this
        simp [RbacStore.roleBindingCount, List.countP_append, hf, this]

/-- A role that is present makes `createRole` a single `Get`. -/
theorem createRole_present (name ns : String) (opts : options) (s : RbacStore)
    (log : List RbacCall) (h : 0 < s.roleCount { Namespace := ns, Name := name }) :
    (tracedConfigureRbac storeRbacClient none).createRole name ns opts (s, log)
      = (none, s, log ++ [.getRole { Namespace := ns, Name := name }]) := by
  rw [createRole_store, if_pos ((any_hasKey_iff_pos _ _ _).2 h)]

/-- A binding that is present makes `createRoleBinding` a single `Get`. -/
theorem createRoleBinding_present (name ns : String) (opts : options) (s : RbacStore)
    (log : List RbacCall) (h : 0 < s.roleBindingCount { Namespace := ns, Name := name }) :
    (tracedConfigureRbac storeRbacClient none).createRoleBinding name ns opts (s, log)
      = (none, s, log ++ [.getRoleBinding { Namespace := ns, Name := name }]) := by
  rw [createRoleBinding_store, if_pos ((any_hasKey_iff_pos _ _ _).2 h)]

theorem countP_hasKey_le_one {α : Type} (f : α → ObjectMeta) (l : List α)
    (h : (l.map (fun a => (f a).key)).Nodup) (k : NamespacedName) :
    l.countP (fun a => (f a).hasKey k) ≤ 1 := by
  have hc := List.nodup_iff_count_le_one.1 h k
  rw [List.count_eq_countP, List.countP_map] at hc
  have hfun : ((fun x => x == k) ∘ fun a => (f a).key) = fun a => (f a).hasKey k := by
    funext a
    rw [Bool.eq_iff_iff]
    simp only [Function.comp, beq_iff_eq, hasKey_iff, ObjectMeta.key]
    exact eq_comm
  rwa [hfun] at hc

/-- The first run on any store succeeds and leaves every object of the run present. -/
theorem configureRbac_first_run (platformType : String) (stage : Stage) (s : RbacStore) :
    ∃ s1 log1, runConfigureRbac platformType stage s = (none, s1, log1)
      ∧ 0 < s1.roleCount { Namespace := generateTargetNamespaceName stage, Name := acViewRoleName }
      ∧ 0 < s1.roleBindingCount
          { Namespace := generateTargetNamespaceName stage, Name := acViewRbName }
      ∧ 0 < s1.roleBindingCount
          { Namespace := generateTargetNamespaceName stage, Name := jenkinsAdminRbName }
      ∧ (platformType = clusterOpenshiftType → 0 < s1.roleBindingCount
          { Namespace := generateTargetNamespaceName stage,
            Name := generateViewGroupRbName stage.meta.Namespace })
      ∧ ((∀ k, s.roleCount k ≤ 1) → ∀ k, s1.roleCount k ≤ 1)
      ∧ ((∀ k, s.roleBindingCount k ≤ 1) → ∀ k, s1.roleBindingCount k ≤ 1) := by
  obtain ⟨x1, e1, p1, -, w1, b1⟩ := createRole_step acViewRoleName
    (generateTargetNamespaceName stage) (buildAcViewRoleOptions stage.meta.Namespace) (s, [])
  obtain ⟨x2, e2, p2, -, w2, r2⟩ := createRoleBinding_step acViewRbName
    (generateTargetNamespaceName stage) (buildAcViewRoleOptions stage.meta.Namespace) x1
  obtain ⟨x3, e3, p3, m3, w3, r3⟩ := createRoleBinding_step jenkinsAdminRbName
    (generateTargetNamespaceName stage)
    (buildJenkinsAdminRoleOptions platformType stage.meta.Namespace) x2
  have hb1 : ∀ k, x1.1.roleBindingCount k = s.roleBindingCount k := fun k => by
    simp only [RbacStore.roleBindingCount, b1]
  have hr2 : ∀ k, x2.1.roleCount k = x1.1.roleCount k := fun k => by
    simp only [RbacStore.roleCount, r2]
  have hr3 : ∀ k, x3.1.roleCount k = x2.1.roleCount k := fun k => by
    simp only [RbacStore.roleCount, r3]
  by_cases hp : platformType = clusterOpenshiftType
  · obtain ⟨x4, e4, p4, m4, w4, r4⟩ := createRoleBinding_step
      (generateViewGroupRbName stage.meta.Namespace) (generateTargetNamespaceName stage)
      (buildViewGroupRoleOptions stage.meta.Namespace) x3
    have hr4 : ∀ k, x4.1.roleCount k = x3.1.roleCount k := fun k => by
      simp only [RbacStore.roleCount, r4]
    refine ⟨x4.1, x4.2, ?_, ?_, ?_, ?_, fun _ => p4, ?_, ?_⟩
    · simp only [runConfigureRbac, ConfigureRbac.ServeRequest, e1, e2, e3, e4]
      simp [hp, nextServeOrNil, tracedConfigureRbac]
    · rw [hr4, hr3, hr2]; exact p1
    · exact lt_of_lt_of_le p2 ((m3 _).trans (m4 _))
    · exact lt_of_lt_of_le p3 (m4 _)
    · intro hk k
      rw [hr4, hr3, hr2]
      exact w1 hk k
    · intro hk
      exact w4 (w3 (w2 (fun k => (hb1 k).le.trans (hk k))))
  · refine ⟨x3.1, x3.2, ?_, ?_, ?_, p3, fun h => absurd h hp, ?_, ?_⟩
    · simp only [runConfigureRbac, ConfigureRbac.ServeRequest, e1, e2, e3]
      simp [hp, nextServeOrNil, tracedConfigureRbac]
    · rw [hr3, hr2]; exact p1
    · exact lt_of_lt_of_le p2 (m3 _)
    · intro hk k
      rw [hr3, hr2]
      exact w1 hk k
    · intro hk
      exact w3 (w2 (fun k => (hb1 k).le.trans (hk k)))

/-- A run on a store that already holds every object of the run only reads. -/
theorem configureRbac_noop (platformType : String) (stage : Stage) (s : RbacStore)
    (h1 : 0 < s.roleCount
      { Namespace := generateTargetNamespaceName stage, Name := acViewRoleName })
    (h2 : 0 < s.roleBindingCount
      { Namespace := generateTargetNamespaceName stage, Name := acViewRbName })
    (h3 : 0 < s.roleBindingCount
      { Namespace := generateTargetNamespaceName stage, Name := jenkinsAdminRbName })
    (h4 : platformType = clusterOpenshiftType → 0 < s.roleBindingCount
      { Namespace := generateTargetNamespaceName stage,
        Name := generateViewGroupRbName stage.meta.Namespace }) :
    ∃ log, runConfigureRbac platformType stage s = (none, s, log)
      ∧ ∀ call ∈ log, call.isCreate = false := by
  by_cases hp : platformType = clusterOpenshiftType
  · have hrun : runConfigureRbac platformType stage s = (none, s,
        [.getRole { Namespace := generateTargetNamespaceName stage, Name := acViewRoleName },
         .getRoleBinding { Namespace := generateTargetNamespaceName stage, Name := acViewRbName },
         .getRoleBinding
           { Namespace := generateTargetNamespaceName stage, Name := jenkinsAdminRbName },
         .getRoleBinding { Namespace := generateTargetNamespaceName stage,
                           Name := generateViewGroupRbName stage.meta.Namespace }]) := by
      simp only [runConfigureRbac, ConfigureRbac.ServeRequest, createRole_present _ _ _ _ _ h1,
        createRoleBinding_present _ _ _ _ _ h2, createRoleBinding_present _ _ _ _ _ h3,
        createRoleBinding_present _ _ _ _ _ (h4 hp)]
      simp [hp, nextServeOrNil, tracedConfigureRbac]
    refine ⟨_, hrun, ?_⟩
    intro call hc
    simp only [List.mem_cons, List.mem_singleton, List.not_mem_nil, or_false] at hc
    rcases hc with hc | hc | hc | hc <;> subst hc <;> rfl
  · have hrun : runConfigureRbac platformType stage s = (none, s,
        [.getRole { Namespace := generateTargetNamespaceName stage, Name := acViewRoleName },
         .getRoleBinding { Namespace := generateTargetNamespaceName stage, Name := acViewRbName },
         .getRoleBinding
           { Namespace := generateTargetNamespaceName stage, Name := jenkinsAdminRbName }]) := by
      simp only [runConfigureRbac, ConfigureRbac.ServeRequest, createRole_present _ _ _ _ _ h1,
        createRoleBinding_present _ _ _ _ _ h2, createRoleBinding_present _ _ _ _ _ h3]
      simp [hp, nextServeOrNil, tracedConfigureRbac]
    refine ⟨_, hrun, ?_⟩
    intro call hc
    simp only [List.mem_cons, List.mem_singleton, List.not_mem_nil, or_false] at hc
    rcases hc with hc | hc | hc <;> subst hc <;> rfl

/-- C3: on a store whose `Get` and `Create` do not fail by themselves, and with no next
handler, the first run of `ConfigureRbac.ServeRequest` returns no error; a second run on
the resulting store returns no error, logs no `Create`, and leaves the Roles and
RoleBindings exactly as the first run left them. When the initial store holds no key
twice, the store after the first run holds exactly one object for each logical name of
the run. -/
theorem configureRbac_idempotent (platformType : String) (stage : Stage) (s : RbacStore) :
    (runConfigureRbac platformType stage s).1 = none
    ∧ (runConfigureRbac platformType stage (runConfigureRbac platformType stage s).2.1).1 = none
    ∧ (runConfigureRbac platformType stage (runConfigureRbac platformType stage s).2.1).2.1
        = (runConfigureRbac platformType stage s).2.1
    ∧ (∀ call ∈
        (runConfigureRbac platformType stage (runConfigureRbac platformType stage s).2.1).2.2,
        call.isCreate = false)
    ∧ ((s.roles.map (fun r => r.meta.key)).Nodup →
       (s.roleBindings.map (fun rb => rb.meta.key)).Nodup →
        (runConfigureRbac platformType stage s).2.1.roleCount
            { Namespace := generateTargetNamespaceName stage, Name := acViewRoleName } = 1
        ∧ (runConfigureRbac platformType stage s).2.1.roleBindingCount
            { Namespace := generateTargetNamespaceName stage, Name := acViewRbName } = 1
        ∧ (runConfigureRbac platformType stage s).2.1.roleBindingCount
            { Namespace := generateTargetNamespaceName stage, Name := jenkinsAdminRbName } = 1
        ∧ (platformType = clusterOpenshiftType →
            (runConfigureRbac platformType stage s).2.1.roleBindingCount
              { Namespace := generateTargetNamespaceName stage,
                Name := generateViewGroupRbName stage.meta.Namespace } = 1)) := by
  obtain ⟨s1, log1, hrun1, p1, p2, p3, p4, w1, w2⟩ :=
    configureRbac_first_run platformType stage s
  obtain ⟨log2, hrun2, hlog2⟩ := configureRbac_noop platformType stage s1 p1 p2 p3 p4
  have e0 : (runConfigureRbac platformType stage s).1 = none := by rw [hrun1]
  have e1 : (runConfigureRbac platformType stage s).2.1 = s1 := by rw [hrun1]
  rw [e1, hrun2]
  refine ⟨e0, rfl, rfl, hlog2, ?_⟩
  intro hr hb
  have hr1 := w1 (countP_hasKey_le_one (fun r : Role => r.meta) s.roles hr)
  have hb1 := w2 (countP_hasKey_le_one (fun rb : RoleBinding => rb.meta) s.roleBindings hb)
  refine ⟨le_antisymm (hr1 _) p1, le_antisymm (hb1 _) p2, le_antisymm (hb1 _) p3, ?_⟩
  intro hp
  exact le_antisymm (hb1 _) (p4 hp)

/-- Witness for C3: the stage `test-stage` of `test-ns` on openshift, run on the store that
already holds the `jenkins-admin` binding. -/
theorem configureRbac_idempotent_witness :
    (runConfigureRbac "openshift" { meta := { Name := "test-stage", Namespace := "test-ns" } }
        rbacAlreadyExistsStore).2.1.roleCount
        { Namespace := "test-ns-test-stage", Name := "admin-console-view-deployments" } = 1
    ∧ (runConfigureRbac "openshift" { meta := { Name := "test-stage", Namespace := "test-ns" } }
        rbacAlreadyExistsStore).2.1.roleBindingCount
        { Namespace := "test-ns-test-stage", Name := "jenkins-admin" } = 1 :=
  have h := (configureRbac_idempotent "openshift"
    { meta := { Name := "test-stage", Namespace := "test-ns" } }
    rbacAlreadyExistsStore).2.2.2.2 (by decide) (by decide)
  ⟨h.1, h.2.2.1⟩

/-! ## C4: the history annotation under retried cleanup -/

/-- C4 as stated fails for an environment string that holds a comma: recording `a,b`
into an empty history and recording it again gives `a,b,a,b`. -/
theorem buildAnnotationValue_not_idempotent :
    buildAnnotationValue (buildAnnotationValue "" "a,b") "a,b" = "a,b,a,b"
    ∧ buildAnnotationValue "" "a,b" = "a,b"
    ∧ ¬ (∀ envs val : String,
        buildAnnotationValue (buildAnnotationValue envs val) val
          = buildAnnotationValue envs val) := by
  refine ⟨by decide, by decide, ?_⟩
  intro h
  exact absurd (h "" "a,b") (by decide)

theorem splitChars_ne_nil (sep : Char) (cs : List Char) : splitChars sep cs ≠ [] := by
  cases cs with
  | nil => simp [splitChars]
  | cons c cs =>
    unfold splitChars
    split
    · simp
    · split <;> simp

/-- Splitting at a separator that joins two lists splits each side on its own. -/
theorem splitChars_append_sep (sep : Char) (a b : List Char) :
    splitChars sep (a ++ sep :: b) = splitChars sep a ++ splitChars sep b := by
  induction a with
  | nil => simp [splitChars]
  | cons c a ih =>
    by_cases hc : c = sep
    · simp [splitChars, hc, ih]
    · have hne := splitChars_ne_nil sep a
      cases hsa : splitChars sep a with
      | nil => exact absurd hsa hne
      | cons piece pieces => simp [splitChars, hc, ih, hsa]

/-- A list without the separator is a single piece. -/
theorem splitChars_of_not_mem (sep : Char) (a : List Char) (h : sep ∉ a) :
    splitChars sep a = [a] := by
  induction a with
  | nil => rfl
  | cons c a ih =>
    simp only [List.mem_cons, not_or] at h
    have hc : ¬ c = sep := fun e => h.1 e.symm
    simp [splitChars, hc, ih h.2]

theorem Split_append_comma (a b : String) :
    Split (a ++ "," ++ b) ',' = Split a ',' ++ Split b ',' := by
  have hd : (a ++ "," ++ b).data = a.data ++ ',' :: b.data := by
    simp [String.data_append]
  simp [Split, hd, splitChars_append_sep]

theorem Split_of_not_mem (s : String) (sep : Char) (h : sep ∉ s.data) : Split s sep = [s] := by
  simp [Split, splitChars_of_not_mem sep s.data h]

theorem findVal_append (l1 l2 : List String) (val : String) :
    findVal (l1 ++ l2) val = (findVal l1 val || findVal l2 val) := by
  induction l1 with
  | nil => simp [findVal]
  | cons e l1 ih =>
    by_cases he : e = val <;> simp [findVal, he, ih]

theorem findVal_singleton_self (val : String) : findVal [val] val = true := by
  simp [findVal]

/-- C4, amended: for an environment string without a comma, recording it a second time
leaves the history annotation as the first recording made it. -/
theorem buildAnnotationValue_idempotent (envs val : String) (hval : ',' ∉ val.data) :
    buildAnnotationValue (buildAnnotationValue envs val) val = buildAnnotationValue envs val := by
  by_cases he : (envs.length == 0) = true
  · have h1 : buildAnnotationValue envs val = val := by simp [buildAnnotationValue, he]
    rw [h1]
    unfold buildAnnotationValue
    split
    · rfl
    · rw [Split_of_not_mem val ',' hval, findVal_singleton_self]
      simp
  · by_cases hf : findVal (Split envs ',') val = true
    · have h1 : buildAnnotationValue envs val = envs := by simp [buildAnnotationValue, he, hf]
      rw [h1, h1]
    · have h1 : buildAnnotationValue envs val = envs ++ "," ++ val := by
        simp [buildAnnotationValue, he, hf]
      rw [h1]
      have hcomma : ",".length = 1 := rfl
      have hlen : ((envs ++ "," ++ val).length == 0) = false := by
        rw [beq_eq_false_iff_ne, String.length_append, String.length_append, hcomma]
        omega
      unfold buildAnnotationValue
      rw [hlen, Split_append_comma, findVal_append, Split_of_not_mem val ',' hval,
        findVal_singleton_self]
      simp

/-- Witness for C4, amended: the environment `pipe/dev` recorded into the history `pipe/qa`. -/
theorem buildAnnotationValue_idempotent_witness :
    buildAnnotationValue (buildAnnotationValue "pipe/qa" "pipe/dev") "pipe/dev"
      = buildAnnotationValue "pipe/qa" "pipe/dev" :=
  buildAnnotationValue_idempotent "pipe/qa" "pipe/dev" (by decide)

/-! ## C9: which stream the cleanup of a later stage edits -/

/-- With the pipeline fetched and its input list not empty, `deleteEnvironmentLabel` is the
loop over the whole input list. -/
theorem deleteEnvironmentLabel_enters_loop {σ : Type} (h : StageClient σ) (stage : Stage)
    (pipe : CDPipeline) (s0 s : σ) (log : List StageCall)
    (hpipe : h.GetCdPipeline stage s0 = ((some pipe, none), s))
    (hne : pipe.Spec.InputDockerStreams ≠ []) :
    deleteEnvironmentLabel h.traced stage (s0, log)
      = deleteEnvironmentLabelLoop h.traced stage pipe pipe.Spec.InputDockerStreams
          (s, log ++ [.getCdPipeline stage]) := by
  have hlen : (pipe.Spec.InputDockerStreams.length == 0) = false := by
    cases hl : pipe.Spec.InputDockerStreams with
    | nil => exact absurd hl hne
    | cons a t => rfl
  simp [deleteEnvironmentLabel, StageClient.traced, hpipe, hlen]

theorem setAnnotation_key (m : ObjectMeta) (val : String) :
    ( setAnnotation m val).key = m.key := by
  unfold setAnnotation
  cases m.Annotations <;> rfl

theorem deleteLabel_key (m : ObjectMeta) (label : String) : (deleteLabel m label).key = m.key := by
  unfold deleteLabel
  cases m.Labels <;> rfl

theorem hasKey_eq_decide (m : ObjectMeta) (k : NamespacedName) :
    m.hasKey k = decide (k = m.key) := by
  rw [Bool.eq_iff_iff, hasKey_iff, decide_eq_true_iff, ObjectMeta.key]

/-- Replacing the elements picked by `q` with `y` does not change what `find?` answers for
a predicate `p` that holds neither for `y` nor for any element picked by `q`. -/
theorem find?_map_replace {α : Type} (p q : α → Bool) (y : α) (l : List α)
    (hy : p y = false) (hpq : ∀ x, q x = true → p x = false) :
    (l.map (fun x => if q x then y else x)).find? p = l.find? p := by
  induction l with
  | nil => rfl
  | cons x t ih =>
    by_cases hq : q x = true
    · simp [List.find?_cons, hq, hy, hpq x hq, ih]
    · simp [List.find?_cons, hq, ih]

/-- C10 as stated fails for a stage that is not first: the cleanup of stage `qa` (Order 1)
of pipeline `pipe`, whose only input stream is `app-main`, edits and updates the derived
stream `pipe-dev-app-verified`; `app-main` keeps its label and gets no annotation. -/
theorem deleteEnvironmentLabel_edits_derived_stream :
    deleteEnvironmentLabel storeStageClient.traced qaStage (twoStageStore, [])
      = .done none
          ({ twoStageStore with streams := [rawStream, devVerifiedCleaned] },
           [.getCdPipeline qaStage,
            .getCodebaseImageStream "app-main" "ns", .findPreviousStage 1 "pipe" "ns",
            .getCodebaseImageStream "pipe-dev-app-verified" "ns",
            .updateCodebaseImageStream devVerifiedCleaned])
    ∧ pipePipeline.Spec.InputDockerStreams = ["app-main"]
    ∧ devVerifiedCleaned.meta.Name = "pipe-dev-app-verified"
    ∧ ¬ (∀ (stage : Stage) (store : StageStore) (pipe : CDPipeline) (stream : CodebaseImageStream),
          pipe ∈ store.pipelines →
          StageCall.updateCodebaseImageStream stream ∈
            (deleteEnvironmentLabel storeStageClient.traced stage (store, [])).state.2 →
          stream.meta.Name ∈ pipe.Spec.InputDockerStreams) := by
  have hrun : deleteEnvironmentLabel storeStageClient.traced qaStage (twoStageStore, [])
      = .done none
          ({ twoStageStore with streams := [rawStream, devVerifiedCleaned] },
           [.getCdPipeline qaStage,
            .getCodebaseImageStream "app-main" "ns", .findPreviousStage 1 "pipe" "ns",
            .getCodebaseImageStream "pipe-dev-app-verified" "ns",
            .updateCodebaseImageStream devVerifiedCleaned]) := by decide
  refine ⟨hrun, rfl, rfl, ?_⟩
  intro hall
  have hmem := hall qaStage twoStageStore pipePipeline devVerifiedCleaned (by decide)
    (by rw [hrun]; decide)
  exact absurd hmem (by decide)

/-- C10, amended: for a stage with `Order = 0`, `deleteEnvironmentLabel` runs its loop over
the pipeline's input streams, and one round of the loop on the input stream `name` reads
that input stream and issues exactly one `Update`: of that same stream, with the history
annotation set and the label deleted. No previous stage is looked up and no other stream
is read. -/
theorem deleteEnvironmentLabel_first_stage_updates_input {σ : Type} (h : StageClient σ)
    (stage : Stage) (horder : stage.Spec.Order = 0) :
    (∀ (pipe : CDPipeline) (s0 s : σ) (log : List StageCall),
      h.GetCdPipeline stage s0 = ((some pipe, none), s) →
      pipe.Spec.InputDockerStreams ≠ [] →
      deleteEnvironmentLabel h.traced stage (s0, log)
        = deleteEnvironmentLabelLoop h.traced stage pipe pipe.Spec.InputDockerStreams
            (s, log ++ [.getCdPipeline stage]))
    ∧ (∀ (pipe : CDPipeline) (name : String) (rest : List String) (s s1 : σ)
        (log : List StageCall) (raw : CodebaseImageStream),
      h.GetCodebaseImageStream name stage.meta.Namespace s = ((some raw, none), s1) →
      deleteEnvironmentLabelLoop h.traced stage pipe (name :: rest) (s, log) =
        match h.UpdateCodebaseImageStream
            { raw with
              meta := deleteLabel
                ( setAnnotation raw.meta (pipe.Spec.Name ++ "/" ++ stage.Spec.Name))
                (pipe.Spec.Name ++ "/" ++ stage.Spec.Name) } s1 with
        | (some err, s4) =>
          .done (some (Wrapf err ("couldn't update " ++ sprintStream
              { raw with
                meta := deleteLabel
                  ( setAnnotation raw.meta (pipe.Spec.Name ++ "/" ++ stage.Spec.Name))
                  (pipe.Spec.Name ++ "/" ++ stage.Spec.Name) }
              ++ " codebase image stream")))
            (s4, log ++
              [.getCodebaseImageStream name stage.meta.Namespace,
               .updateCodebaseImageStream
                 { raw with
                   meta := deleteLabel
                     ( setAnnotation raw.meta (pipe.Spec.Name ++ "/" ++ stage.Spec.Name))
                     (pipe.Spec.Name ++ "/" ++ stage.Spec.Name) }])
        | (none, s4) =>
          deleteEnvironmentLabelLoop h.traced stage pipe rest
            (s4, log ++
              [.getCodebaseImageStream name stage.meta.Namespace,
               .updateCodebaseImageStream
                 { raw with
                   meta := deleteLabel
                     ( setAnnotation raw.meta (pipe.Spec.Name ++ "/" ++ stage.Spec.Name))
                     (pipe.Spec.Name ++ "/" ++ stage.Spec.Name) }])) := by
  refine ⟨fun pipe s0 s log hpipe hne =>
    deleteEnvironmentLabel_enters_loop h stage pipe s0 s log hpipe hne, ?_⟩
  intro pipe name rest s s1 log raw hraw
  have hfirst : stage.IsFirst = true := by
    simp [Stage.IsFirst, horder]
  rw [deleteEnvironmentLabelLoop]
  simp only [StageClient.traced, hraw, hfirst]
  cases hu : h.UpdateCodebaseImageStream
      { raw with
        meta := deleteLabel
          ( setAnnotation raw.meta (pipe.Spec.Name ++ "/" ++ stage.Spec.Name))
          (pipe.Spec.Name ++ "/" ++ stage.Spec.Name) } s1 with
  | mk r s4 =>
    cases r <;> simp [hu]

/-- Witness for C10, amended: the cleanup of the entry stage `dev` updates the input stream
`app-main` itself and leaves the derived stream as it was. -/
theorem deleteEnvironmentLabel_first_stage_updates_input_witness :
    deleteEnvironmentLabel storeStageClient.traced devStage (twoStageStore, [])
      = .done none
          ({ twoStageStore with streams := [rawStreamCleaned, devVerifiedStream] },
           [.getCdPipeline devStage,
            .getCodebaseImageStream "app-main" "ns",
            .updateCodebaseImageStream rawStreamCleaned]) :=
  ((deleteEnvironmentLabel_first_stage_updates_input storeStageClient devStage rfl).1
      pipePipeline twoStageStore twoStageStore [] rfl (by decide)).trans
    (((deleteEnvironmentLabel_first_stage_updates_input storeStageClient devStage rfl).2
      pipePipeline "app-main" [] twoStageStore twoStageStore _ rawStream rfl).trans
      (by decide))

/-! ## C5: deferred deletion -/

/-- When the listing holds a blocking stage, the only call is the listing. -/
theorem tryToDeleteCDStage_of_blocking {σ : Type} (c : StageClient σ) (wait : Nat)
    (finalizer : String)
    (cleanup : Stage → σ × List StageCall → Outcome Error (σ × List StageCall))
    (stage : Stage) (ts : Nat) (hdel : stage.meta.DeletionTimestamp = some ts)
    (s s1 : σ) (log : List StageCall) (items : List Stage)
    (hlist : c.ListStages stage.meta.Namespace StageCdPipelineLabelName
      stage.Spec.CdPipeline s = ((items, none), s1))
    (hsib : ∃ x ∈ items, x.meta.Name ≠ stage.meta.Name ∧ x.Spec.Order ≥ stage.Spec.Order) :
    tryToDeleteCDStage
        { client := c.traced, deleteChain := cleanup, waitForParentStagesDeletion := wait,
          envLabelDeletionFinalizer := finalizer } stage (s, log)
      = .done (some { RequeueAfter := wait }, none)
          (s1, log ++ [.listStages stage.meta.Namespace StageCdPipelineLabelName
            stage.Spec.CdPipeline]) := by
  have hany : items.any (blocksDeletion stage) = true := by
    obtain ⟨x, hx, hname, hord⟩ := hsib
    rw [List.any_eq_true]
    exact ⟨x, hx, by simp [blocksDeletion, hname, hord]⟩
  simp [tryToDeleteCDStage, hdel, StageClient.traced, hlist, hany]

/-- C5: on a deletion request, when the listing of the stage's namespace by the stage's
pipeline label holds a stage other than the stage itself whose `Order` is greater than or
equal to the stage's, `tryToDeleteCDStage` returns no error and the result
`RequeueAfter: waitForParentStagesDeletion`; the only call it makes is the listing, so the
cleanup chain is not run and no stage is updated (the finalizer stays). On the object
store the same holds for any such stage of the same namespace and pipeline label, and the
store is left as it was. -/
theorem tryToDeleteCDStage_defers {σ : Type} (c : StageClient σ) (wait : Nat)
    (finalizer : String)
    (cleanup : Stage → σ × List StageCall → Outcome Error (σ × List StageCall))
    (stage : Stage) (ts : Nat) (hdel : stage.meta.DeletionTimestamp = some ts) :
    (∀ (s s1 : σ) (log : List StageCall) (items : List Stage),
      c.ListStages stage.meta.Namespace StageCdPipelineLabelName stage.Spec.CdPipeline s
        = ((items, none), s1) →
      (∃ x ∈ items, x.meta.Name ≠ stage.meta.Name ∧ x.Spec.Order ≥ stage.Spec.Order) →
      tryToDeleteCDStage
          { client := c.traced, deleteChain := cleanup, waitForParentStagesDeletion := wait,
            envLabelDeletionFinalizer := finalizer } stage (s, log)
        = .done (some { RequeueAfter := wait }, none)
            (s1, log ++ [.listStages stage.meta.Namespace StageCdPipelineLabelName
              stage.Spec.CdPipeline]))
    ∧ (∀ store : StageStore,
      (∃ x ∈ store.stages, x.meta.Namespace = stage.meta.Namespace
        ∧ x.meta.hasLabel StageCdPipelineLabelName stage.Spec.CdPipeline = true
        ∧ x.meta.Name ≠ stage.meta.Name ∧ x.Spec.Order ≥ stage.Spec.Order) →
      tryToDeleteCDStage (tracedReconcileStage storeStageClient wait finalizer) stage (store, [])
        = .done (some { RequeueAfter := wait }, none)
            (store, [.listStages stage.meta.Namespace StageCdPipelineLabelName
              stage.Spec.CdPipeline])) := by
  refine ⟨fun s s1 log items hlist hsib =>
    tryToDeleteCDStage_of_blocking c wait finalizer cleanup stage ts hdel s s1 log items
      hlist hsib, ?_⟩
  intro store hsib
  obtain ⟨x, hx, hns, hlabel, hname, hord⟩ := hsib
  have h := tryToDeleteCDStage_of_blocking storeStageClient wait finalizer
    (deleteEnvironmentLabel storeStageClient.traced) stage ts hdel store store []
    (store.stages.filter (fun y => y.meta.Namespace == stage.meta.Namespace
      && y.meta.hasLabel StageCdPipelineLabelName stage.Spec.CdPipeline)) rfl
    ⟨x, by simp [List.mem_filter, hx, hns, hlabel], hname, hord⟩
  simpa [tracedReconcileStage] using h

/-- Witness for C5: `TestTryToDeleteCDStage_PostponeDeletion`. The stage of Order 0 is
marked for deletion while a stage of Order 1 of the same pipeline exists; the result asks
for a requeue after the backoff and the store is unchanged. -/
theorem tryToDeleteCDStage_defers_witness :
    tryToDeleteCDStage (tracedReconcileStage storeStageClient 5 "envLabelDeletion")
        stageToRemove ({ stages := [stageToRemove, parentStage] }, [])
      = .done (some { RequeueAfter := 5 }, none)
          ({ stages := [stageToRemove, parentStage] },
           [.listStages "stage-namespace" StageCdPipelineLabelName "cd-pipeline-name"]) :=
  (tryToDeleteCDStage_defers storeStageClient 5 "envLabelDeletion"
    (deleteEnvironmentLabel storeStageClient.traced) stageToRemove 1 rfl).2
    { stages := [stageToRemove, parentStage] } ⟨parentStage, by decide⟩

/-! ## C6: the last stage -/

theorem hasGreaterOrder_eq_true (order : Int) (items : List Stage) :
    hasGreaterOrder order items = true ↔ ∃ x ∈ items, x.Spec.Order > order := by
  induction items with
  | nil => simp [hasGreaterOrder]
  | cons x rest ih =>
    by_cases hx : x.Spec.Order > order
    · simp [hasGreaterOrder, hx]
    · simp [hasGreaterOrder, hx, ih]

/-- C6: on the object store `isLastStage` returns no error, changes nothing, and answers
`true` exactly when no stage of the stage's namespace labelled with the stage's pipeline
has an `Order` strictly greater than the stage's. The three cases of
`TestReconcileStage_isLastStage` follow: a sibling of lower `Order` and a sibling of equal
`Order` give `true`, a sibling of greater `Order` gives `false`. -/
theorem isLastStage_iff (stage : Stage) (store : StageStore) :
    (isLastStage storeStageClient stage store).1.2 = none
    ∧ (isLastStage storeStageClient stage store).2 = store
    ∧ ((isLastStage storeStageClient stage store).1.1 = true ↔
        ∀ x ∈ store.stages, x.meta.Namespace = stage.meta.Namespace →
          x.meta.hasLabel StageCdPipelineLabelName stage.Spec.CdPipeline = true →
          x.Spec.Order ≤ stage.Spec.Order)
    ∧ (isLastStage storeStageClient (lastStageProbe 1) { stages := [lastStageSibling 0] }).1
        = (true, none)
    ∧ (isLastStage storeStageClient (lastStageProbe 1) { stages := [lastStageSibling 1] }).1
        = (true, none)
    ∧ (isLastStage storeStageClient (lastStageProbe 0) { stages := [lastStageSibling 1] }).1
        = (false, none) := by
  refine ⟨rfl, rfl, ?_, by decide, by decide, by decide⟩
  have hres : (isLastStage storeStageClient stage store).1.1
      = !hasGreaterOrder stage.Spec.Order
          (store.stages.filter (fun y => y.meta.Namespace == stage.meta.Namespace
            && y.meta.hasLabel StageCdPipelineLabelName stage.Spec.CdPipeline)) := rfl
  rw [hres, Bool.not_eq_true', ← Bool.not_eq_true, hasGreaterOrder_eq_true]
  constructor
  · intro h x hx hns hlabel
    by_contra hlt
    exact h ⟨x, by simp [List.mem_filter, hx, hns, hlabel], by omega⟩
  · rintro h ⟨x, hx, hgt⟩
    simp only [List.mem_filter, Bool.and_eq_true, beq_iff_eq] at hx
    have := h x hx.1 hx.2.1 hx.2.2
    omega

/-! ## C7 and C8: the quality-gate fragment -/

/-- The runs are the list cut into pieces: in order they give the list back, each run is
non-empty and of one type, and neighbouring runs are of different types. -/
theorem adjacentRuns_spec (gates : List QualityGate) :
    (adjacentRuns gates).flatten = gates
    ∧ (∀ run ∈ adjacentRuns gates, run ≠ [] ∧
        ∀ a ∈ run, ∀ b ∈ run, a.QualityGateType = b.QualityGateType)
    ∧ List.Chain'
        (fun r1 r2 : List QualityGate =>
          ∀ a ∈ r1, ∀ b ∈ r2, a.QualityGateType ≠ b.QualityGateType)
        (adjacentRuns gates) := by
  induction gates with
  | nil => simp [adjacentRuns]
  | cons g gs ih =>
    obtain ⟨hflat, hruns, hchain⟩ := ih
    cases hr : adjacentRuns gs with
    | nil =>
      rw [hr] at hflat
      simp only [List.flatten_nil] at hflat
      subst hflat
      simp [adjacentRuns]
    | cons first runs =>
      rw [hr] at hflat hruns hchain
      cases first with
      | nil => exact absurd rfl (hruns [] (List.mem_cons_self _ _)).1
      | cons h run =>
        have hhom := (hruns (h :: run) (List.mem_cons_self _ _)).2
        by_cases hty : g.QualityGateType = h.QualityGateType
        · have hres : adjacentRuns (g :: gs) = (g :: h :: run) :: runs := by
            simp [adjacentRuns, hr, hty]
          rw [hres]
          refine ⟨?_, ?_, ?_⟩
          · simpa using hflat
          · intro r hrmem
            rcases List.mem_cons.1 hrmem with rfl | hrmem
            · refine ⟨by simp, ?_⟩
              have hall : ∀ a ∈ g :: h :: run, a.QualityGateType = h.QualityGateType := by
                intro a ha
                rcases List.mem_cons.1 ha with rfl | ha
                · exact hty
                · exact hhom a ha h (List.mem_cons_self _ _)
              intro a ha b hb
              rw [hall a ha, hall b hb]
            · exact hruns r (List.mem_cons_of_mem _ hrmem)
          · rw [List.chain'_cons'] at hchain ⊢
            refine ⟨?_, hchain.2⟩
            intro r2 hr2 a ha b hb
            rcases List.mem_cons.1 ha with rfl | ha
            · rw [hty]
              exact hchain.1 r2 hr2 h (List.mem_cons_self _ _) b hb
            · exact hchain.1 r2 hr2 a ha b hb
        · have hres : adjacentRuns (g :: gs) = [g] :: (h :: run) :: runs := by
            simp [adjacentRuns, hr, hty]
          rw [hres]
          refine ⟨?_, ?_, ?_⟩
          · simpa using hflat
          · intro r hrmem
            rcases List.mem_cons.1 hrmem with rfl | hrmem
            · refine ⟨by simp, ?_⟩
              intro a ha b hb
              rw [List.mem_singleton.1 ha, List.mem_singleton.1 hb]
            · exact hruns r hrmem
          · rw [List.chain'_cons]
            refine ⟨?_, hchain⟩
            intro a ha b hb
            rw [List.mem_singleton.1 ha, hhom b hb h (List.mem_cons_self _ _)]
            exact hty

set_option maxRecDepth 100000 in
/-- C7: for a non-empty list `getQualityGateStages` returns, without error, the comma-join
of one fragment per run, where the runs cut the list in its original order into maximal
pieces of immediately adjacent gates of one `QualityGateType` (each run is non-empty and
of one type, neighbouring runs differ in type); a run of one gate renders as the bare
record, a longer run as `[` records joined by `,` `]`; a record is
`{"name":<QualityGateType>,"step_name":<StepName>}`. The two scenarios of the tests give
the expected strings. -/
theorem getQualityGateStages_runs :
    (∀ gates : List QualityGate, gates ≠ [] →
      getQualityGateStages gates
          = (some (",".intercalate ((adjacentRuns gates).map renderRun)), none)
      ∧ (adjacentRuns gates).flatten = gates
      ∧ (∀ run ∈ adjacentRuns gates, run ≠ [] ∧
          ∀ a ∈ run, ∀ b ∈ run, a.QualityGateType = b.QualityGateType)
      ∧ List.Chain'
          (fun r1 r2 : List QualityGate =>
            ∀ a ∈ r1, ∀ b ∈ r2, a.QualityGateType ≠ b.QualityGateType)
          (adjacentRuns gates)
      ∧ (∀ run ∈ adjacentRuns gates,
          (∀ g, run = [g] → renderRun run = qualityGateRecord g)
          ∧ (run.length > 1 →
              renderRun run = "[" ++ ",".intercalate (run.map qualityGateRecord) ++ "]")))
    ∧ (∀ g : QualityGate, qualityGateRecord g
        = "\x7b\"name\":\"" ++ g.QualityGateType ++ "\",\"step_name\":\"" ++ g.StepName
          ++ "\"\x7d")
    ∧ getQualityGateStages scenarioFirstGates
        = (some ("[\x7b\"name\":\"autotests\",\"step_name\":\"aut1\"\x7d,"
            ++ "\x7b\"name\":\"autotests\",\"step_name\":\"aut2\"\x7d,"
            ++ "\x7b\"name\":\"autotests\",\"step_name\":\"aut3\"\x7d,"
            ++ "\x7b\"name\":\"autotests\",\"step_name\":\"aut4\"\x7d],"
            ++ "\x7b\"name\":\"manual\",\"step_name\":\"man1\"\x7d"), none)
    ∧ getQualityGateStages scenarioSecondGates
        = (some ("[\x7b\"name\":\"autotests\",\"step_name\":\"aut1\"\x7d,"
            ++ "\x7b\"name\":\"autotests\",\"step_name\":\"aut3\"\x7d,"
            ++ "\x7b\"name\":\"autotests\",\"step_name\":\"aut4\"\x7d],"
            ++ "\x7b\"name\":\"manual\",\"step_name\":\"man1\"\x7d,"
            ++ "\x7b\"name\":\"autotests\",\"step_name\":\"aut2\"\x7d"), none) := by
  refine ⟨?_, fun _ => rfl, by decide, by decide⟩
  intro gates hne
  obtain ⟨hflat, hruns, hchain⟩ := adjacentRuns_spec gates
  refine ⟨?_, hflat, hruns, hchain, ?_⟩
  · cases gates with
    | nil => exact absurd rfl hne
    | cons g gs => simp [getQualityGateStages]
  · intro run _
    refine ⟨?_, ?_⟩
    · rintro g rfl
      rfl
    · intro hlen
      match run, hlen with
      | a :: b :: rest, _ => rfl

set_option maxRecDepth 100000 in
/-- Witness for C7: the gates of the second test scenario are cut into the runs
[aut1, aut3, aut4], [man1], [aut2]. -/
theorem getQualityGateStages_runs_witness :
    getQualityGateStages scenarioSecondGates
        = (some (",".intercalate ((adjacentRuns scenarioSecondGates).map renderRun)), none)
    ∧ adjacentRuns scenarioSecondGates
        = [[testGate "autotests" "aut1", testGate "autotests" "aut3",
            testGate "autotests" "aut4"],
           [testGate "manual" "man1"], [testGate "autotests" "aut2"]] :=
  ⟨(getQualityGateStages_runs.1 scenarioSecondGates (by decide)).1, by decide⟩

/-- C8: `getQualityGateStages` never returns an error; its string is absent exactly for the
empty (or nil) list, and present for every non-empty list. -/
theorem getQualityGateStages_absent_iff (gates : List QualityGate) :
    (getQualityGateStages gates).2 = none
    ∧ ((getQualityGateStages gates).1 = none ↔ gates = [])
    ∧ (gates ≠ [] → ∃ text, getQualityGateStages gates = (some text, none))
    ∧ getQualityGateStages [] = (none, none) := by
  cases gates with
  | nil => simp [getQualityGateStages]
  | cons g gs => simp [getQualityGateStages]

/-- Witness for C8: a list of one gate gives a present string. -/
theorem getQualityGateStages_absent_iff_witness :
    ∃ text, getQualityGateStages [testGate "manual" "man1"] = (some text, none) :=
  (getQualityGateStages_absent_iff [testGate "manual" "man1"]).2.2.1 (by decide)

/-! ## C20: dispatch of `DelegateNamespaceDeletion` -/

/-- C20: `DelegateNamespaceDeletion.ServeRequest` hands the request to `DeleteNamespace`
when the platform is kubernetes and to `DeleteOpenshiftProject` otherwise, and its result
is that element's result; the namespace-management and kiosk settings play no part, so
two configurations with the same platform type dispatch alike. In particular, with
namespace management disabled creation only dispatches `CheckNamespaceExist` while
deletion still dispatches a deleting element. -/
theorem delegateNamespaceDeletion_dispatch {σ : Type} (p : PlatformFlags) (impl : StepImpl σ)
    (next : Option (CdStageHandler σ)) (stage : Stage) (s : σ) (log : List NamespaceStep) :
    DelegateNamespaceDeletion.ServeRequest p impl next stage s
        = impl (if p.IsKubernetes then .DeleteNamespace else .DeleteOpenshiftProject)
            next stage s
    ∧ (DelegateNamespaceDeletion.ServeRequest p recordingImpl none stage log
        = (none, log ++ [NamespaceStep.DeleteNamespace]) ↔ p.IsKubernetes = true)
    ∧ (DelegateNamespaceDeletion.ServeRequest p recordingImpl none stage log
        = (none, log ++ [NamespaceStep.DeleteOpenshiftProject]) ↔ p.IsKubernetes = false)
    ∧ (∀ manage kiosk : Bool,
        DelegateNamespaceDeletion.ServeRequest
            { ManageNamespace := manage, IsKubernetes := p.IsKubernetes, KioskEnabled := kiosk }
            impl next stage s
          = DelegateNamespaceDeletion.ServeRequest p impl next stage s)
    ∧ (∀ kubernetes kiosk : Bool,
        DelegateNamespaceCreation.ServeRequest
            { ManageNamespace := false, IsKubernetes := kubernetes, KioskEnabled := kiosk }
            recordingImpl none stage log
          = (none, log ++ [NamespaceStep.CheckNamespaceExist])
        ∧ DelegateNamespaceDeletion.ServeRequest
            { ManageNamespace := false, IsKubernetes := kubernetes, KioskEnabled := kiosk }
            recordingImpl none stage log
          = (none, log ++ [if kubernetes then NamespaceStep.DeleteNamespace
              else NamespaceStep.DeleteOpenshiftProject])) := by
  obtain ⟨m, k, q⟩ := p
  refine ⟨?_, ?_, ?_, ?_, ?_⟩
  · cases k <;> simp [DelegateNamespaceDeletion.ServeRequest, nextServeOrNil]
  · cases k <;> simp [DelegateNamespaceDeletion.ServeRequest, nextServeOrNil, recordingImpl]
  · cases k <;> simp [DelegateNamespaceDeletion.ServeRequest, nextServeOrNil, recordingImpl]
  · intro manage kiosk
    rfl
  · intro kubernetes kiosk
    cases kubernetes <;>
      simp [DelegateNamespaceDeletion.ServeRequest, DelegateNamespaceCreation.ServeRequest,
        nextServeOrNil, recordingImpl]

/-! ## C16: the `jenkins-admin` binding -/

/-- On the store, `createRoleBinding` keeps the bindings and at most appends the binding
built from the options; it appends it when no binding is addressed by the name. -/
theorem createRoleBinding_appends (name ns : String) (opts : options)
    (x : RbacStore × List RbacCall) :
    ∃ x', (tracedConfigureRbac storeRbacClient none).createRoleBinding name ns opts x = (none, x')
      ∧ (x'.1.roleBindings = x.1.roleBindings
          ∨ x'.1.roleBindings = x.1.roleBindings ++
              [{ meta := { Name := name, Namespace := ns }, Subjects := opts.subjects,
                 RoleRef := opts.rf }])
      ∧ (x.1.roleBindingCount { Namespace := ns, Name := name } = 0 →
          x'.1.roleBindings = x.1.roleBindings ++
              [{ meta := { Name := name, Namespace := ns }, Subjects := opts.subjects,
                 RoleRef := opts.rf }]) := by
  obtain ⟨s, log⟩ := x
  rw [createRoleBinding_store]
  by_cases h : s.roleBindings.any
      (fun r => r.meta.hasKey { Namespace := ns, Name := name }) = true
  · rw [if_pos h]
    refine ⟨_, rfl, Or.inl rfl, ?_⟩
    intro h0
    have := (any_hasKey_iff_pos (fun r : RoleBinding => r.meta) s.roleBindings
      { Namespace := ns, Name := name }).1 h
    simp only [RbacStore.roleBindingCount] at h0
    omega
  · rw [if_neg h]
    exact ⟨_, rfl, Or.inr rfl, fun _ => rfl⟩

/-- C16: the options of the `jenkins-admin` binding reference ClusterRole `admin`; on the
openshift platform type the subjects are the groups `{ns}-edp-super-admin` and
`{ns}-edp-admin` followed by the service account `jenkins` of `ns`, on every other platform
type the service account alone, where `ns` is the stage's own namespace. Run on an empty
store, `ConfigureRbac.ServeRequest` creates the binding `jenkins-admin` of the target
namespace with exactly these subjects and this role reference. -/
theorem jenkinsAdmin_binding (platformType : String) (stage : Stage) :
    (buildJenkinsAdminRoleOptions platformType stage.meta.Namespace).rf
        = { Name := "admin", APIGroup := "rbac.authorization.k8s.io", Kind := "ClusterRole" }
    ∧ (platformType = "openshift" →
        (buildJenkinsAdminRoleOptions platformType stage.meta.Namespace).subjects
          = [{ Kind := "Group", Name := stage.meta.Namespace ++ "-edp-super-admin" },
             { Kind := "Group", Name := stage.meta.Namespace ++ "-edp-admin" },
             { Kind := "ServiceAccount", Name := "jenkins",
               Namespace := stage.meta.Namespace }])
    ∧ (platformType ≠ "openshift" →
        (buildJenkinsAdminRoleOptions platformType stage.meta.Namespace).subjects
          = [{ Kind := "ServiceAccount", Name := "jenkins",
               Namespace := stage.meta.Namespace }])
    ∧ ({ meta := { Name := "jenkins-admin", Namespace := generateTargetNamespaceName stage },
         Subjects := (buildJenkinsAdminRoleOptions platformType stage.meta.Namespace).subjects,
         RoleRef := (buildJenkinsAdminRoleOptions platformType stage.meta.Namespace).rf }
        ∈ (runConfigureRbac platformType stage {}).2.1.roleBindings) := by
  refine ⟨rfl, ?_, ?_, ?_⟩
  · intro hp
    simp [buildJenkinsAdminRoleOptions, getJenkinsAdminRoleSubjects, hp, clusterOpenshiftType,
      groupKind, serviceAccountKind, jenkinsServiceAccountName]
  · intro hp
    simp [buildJenkinsAdminRoleOptions, getJenkinsAdminRoleSubjects, hp, clusterOpenshiftType,
      serviceAccountKind, jenkinsServiceAccountName]
  · obtain ⟨x1, e1, -, -, -, b1⟩ := createRole_step acViewRoleName
      (generateTargetNamespaceName stage) (buildAcViewRoleOptions stage.meta.Namespace) ({}, [])
    obtain ⟨x2, e2, h2, -⟩ := createRoleBinding_appends acViewRbName
      (generateTargetNamespaceName stage) (buildAcViewRoleOptions stage.meta.Namespace) x1
    obtain ⟨x3, e3, -, h3⟩ := createRoleBinding_appends jenkinsAdminRbName
      (generateTargetNamespaceName stage)
      (buildJenkinsAdminRoleOptions platformType stage.meta.Namespace) x2
    have hcount : x2.1.roleBindingCount
        { Namespace := generateTargetNamespaceName stage, Name := jenkinsAdminRbName } = 0 := by
      have hb1 : x1.1.roleBindings = [] := b1
      rcases h2 with h2 | h2 <;> rw [RbacStore.roleBindingCount, h2, hb1]
      · rfl
      · simp [ObjectMeta.hasKey, acViewRbName, jenkinsAdminRbName]
    have hmem3 :
        ({ meta := { Name := "jenkins-admin", Namespace := generateTargetNamespaceName stage },
           Subjects := (buildJenkinsAdminRoleOptions platformType stage.meta.Namespace).subjects,
           RoleRef := (buildJenkinsAdminRoleOptions platformType stage.meta.Namespace).rf }
          : RoleBinding) ∈ x3.1.roleBindings := by
      rw [h3 hcount]
      exact List.mem_append_right _ (List.mem_singleton.2 rfl)
    by_cases hp : platformType = clusterOpenshiftType
    · obtain ⟨x4, e4, h4, -⟩ := createRoleBinding_appends
        (generateViewGroupRbName stage.meta.Namespace) (generateTargetNamespaceName stage)
        (buildViewGroupRoleOptions stage.meta.Namespace) x3
      have hrun : runConfigureRbac platformType stage {} = (none, x4) := by
        simp only [runConfigureRbac, ConfigureRbac.ServeRequest, e1, e2, e3, e4]
        simp [hp, nextServeOrNil, tracedConfigureRbac]
      rw [hrun]
      rcases h4 with h4 | h4 <;> rw [h4]
      · exact hmem3
      · exact List.mem_append_left _ hmem3
    · have hrun : runConfigureRbac platformType stage {} = (none, x3) := by
        simp only [runConfigureRbac, ConfigureRbac.ServeRequest, e1, e2, e3]
        simp [hp, nextServeOrNil, tracedConfigureRbac]
      rw [hrun]
      exact hmem3

/-- Witness for C16: the subjects on openshift and on kubernetes for the namespace
`test-ns`. -/
theorem jenkinsAdmin_binding_witness :
    (buildJenkinsAdminRoleOptions "openshift" "test-ns").subjects
        = [{ Kind := "Group", Name := "test-ns" ++ "-edp-super-admin" },
           { Kind := "Group", Name := "test-ns" ++ "-edp-admin" },
           { Kind := "ServiceAccount", Name := "jenkins", Namespace := "test-ns" }]
    ∧ (buildJenkinsAdminRoleOptions "kubernetes" "test-ns").subjects
        = [{ Kind := "ServiceAccount", Name := "jenkins", Namespace := "test-ns" }] :=
  ⟨(jenkinsAdmin_binding "openshift"
      { meta := { Name := "test-stage", Namespace := "test-ns" } }).2.1 rfl,
   (jenkinsAdmin_binding "kubernetes"
      { meta := { Name := "test-stage", Namespace := "test-ns" } }).2.2.1 (by decide)⟩

/-! ## C15: a pipeline without input streams -/

/-- C15: when the pipeline of the stage declares no input stream, `deleteEnvironmentLabel`
returns the error `pipeline {pipe.Spec.Name} doesn't contain codebase image streams`; the
only call it makes is the fetch of the pipeline, so no stream is fetched or updated. -/
theorem deleteEnvironmentLabel_no_input_streams {σ : Type} (h : StageClient σ) (stage : Stage)
    (pipe : CDPipeline) (s s1 : σ) (log : List StageCall)
    (hpipe : h.GetCdPipeline stage s = ((some pipe, none), s1))
    (hempty : pipe.Spec.InputDockerStreams = []) :
    deleteEnvironmentLabel h.traced stage (s, log)
      = .done (some (.errorf
          ("pipeline " ++ pipe.Spec.Name ++ " doesn't contain codebase image streams")))
          (s1, log ++ [.getCdPipeline stage]) := by
  simp [deleteEnvironmentLabel, StageClient.traced, hpipe, hempty]

/-- Witness for C15: the pipeline `pipe` without input streams. -/
theorem deleteEnvironmentLabel_no_input_streams_witness :
    deleteEnvironmentLabel storeStageClient.traced qaStage (noInputStore, [])
      = .done (some (.errorf
          ("pipeline " ++ "pipe" ++ " doesn't contain codebase image streams")))
          (noInputStore, [] ++ [.getCdPipeline qaStage]) :=
  deleteEnvironmentLabel_no_input_streams storeStageClient qaStage
    { meta := { Name := "pipe", Namespace := "ns" }, Spec := { Name := "pipe" } }
    noInputStore noInputStore [] rfl rfl

/-! ## C13: a cleanup failure stops the chain -/

/-- C13: when `deleteEnvironmentLabel` returns an error, `ServeRequest` returns that error
wrapped with `couldn't set environment status` and the state is the one the cleanup left,
whatever the next handler is: the next handler is not invoked. When the cleanup succeeds,
`ServeRequest` returns the result of the next handler run on the state the cleanup left,
and `nil` with that state when there is no next handler. -/
theorem deleteEnvironmentLabel_serveRequest {σ : Type} (c : StageClient σ)
    (next : Option (CdStageHandler σ)) (stage : Stage) (s : σ) :
    (∀ err s1, deleteEnvironmentLabel c stage s = .done (some err) s1 →
      DeleteEnvironmentLabelFromCodebaseImageStreams.ServeRequest
          { next := next, client := c } stage s
        = .done (some (.wrap "couldn't set environment status" err)) s1)
    ∧ (∀ s1, deleteEnvironmentLabel c stage s = .done none s1 →
      (∀ n, next = some n →
        DeleteEnvironmentLabelFromCodebaseImageStreams.ServeRequest
            { next := next, client := c } stage s
          = .done (n stage s1).1 (n stage s1).2)
      ∧ (next = none →
        DeleteEnvironmentLabelFromCodebaseImageStreams.ServeRequest
            { next := next, client := c } stage s
          = .done none s1)) := by
  refine ⟨?_, ?_⟩
  · intro err s1 hd
    simp [DeleteEnvironmentLabelFromCodebaseImageStreams.ServeRequest, hd, Wrapf]
  · intro s1 hd
    refine ⟨?_, ?_⟩
    · intro n hn
      simp [DeleteEnvironmentLabelFromCodebaseImageStreams.ServeRequest, hd, hn, nextServeOrNil]
    · intro hn
      simp [DeleteEnvironmentLabelFromCodebaseImageStreams.ServeRequest, hd, hn, nextServeOrNil]

/-- Witness for C13: with a next handler that records itself, the cleanup that fails on
the pipeline without input streams leaves no record of the next handler, and the cleanup of
the entry stage `dev` is followed by the next handler. -/
theorem deleteEnvironmentLabel_serveRequest_witness :
    DeleteEnvironmentLabelFromCodebaseImageStreams.ServeRequest
        { next := some recordingNext, client := storeStageClient.traced } qaStage
        (noInputStore, [])
      = .done (some (.wrap "couldn't set environment status"
          (.errorf "pipeline pipe doesn't contain codebase image streams")))
          (noInputStore, [.getCdPipeline qaStage])
    ∧ DeleteEnvironmentLabelFromCodebaseImageStreams.ServeRequest
        { next := some recordingNext, client := storeStageClient.traced } devStage
        (twoStageStore, [])
      = .done none
          ({ twoStageStore with streams := [rawStreamCleaned, devVerifiedStream] },
           [.getCdPipeline devStage, .getCodebaseImageStream "app-main" "ns",
            .updateCodebaseImageStream rawStreamCleaned, .updateStage devStage]) :=
  ⟨(deleteEnvironmentLabel_serveRequest storeStageClient.traced (some recordingNext) qaStage
      (noInputStore, [])).1 _ _ (by decide),
   ((deleteEnvironmentLabel_serveRequest storeStageClient.traced (some recordingNext) devStage
      (twoStageStore, [])).2
      ({ twoStageStore with streams := [rawStreamCleaned, devVerifiedStream] },
       [.getCdPipeline devStage, .getCodebaseImageStream "app-main" "ns",
        .updateCodebaseImageStream rawStreamCleaned]) (by decide)).1 recordingNext rfl⟩

/-! ## C12: a missing derived stream of the previous stage -/

/-- When the fetch of the derived stream answers an error and no stream object, the round
of the loop panics: the error message is built from `stream.Name` of the absent stream. -/
theorem deleteEnvironmentLabelLoop_absent_derived {σ : Type} (h : StageClient σ)
    (stage : Stage) (pipe : CDPipeline) (name : String) (rest : List String)
    (s s1 s2 s3 : σ) (raw : CodebaseImageStream) (previousStage : Stage) (err : Err)
    (horder : stage.Spec.Order ≠ 0)
    (hraw : h.GetCodebaseImageStream name stage.meta.Namespace s = ((some raw, none), s1))
    (hprev : h.FindPreviousStage stage.Spec.Order pipe.Spec.Name stage.meta.Namespace s1
      = ((some previousStage, none), s2))
    (hder : h.GetCodebaseImageStream
        (pipe.meta.Name ++ "-" ++ previousStage.Spec.Name ++ "-" ++ raw.Spec.Codebase
          ++ "-verified")
        stage.meta.Namespace s2 = ((none, some err), s3)) :
    deleteEnvironmentLabelLoop h stage pipe (name :: rest) s = .panic s3 := by
  have hfirst : stage.IsFirst = false := by
    simp [Stage.IsFirst, horder]
  rw [deleteEnvironmentLabelLoop]
  simp only [hraw, hprev, hder, hfirst]
  rfl

/-- C12, the code at the failing input: for stage `qa` (Order 1) the derived stream
`pipe-dev-app-verified` of the previous stage is missing; `deleteEnvironmentLabel` does not
return an error but panics after the failed fetch (no `Update` is issued). -/
theorem deleteEnvironmentLabel_missing_derived_panics :
    deleteEnvironmentLabel storeStageClient.traced qaStage (missingDerivedStore, [])
      = .panic
          (missingDerivedStore,
           [.getCdPipeline qaStage,
            .getCodebaseImageStream "app-main" "ns", .findPreviousStage 1 "pipe" "ns",
            .getCodebaseImageStream "pipe-dev-app-verified" "ns"])
    ∧ (storeStageClient.GetCodebaseImageStream "pipe-dev-app-verified" "ns"
        missingDerivedStore).1 = (none, some (.notFound "pipe-dev-app-verified")) := by
  constructor <;> decide

/-! ## C11: the first stage looks up no previous stage -/

/-- `ConfigureRbac.ServeRequest` ensures the objects of `rbacSteps` in order, stops at the
first error, and hands over to the next handler when all are ensured. -/
theorem serveRequest_eq_ensureInOrder {σ : Type} (platformType : String) (h : ConfigureRbac σ)
    (stage : Stage) (s : σ) :
    ConfigureRbac.ServeRequest platformType h stage s =
      match h.ensureInOrder (generateTargetNamespaceName stage)
          (rbacSteps platformType stage.meta.Namespace) s with
      | (some err, s1) => (some err, s1)
      | (none, s1) => nextServeOrNil h.next stage s1 := by
  simp only [ConfigureRbac.ServeRequest, rbacSteps, List.cons_append, List.nil_append,
    ConfigureRbac.ensureInOrder, ConfigureRbac.ensure, if_true, Bool.false_eq_true, if_false]
  rcases h.createRole acViewRoleName (generateTargetNamespaceName stage)
    (buildAcViewRoleOptions stage.meta.Namespace) s with ⟨_ | e1, s1⟩
  · simp only []
    rcases h.createRoleBinding acViewRbName (generateTargetNamespaceName stage)
      (buildAcViewRoleOptions stage.meta.Namespace) s1 with ⟨_ | e2, s2⟩
    · simp only []
      rcases h.createRoleBinding jenkinsAdminRbName (generateTargetNamespaceName stage)
        (buildJenkinsAdminRoleOptions platformType stage.meta.Namespace) s2 with ⟨_ | e3, s3⟩
      · simp only []
        by_cases hp : (platformType == clusterOpenshiftType) = true
        · simp only [hp, if_true, ConfigureRbac.ensureInOrder, ConfigureRbac.ensure,
            Bool.false_eq_true, if_false]
          rcases h.createRoleBinding (generateViewGroupRbName stage.meta.Namespace)
            (generateTargetNamespaceName stage)
            (buildViewGroupRoleOptions stage.meta.Namespace) s3 with ⟨_ | e4, s4⟩ <;> rfl
        · simp only [hp, Bool.false_eq_true, if_false, ConfigureRbac.ensureInOrder]
      · rfl
    · rfl
  · rfl

/-- Over any client, ensuring one object logs one `Get`, or one `Get` and one `Create`, all
addressed to that object in the namespace `ns`. -/
theorem ensure_traced_log {σ : Type} (c : RbacClient σ)
    (next : Option (CdStageHandler (σ × List RbacCall))) (ns : String) (step : EnsureStep)
    (x : σ × List RbacCall) :
    ∃ calls, ((tracedConfigureRbac c next).ensure ns step x).2.2 = x.2 ++ calls
      ∧ calls ≠ [] ∧ ∀ call ∈ calls, call.addresses ns step = true := by
  obtain ⟨s, log⟩ := x
  obtain ⟨isRole, name, opts⟩ := step
  cases isRole with
  | true =>
    simp only [ConfigureRbac.ensure, if_true, ConfigureRbac.createRole,
      ConfigureRbac.roleExists, tracedConfigureRbac, InitRbacManager, KubernetesRbac.GetRole,
      KubernetesRbac.CreateRole, RbacClient.traced]
    rcases c.GetRole { Namespace := ns, Name := name } s with ⟨_ | _, s1⟩
    · rename_i e
      by_cases hnf : IsNotFound e = true
      · rcases hc : c.CreateRole { meta := { Name := name, Namespace := ns }, Rules := opts.pr }
          s1 with ⟨_ | e2, s2⟩ <;>
        · refine ⟨[.getRole { Namespace := ns, Name := name },
            .createRole { meta := { Name := name, Namespace := ns }, Rules := opts.pr }],
            by simp [hnf, hc], by simp, ?_⟩
          intro call hcall
          simp only [List.mem_cons, List.mem_singleton, List.not_mem_nil, or_false] at hcall
          rcases hcall with rfl | rfl <;>
            simp [RbacCall.addresses, RbacCall.key, RbacCall.onRole, ObjectMeta.key]
      · refine ⟨[.getRole { Namespace := ns, Name := name }], by simp [hnf], by simp, ?_⟩
        intro call hcall
        rw [List.mem_singleton.1 hcall]
        simp [RbacCall.addresses, RbacCall.key, RbacCall.onRole]
    · refine ⟨[.getRole { Namespace := ns, Name := name }], by simp, by simp, ?_⟩
      intro call hcall
      rw [List.mem_singleton.1 hcall]
      simp [RbacCall.addresses, RbacCall.key, RbacCall.onRole]
  | false =>
    simp only [ConfigureRbac.ensure, Bool.false_eq_true, if_false,
      ConfigureRbac.createRoleBinding, ConfigureRbac.roleBindingExists, tracedConfigureRbac,
      InitRbacManager, KubernetesRbac.GetRoleBinding, KubernetesRbac.CreateRoleBinding,
      RbacClient.traced]
    rcases c.GetRoleBinding { Namespace := ns, Name := name } s with ⟨_ | _, s1⟩
    · rename_i e
      by_cases hnf : IsNotFound e = true
      · rcases hc : c.CreateRoleBinding
          { meta := { Name := name, Namespace := ns }, Subjects := opts.subjects,
            RoleRef := opts.rf } s1 with ⟨_ | e2, s2⟩ <;>
        · refine ⟨[.getRoleBinding { Namespace := ns, Name := name },
            .createRoleBinding { meta := { Name := name, Namespace := ns },
                                 Subjects := opts.subjects, RoleRef := opts.rf }],
            by simp [hnf, hc], by simp, ?_⟩
          intro call hcall
          simp only [List.mem_cons, List.mem_singleton, List.not_mem_nil, or_false] at hcall
          rcases hcall with rfl | rfl <;>
            simp [RbacCall.addresses, RbacCall.key, RbacCall.onRole, ObjectMeta.key]
      · refine ⟨[.getRoleBinding { Namespace := ns, Name := name }], by simp [hnf],
          by simp, ?_⟩
        intro call hcall
        rw [List.mem_singleton.1 hcall]
        simp [RbacCall.addresses, RbacCall.key, RbacCall.onRole]
    · refine ⟨[.getRoleBinding { Namespace := ns, Name := name }], by simp, by simp, ?_⟩
      intro call hcall
      rw [List.mem_singleton.1 hcall]
      simp [RbacCall.addresses, RbacCall.key, RbacCall.onRole]

/-- Over any client, ensuring a list of objects logs, for a first part of the list and in
its order, the calls of each object; the whole list when no error is returned. -/
theorem ensureInOrder_traced_log {σ : Type} (c : RbacClient σ)
    (next : Option (CdStageHandler (σ × List RbacCall))) (ns : String)
    (steps : List EnsureStep) :
    ∀ x : σ × List RbacCall, ∃ (n : Nat) (logs : List (List RbacCall)),
      n ≤ steps.length
      ∧ List.Forall₂
          (fun step calls => calls ≠ [] ∧ ∀ call ∈ calls, RbacCall.addresses ns step call = true)
          (steps.take n) logs
      ∧ ((tracedConfigureRbac c next).ensureInOrder ns steps x).2.2 = x.2 ++ logs.flatten
      ∧ (((tracedConfigureRbac c next).ensureInOrder ns steps x).1 = none → n = steps.length) := by
  induction steps with
  | nil =>
    intro x
    exact ⟨0, [], le_rfl, by simp, by simp [ConfigureRbac.ensureInOrder],
      fun _ => rfl⟩
  | cons step rest ih =>
    intro x
    obtain ⟨calls, hcalls, hne, hall⟩ := ensure_traced_log c next ns step x
    rcases hres : (tracedConfigureRbac c next).ensure ns step x with ⟨_ | e, x1⟩
    · rw [hres] at hcalls
      obtain ⟨n, logs, hn, hfor, hlog, hnone⟩ := ih x1
      refine ⟨n + 1, calls :: logs, by simpa using hn, ?_, ?_, ?_⟩
      · simpa using ⟨⟨hne, hall⟩, hfor⟩
      · simp only [ConfigureRbac.ensureInOrder, hres, hlog, List.flatten_cons]
        simp only [] at hcalls
        rw [hcalls, List.append_assoc]
      · intro hfinal
        simp only [ConfigureRbac.ensureInOrder, hres] at hfinal
        simp [hnone hfinal]
    · rw [hres] at hcalls
      refine ⟨1, [calls], by simp, ?_, ?_, ?_⟩
      · simpa using ⟨hne, hall⟩
      · simp only [ConfigureRbac.ensureInOrder, hres, List.flatten_cons, List.flatten_nil,
          List.append_nil]
        exact hcalls
      · intro hfinal
        simp [ConfigureRbac.ensureInOrder, hres] at hfinal

/-- Fail-fast: when the objects before `step` are ensured and `step` fails, the error of
`step` is the result and the state is the one `step` left. -/
theorem ensureInOrder_fails_at {σ : Type} (h : ConfigureRbac σ) (ns : String)
    (pre : List EnsureStep) (step : EnsureStep) (post : List EnsureStep) :
    ∀ (x x1 x2 : σ) (e : Err), h.ensureInOrder ns pre x = (none, x1) →
      h.ensure ns step x1 = (some e, x2) →
      h.ensureInOrder ns (pre ++ step :: post) x = (some e, x2) := by
  induction pre with
  | nil =>
    intro x x1 x2 e hpre hstep
    simp only [ConfigureRbac.ensureInOrder, Prod.mk.injEq, true_and] at hpre
    subst hpre
    simp [ConfigureRbac.ensureInOrder, hstep]
  | cons p ps ih =>
    intro x x1 x2 e hpre hstep
    rcases hp : h.ensure ns p x with ⟨_ | e0, xm⟩
    · simp only [ConfigureRbac.ensureInOrder, hp] at hpre
      simp only [List.cons_append, ConfigureRbac.ensureInOrder, hp]
      exact ih xm x1 x2 e hpre hstep
    · simp [ConfigureRbac.ensureInOrder, hp] at hpre

/-- No name of the form `{ns}-view` is one of the three fixed object names. -/
theorem viewGroupRbName_ne (ns : String) :
    generateViewGroupRbName ns ≠ acViewRoleName
    ∧ generateViewGroupRbName ns ≠ acViewRbName
    ∧ generateViewGroupRbName ns ≠ jenkinsAdminRbName := by
  have hlast : ∀ t : String, generateViewGroupRbName ns = t →
      t.data.reverse.head? = some 'w' := by
    intro t ht
    rw [← ht]
    simp [generateViewGroupRbName, String.data_append]
  refine ⟨fun h => ?_, fun h => ?_, fun h => ?_⟩
  · exact absurd (hlast _ h) (by decide)
  · exact absurd (hlast _ h) (by decide)
  · exact absurd (hlast _ h) (by decide)

/-- The objects of a run are pairwise different in kind or name. -/
theorem rbacSteps_nodup (platformType ns : String) :
    ((rbacSteps platformType ns).map (fun st => (st.isRole, st.name))).Nodup := by
  obtain ⟨h1, h2, h3⟩ := viewGroupRbName_ne ns
  by_cases hp : platformType = clusterOpenshiftType
  · have h2' : ¬ "ac-deployments-viewer" = generateViewGroupRbName ns := fun h => h2 h.symm
    have h3' : ¬ "jenkins-admin" = generateViewGroupRbName ns := fun h => h3 h.symm
    simp [rbacSteps, hp, acViewRbName, jenkinsAdminRbName, h2', h3']
  · simp [rbacSteps, hp, acViewRbName, jenkinsAdminRbName]

/-- A call addresses at most one kind and name. -/
theorem addresses_unique (ns : String) (a b : EnsureStep) (call : RbacCall)
    (ha : call.addresses ns a = true) (hb : call.addresses ns b = true) :
    (a.isRole, a.name) = (b.isRole, b.name) := by
  simp only [RbacCall.addresses, Bool.and_eq_true, beq_iff_eq] at ha hb
  have hn : a.name = b.name := by
    have := ha.1.symm.trans hb.1
    exact (NamespacedName.mk.injEq _ _ _ _ ▸ this).2
  rw [Prod.mk.injEq]
  exact ⟨ha.2.symm.trans hb.2, hn⟩

theorem forall₂_exists_left {α β : Type} (R : α → β → Prop) (l1 : List α) (l2 : List β)
    (h : List.Forall₂ R l1 l2) : ∀ b ∈ l2, ∃ a ∈ l1, R a b := by
  induction h with
  | nil => simp
  | cons hab _ ih =>
    intro b hb
    rcases List.mem_cons.1 hb with rfl | hb
    · exact ⟨_, List.mem_cons_self _ _, hab⟩
    · obtain ⟨a, ha, hr⟩ := ih b hb
      exact ⟨a, List.mem_cons_of_mem _ ha, hr⟩

/-- When the objects before `step` are ensured and `step` fails, every call added to the
log addresses one of these objects and none of the later ones. -/
theorem fail_fast_log {σ : Type} (c : RbacClient σ)
    (next : Option (CdStageHandler (σ × List RbacCall))) (ns : String)
    (pre : List EnsureStep) (step : EnsureStep) (post : List EnsureStep)
    (hnodup : ((pre ++ step :: post).map (fun st => (st.isRole, st.name))).Nodup)
    (x x1 x2 : σ × List RbacCall) (e : Err)
    (hpre : (tracedConfigureRbac c next).ensureInOrder ns pre x = (none, x1))
    (hstep : (tracedConfigureRbac c next).ensure ns step x1 = (some e, x2)) :
    ∃ added, x2.2 = x.2 ++ added
      ∧ ∀ call ∈ added, (∃ p ∈ pre ++ [step], call.addresses ns p = true)
          ∧ ∀ p ∈ post, call.addresses ns p = false := by
  obtain ⟨n, logs, -, hfor, hlog, hnone⟩ := ensureInOrder_traced_log c next ns pre x
  rw [hpre] at hlog hnone
  have hn : n = pre.length := hnone rfl
  rw [hn, List.take_length] at hfor
  obtain ⟨calls, hcalls, -, hall⟩ := ensure_traced_log c next ns step x1
  rw [hstep] at hcalls
  have hx1 : x1.2 = x.2 ++ logs.flatten := hlog
  have hx2 : x2.2 = x1.2 ++ calls := hcalls
  have hsome : ∀ call ∈ logs.flatten ++ calls, ∃ p ∈ pre ++ [step],
      call.addresses ns p = true := by
    intro call hc
    rcases List.mem_append.1 hc with hc | hc
    · obtain ⟨l, hl, hcl⟩ := List.mem_flatten.1 hc
      obtain ⟨p, hp, -, hr⟩ := forall₂_exists_left _ _ _ hfor l hl
      exact ⟨p, List.mem_append_left _ hp, hr call hcl⟩
    · exact ⟨step, List.mem_append_right _ (List.mem_singleton.2 rfl), hall call hc⟩
  refine ⟨logs.flatten ++ calls, by rw [hx2, hx1, List.append_assoc], ?_⟩
  intro call hc
  refine ⟨hsome call hc, ?_⟩
  intro q hq
  obtain ⟨p, hp, hcp⟩ := hsome call hc
  by_contra hcq
  have hcq' : call.addresses ns q = true := by simpa using hcq
  have heq := addresses_unique ns p q call hcp hcq'
  have hsplit : (pre ++ step :: post).map (fun st => (st.isRole, st.name))
      = (pre ++ [step]).map (fun st => (st.isRole, st.name))
        ++ post.map (fun st => (st.isRole, st.name)) := by
    simp
  rw [hsplit] at hnodup
  have hdis := (List.nodup_append.1 hnodup).2.2
  exact hdis (List.mem_map.2 ⟨p, hp, rfl⟩) (List.mem_map.2 ⟨q, hq, heq.symm⟩)

/-- C18: `ConfigureRbac.ServeRequest` ensures, in this order, the Role
`admin-console-view-deployments`, the RoleBindings `ac-deployments-viewer` and
`jenkins-admin` and, on the openshift platform type only, the RoleBinding `{ns}-view`; it
stops at the first error and otherwise hands over to the next handler. When the objects
before some object are ensured and that object fails, the result is that error and the
state is the one the failing object left (so the next handler is not invoked and nothing
is undone), and every call added to the log addresses one of these objects and none of the
later ones. -/
theorem configureRbac_fail_fast {σ : Type} (c : RbacClient σ)
    (next : Option (CdStageHandler (σ × List RbacCall))) (platformType : String)
    (stage : Stage) :
    (rbacSteps platformType stage.meta.Namespace).map (fun st => (st.isRole, st.name))
        = [(true, "admin-console-view-deployments"), (false, "ac-deployments-viewer"),
           (false, "jenkins-admin")]
          ++ (if platformType = "openshift" then [(false, stage.meta.Namespace ++ "-view")]
              else [])
    ∧ (∀ x, ConfigureRbac.ServeRequest platformType (tracedConfigureRbac c next) stage x =
        match (tracedConfigureRbac c next).ensureInOrder (generateTargetNamespaceName stage)
            (rbacSteps platformType stage.meta.Namespace) x with
        | (some err, x1) => (some err, x1)
        | (none, x1) => nextServeOrNil next stage x1)
    ∧ (∀ (pre : List EnsureStep) (step : EnsureStep) (post : List EnsureStep)
        (x x1 x2 : σ × List RbacCall) (e : Err),
        rbacSteps platformType stage.meta.Namespace = pre ++ step :: post →
        (tracedConfigureRbac c next).ensureInOrder (generateTargetNamespaceName stage) pre x
          = (none, x1) →
        (tracedConfigureRbac c next).ensure (generateTargetNamespaceName stage) step x1
          = (some e, x2) →
        ConfigureRbac.ServeRequest platformType (tracedConfigureRbac c next) stage x
          = (some e, x2)
        ∧ ∃ added, x2.2 = x.2 ++ added
          ∧ ∀ call ∈ added,
            (∃ p ∈ pre ++ [step],
              call.addresses (generateTargetNamespaceName stage) p = true)
            ∧ ∀ p ∈ post, call.addresses (generateTargetNamespaceName stage) p = false) := by
  refine ⟨?_, ?_, ?_⟩
  · by_cases hp : platformType = "openshift"
    · simp [rbacSteps, hp, clusterOpenshiftType, acViewRoleName, acViewRbName,
        jenkinsAdminRbName, generateViewGroupRbName]
    · simp [rbacSteps, hp, clusterOpenshiftType, acViewRoleName, acViewRbName,
        jenkinsAdminRbName]
  · intro x
    rw [serveRequest_eq_ensureInOrder]
    rcases (tracedConfigureRbac c next).ensureInOrder (generateTargetNamespaceName stage)
      (rbacSteps platformType stage.meta.Namespace) x with ⟨_ | e, x1⟩ <;> rfl
  · intro pre step post x x1 x2 e hsteps hpre hstep
    refine ⟨?_, ?_⟩
    · rw [serveRequest_eq_ensureInOrder, hsteps,
        ensureInOrder_fails_at _ _ pre step post x x1 x2 e hpre hstep]
    · have hnodup := rbacSteps_nodup platformType stage.meta.Namespace
      rw [hsteps] at hnodup
      exact fail_fast_log c next _ pre step post hnodup x x1 x2 e hpre hstep

/-- Witness for C18: on openshift, with a store whose read of `jenkins-admin` times out, the
run returns that error wrapped; the log holds the calls for the role, for
`ac-deployments-viewer` and the failed read, none for `test-ns-view`; the role and the
binding created before the failure are in the store. -/
theorem configureRbac_fail_fast_witness :
    (ConfigureRbac.ServeRequest "openshift"
        (tracedConfigureRbac
          (faultyStoreRbacClient { Namespace := "test-ns-test-stage", Name := "jenkins-admin" })
          none) rbacTestStage ({}, [])).1
      = some (.wrap "unable to check existence of jenkins-admin rolebinding" (.errorf "timeout"))
    ∧ (ConfigureRbac.ServeRequest "openshift"
        (tracedConfigureRbac
          (faultyStoreRbacClient { Namespace := "test-ns-test-stage", Name := "jenkins-admin" })
          none) rbacTestStage ({}, [])).2.2.map RbacCall.key
      = [{ Namespace := "test-ns-test-stage", Name := "admin-console-view-deployments" },
         { Namespace := "test-ns-test-stage", Name := "admin-console-view-deployments" },
         { Namespace := "test-ns-test-stage", Name := "ac-deployments-viewer" },
         { Namespace := "test-ns-test-stage", Name := "ac-deployments-viewer" },
         { Namespace := "test-ns-test-stage", Name := "jenkins-admin" }]
    ∧ (ConfigureRbac.ServeRequest "openshift"
        (tracedConfigureRbac
          (faultyStoreRbacClient { Namespace := "test-ns-test-stage", Name := "jenkins-admin" })
          none) rbacTestStage ({}, [])).2.1.roleCount
        { Namespace := "test-ns-test-stage", Name := "admin-console-view-deployments" } = 1
    ∧ (ConfigureRbac.ServeRequest "openshift"
        (tracedConfigureRbac
          (faultyStoreRbacClient { Namespace := "test-ns-test-stage", Name := "jenkins-admin" })
          none) rbacTestStage ({}, [])).2.1.roleBindingCount
        { Namespace := "test-ns-test-stage", Name := "ac-deployments-viewer" } = 1 := by
  have h := ((configureRbac_fail_fast
    (faultyStoreRbacClient { Namespace := "test-ns-test-stage", Name := "jenkins-admin" })
    none "openshift" rbacTestStage).2.2
    [{ isRole := true, name := acViewRoleName, opts := buildAcViewRoleOptions "test-ns" },
     { isRole := false, name := acViewRbName, opts := buildAcViewRoleOptions "test-ns" }]
    { isRole := false, name := jenkinsAdminRbName,
      opts := buildJenkinsAdminRoleOptions "openshift" "test-ns" }
    [{ isRole := false, name := generateViewGroupRbName "test-ns",
       opts := buildViewGroupRoleOptions "test-ns" }]
    ({}, []) _ _ _ rfl rfl rfl).1
  rw [h]
  decide

/-- Ensuring a list followed by another: the second part runs on the state the first part
left, unless the first part failed. -/
theorem ensureInOrder_append {σ : Type} (h : ConfigureRbac σ) (ns : String)
    (pre post : List EnsureStep) :
    ∀ x : σ, h.ensureInOrder ns (pre ++ post) x =
      match h.ensureInOrder ns pre x with
      | (some err, x1) => (some err, x1)
      | (none, x1) => h.ensureInOrder ns post x1 := by
  induction pre with
  | nil =>
    intro x
    simp [ConfigureRbac.ensureInOrder]
  | cons p ps ih =>
    intro x
    rcases hp : h.ensure ns p x with ⟨_ | e0, xm⟩
    · simp only [List.cons_append, ConfigureRbac.ensureInOrder, hp]
      exact ih xm
    · simp [ConfigureRbac.ensureInOrder, hp]

/-- Over any client, `createRoleBinding` logs the `Get` of the binding it is asked for. -/
theorem createRoleBinding_traced_get_mem {σ : Type} (c : RbacClient σ)
    (next : Option (CdStageHandler (σ × List RbacCall))) (name ns : String) (opts : options)
    (x : σ × List RbacCall) :
    RbacCall.getRoleBinding { Namespace := ns, Name := name }
      ∈ ((tracedConfigureRbac c next).createRoleBinding name ns opts x).2.2 := by
  obtain ⟨s, log⟩ := x
  simp only [ConfigureRbac.createRoleBinding, ConfigureRbac.roleBindingExists,
    tracedConfigureRbac, InitRbacManager, KubernetesRbac.GetRoleBinding,
    KubernetesRbac.CreateRoleBinding, RbacClient.traced]
  rcases c.GetRoleBinding { Namespace := ns, Name := name } s with ⟨_ | _, s1⟩
  · rename_i e
    by_cases hnf : IsNotFound e = true
    · rcases hc : c.CreateRoleBinding
        { meta := { Name := name, Namespace := ns }, Subjects := opts.subjects,
          RoleRef := opts.rf } s1 with ⟨_ | e2, s2⟩ <;> simp [hnf, hc]
    · simp [hnf]
  · simp

/-! ## C14: the deletion that proceeds -/

theorem hasLabel_deleteLabel (m : ObjectMeta) (env v : String) :
    (deleteLabel ( setAnnotation m env) env).hasLabel env v = false := by
  have hl : ( setAnnotation m env).Labels = m.Labels := by
    unfold setAnnotation
    cases m.Annotations <;> rfl
  unfold deleteLabel
  rw [hl]
  cases hm : m.Labels with
  | none => simp [ObjectMeta.hasLabel, hl, hm]
  | some labels =>
    simp only [ObjectMeta.hasLabel, mapDelete, Option.getD_some]
    rw [Bool.eq_false_iff]
    intro h
    obtain ⟨p, hp, hpv⟩ := List.any_eq_true.1 h
    have hne := (List.mem_filter.1 hp).2
    simp at hne hpv
    exact hne hpv.1

/-- On the store, the cleanup loop of a first stage over input names that are all present
succeeds; it maps the streams by a function that keeps every key, changes a stream only to
one without the label, and leaves every stream under an input name without the label. -/
theorem deleteEnvironmentLabelLoop_store_first (stage : Stage) (pipe : CDPipeline)
    (hfirst : stage.IsFirst = true) (env : String)
    (henv : pipe.Spec.Name ++ "/" ++ stage.Spec.Name = env) :
    ∀ (names : List String) (store : StageStore),
      (∀ name ∈ names, ∃ x ∈ store.streams,
        x.meta.hasKey { Namespace := stage.meta.Namespace, Name := name } = true) →
      ∃ f : CodebaseImageStream → CodebaseImageStream,
        (∀ a, (f a).meta.key = a.meta.key)
        ∧ (∀ a, f a = a
            ∨ ∀ v, (f a).meta.hasLabel env v = false)
        ∧ (∀ name ∈ names, ∀ a,
            a.meta.hasKey { Namespace := stage.meta.Namespace, Name := name } = true →
            ∀ v, (f a).meta.hasLabel env v = false)
        ∧ deleteEnvironmentLabelLoop storeStageClient stage pipe names store
            = .done none { store with streams := store.streams.map f } := by
  intro names
  induction names with
  | nil =>
    intro store _
    refine ⟨id, fun _ => rfl, fun _ => Or.inl rfl, ?_, ?_⟩
    · intro name hname
      cases hname
    · simp [deleteEnvironmentLabelLoop]
  | cons name rest ih =>
    intro store hpresent
    obtain ⟨x0, hx0, hk0⟩ := hpresent name (List.mem_cons_self _ _)
    have hany : store.streams.any
        (fun x => x.meta.hasKey { Namespace := stage.meta.Namespace, Name := name }) = true :=
      List.any_eq_true.2 ⟨x0, hx0, hk0⟩
    obtain ⟨x, hfind⟩ := find?_some_of_any_true _ _ hany
    have hk : x.meta.hasKey { Namespace := stage.meta.Namespace, Name := name } = true := by
      simpa using List.find?_some hfind
    have hkey : (deleteLabel ( setAnnotation x.meta env) env).key
        = { Namespace := stage.meta.Namespace, Name := name } := by
      rw [deleteLabel_key, setAnnotation_key]
      exact ((hasKey_iff _ _).1 hk).symm
    have hkeyf : ∀ a : CodebaseImageStream,
        (if a.meta.hasKey { Namespace := stage.meta.Namespace, Name := name } = true then
          ({ x with meta := deleteLabel ( setAnnotation x.meta env) env } : CodebaseImageStream)
          else a).meta.key = a.meta.key := by
      intro a
      by_cases ha : a.meta.hasKey { Namespace := stage.meta.Namespace, Name := name } = true
      · rw [if_pos ha]
        exact hkey.trans ((hasKey_iff _ _).1 ha)
      · rw [if_neg ha]
    have hrest : ∀ name1 ∈ rest, ∃ y ∈ ({ store with
        streams := store.streams.map (fun a =>
          if a.meta.hasKey { Namespace := stage.meta.Namespace, Name := name } = true then
            ({ x with meta := deleteLabel ( setAnnotation x.meta env) env } : CodebaseImageStream)
          else a) } : StageStore).streams,
        y.meta.hasKey { Namespace := stage.meta.Namespace, Name := name1 } = true := by
      intro name1 hname1
      obtain ⟨y, hy, hky⟩ := hpresent name1 (List.mem_cons_of_mem _ hname1)
      refine ⟨_, List.mem_map.2 ⟨y, hy, rfl⟩, ?_⟩
      rw [hasKey_eq_decide] at hky ⊢
      rw [hkeyf y]
      exact hky
    obtain ⟨g, hgkey, hglabel, hgnames, hgrun⟩ := ih _ hrest
    refine ⟨fun a => g (if a.meta.hasKey { Namespace := stage.meta.Namespace, Name := name } = true
      then ({ x with meta := deleteLabel ( setAnnotation x.meta env) env } : CodebaseImageStream)
      else a), ?_, ?_, ?_, ?_⟩
    · intro a
      exact (hgkey _).trans (hkeyf a)
    · intro a
      by_cases ha : a.meta.hasKey { Namespace := stage.meta.Namespace, Name := name } = true
      · right
        simp only [ha, if_true]
        rcases hglabel { x with meta := deleteLabel ( setAnnotation x.meta env) env } with h | h
        · rw [h]
          intro v
          exact hasLabel_deleteLabel _ _ _
        · exact h
      · simp only [ha]
        exact hglabel a
    · intro name1 hname1 a ha
      rcases List.mem_cons.1 hname1 with h | h
      · subst h
        simp only [ha, if_true]
        rcases hglabel { x with meta := deleteLabel ( setAnnotation x.meta env) env } with h | h
        · rw [h]
          intro v
          exact hasLabel_deleteLabel _ _ _
        · exact h
      · refine hgnames name1 h _ ?_
        rw [hasKey_eq_decide] at ha ⊢
        rw [hkeyf a]
        exact ha
    · rw [deleteEnvironmentLabelLoop]
      simp only [storeStageClient, hfind, hfirst, Bool.not_true, Bool.false_eq_true, if_false,
        henv, hkey, hany, if_true]
      simp only [storeStageClient, List.map_map] at hgrun
      rw [hgrun]
      rfl

/-- On the store, the cleanup loop leaves the stages as they were. -/
theorem deleteEnvironmentLabelLoop_store_stages (stage : Stage) (pipe : CDPipeline) :
    ∀ (names : List String) (store : StageStore),
      (deleteEnvironmentLabelLoop storeStageClient stage pipe names store).state.stages
        = store.stages := by
  have hget : ∀ (name ns : String) (s : StageStore),
      (storeStageClient.GetCodebaseImageStream name ns s).2 = s := by
    intro name ns s
    simp only [storeStageClient]
    split <;> rfl
  have hprev : ∀ (o : Int) (p ns : String) (s : StageStore),
      (storeStageClient.FindPreviousStage o p ns s).2 = s := by
    intro o p ns s
    simp only [storeStageClient]
    split <;> rfl
  have hupd : ∀ (u : CodebaseImageStream) (s : StageStore),
      (storeStageClient.UpdateCodebaseImageStream u s).2.stages = s.stages := by
    intro u s
    simp only [storeStageClient]
    split <;> rfl
  intro names
  induction names with
  | nil => intro store; rfl
  | cons name rest ih =>
    intro store
    rw [deleteEnvironmentLabelLoop]
    rcases hg : storeStageClient.GetCodebaseImageStream name stage.meta.Namespace store with
      ⟨⟨stream, _ | err⟩, s1⟩
    · have h1 : s1 = store := by
        have := hget name stage.meta.Namespace store
        rw [hg] at this
        exact this
      subst h1
      simp only []
      by_cases hfirst : stage.IsFirst = true
      · simp only [hfirst, Bool.not_true, Bool.false_eq_true, if_false]
        cases stream with
        | none => rfl
        | some target =>
          simp only []
          split
          · rename_i err s4 heq
            have := congrArg (fun r => r.2.stages) heq
            simpa only [hupd] using this.symm
          · rename_i s4 heq
            have := congrArg (fun r => r.2.stages) heq
            rw [ih]
            simpa only [hupd] using this.symm
      · simp only [hfirst, Bool.not_false, if_true]
        rcases hp : storeStageClient.FindPreviousStage stage.Spec.Order pipe.Spec.Name
            stage.meta.Namespace s1 with ⟨⟨prev, _ | err⟩, s2⟩
        · have h2 : s2 = s1 := by
            have := hprev stage.Spec.Order pipe.Spec.Name stage.meta.Namespace s1
            rw [hp] at this
            exact this
          subst h2
          cases prev with
          | none => rfl
          | some previousStage =>
            cases stream with
            | none => rfl
            | some raw =>
              simp only []
              rcases hd : storeStageClient.GetCodebaseImageStream
                  (pipe.meta.Name ++ "-" ++ previousStage.Spec.Name ++ "-" ++ raw.Spec.Codebase
                    ++ "-verified") stage.meta.Namespace s2 with ⟨⟨got, _ | err⟩, s3⟩
              · have h3 : s3 = s2 := by
                  have := hget (pipe.meta.Name ++ "-" ++ previousStage.Spec.Name ++ "-"
                    ++ raw.Spec.Codebase ++ "-verified") stage.meta.Namespace s2
                  rw [hd] at this
                  exact this
                subst h3
                cases got with
                | none => rfl
                | some target =>
                  simp only []
                  split
                  · rename_i err s4 heq
                    have := congrArg (fun r => r.2.stages) heq
                    simpa only [hupd] using this.symm
                  · rename_i s4 heq
                    have := congrArg (fun r => r.2.stages) heq
                    rw [ih]
                    simpa only [hupd] using this.symm
              · have h3 : s3 = s2 := by
                  have := hget (pipe.meta.Name ++ "-" ++ previousStage.Spec.Name ++ "-"
                    ++ raw.Spec.Codebase ++ "-verified") stage.meta.Namespace s2
                  rw [hd] at this
                  exact this
                subst h3
                cases got <;> rfl
        · have h2 : s2 = s1 := by
            have := hprev stage.Spec.Order pipe.Spec.Name stage.meta.Namespace s1
            rw [hp] at this
            exact this
          subst h2
          cases prev <;> rfl
    · have h1 : s1 = store := by
        have := hget name stage.meta.Namespace store
        rw [hg] at this
        exact this
      subst h1
      rfl

/-- On the store, `deleteEnvironmentLabel` leaves the stages as they were. -/
theorem deleteEnvironmentLabel_store_stages (stage : Stage) (store : StageStore) :
    (deleteEnvironmentLabel storeStageClient stage store).state.stages = store.stages := by
  unfold deleteEnvironmentLabel
  rcases hg : storeStageClient.GetCdPipeline stage store with ⟨⟨pipe, _ | err⟩, s1⟩
  all_goals
    have h1 : s1 = store := by
      have : (storeStageClient.GetCdPipeline stage store).2 = store := by
        simp only [storeStageClient]
        split <;> rfl
      rw [hg] at this
      exact this
    subst h1
  · cases pipe with
    | none => rfl
    | some pipe =>
      simp only []
      split
      · rfl
      · exact deleteEnvironmentLabelLoop_store_stages stage pipe _ _
  · cases pipe <;> rfl

/-- When no listed stage blocks the deletion and the cleanup chain succeeds on the store,
`tryToDeleteCDStage` clears the finalizer of the stage and returns no error. -/
theorem tryToDeleteCDStage_store_clears (wait : Nat) (finalizer : String) (stage : Stage)
    (store cleaned : StageStore) (ts : Nat)
    (hdel : stage.meta.DeletionTimestamp = some ts)
    (hnoblock : ∀ x ∈ store.stages, x.meta.Namespace = stage.meta.Namespace →
      x.meta.hasLabel StageCdPipelineLabelName stage.Spec.CdPipeline = true →
      x.meta.Name ≠ stage.meta.Name → x.Spec.Order < stage.Spec.Order)
    (hstage : ∃ x ∈ store.stages, x.meta.hasKey stage.meta.key = true)
    (hclean : deleteEnvironmentLabel storeStageClient stage store = .done none cleaned) :
    ∃ after : StageStore,
      tryToDeleteCDStage (storeReconcileStage wait finalizer) stage store
        = .done (some {}, none) after
      ∧ after.streams = cleaned.streams
      ∧ (∃ x ∈ after.stages, x.meta.hasKey stage.meta.key = true)
      ∧ (∀ x ∈ after.stages, x.meta.hasKey stage.meta.key = true →
          finalizer ∉ x.meta.Finalizers) := by
  have hany : (store.stages.filter (fun x => x.meta.Namespace == stage.meta.Namespace
      && x.meta.hasLabel StageCdPipelineLabelName stage.Spec.CdPipeline)).any
        (blocksDeletion stage) = false := by
    rw [Bool.eq_false_iff]
    intro h
    obtain ⟨x, hx, hb⟩ := List.any_eq_true.1 h
    obtain ⟨hmem, hf⟩ := List.mem_filter.1 hx
    simp only [Bool.and_eq_true, beq_iff_eq] at hf
    simp only [blocksDeletion, Bool.and_eq_true, bne_iff_ne, ne_eq, decide_eq_true_eq] at hb
    have := hnoblock x hmem hf.1 hf.2 hb.1
    omega
  have hstages : cleaned.stages = store.stages := by
    have := deleteEnvironmentLabel_store_stages stage store
    rw [hclean] at this
    exact this
  have hpresent : cleaned.stages.any (fun x => x.meta.hasKey stage.meta.key) = true := by
    rw [hstages]
    obtain ⟨x, hx, hk⟩ := hstage
    exact List.any_eq_true.2 ⟨x, hx, hk⟩
  refine ⟨{ cleaned with
    stages := cleaned.stages.map (fun x => if x.meta.hasKey stage.meta.key
      then { stage with meta := { stage.meta with
              Finalizers := stage.meta.Finalizers.filter (fun f => f != finalizer) } }
      else x) }, ?_, rfl, ?_, ?_⟩
  · simp only [tryToDeleteCDStage, storeReconcileStage, hdel, Option.isNone_some,
      Bool.false_eq_true, if_false]
    simp only [storeStageClient, hany, Bool.false_eq_true, if_false]
    simp only [storeStageClient] at hclean
    rw [hclean]
    simp only [ObjectMeta.key] at hpresent ⊢
    simp only [hpresent, if_true]
  · obtain ⟨x, hx, hk⟩ := List.any_eq_true.1 hpresent
    refine ⟨_, List.mem_map.2 ⟨x, hx, rfl⟩, ?_⟩
    simp only [hk, if_true]
    rw [hasKey_eq_decide]
    simp [ObjectMeta.key]
  · intro x hx hk
    obtain ⟨y, hy, hxy⟩ := List.mem_map.1 hx
    by_cases hyk : y.meta.hasKey stage.meta.key = true
    · rw [if_pos hyk] at hxy
      subst hxy
      simp [List.mem_filter]
    · rw [if_neg hyk] at hxy
      subst hxy
      exact absurd hk hyk

/-- C14 as stated fails for a stage that is not first, and when the cleanup fails. Stage
`qa` (Order 1) of pipeline `pipe` is marked for deletion and no listed stage blocks it;
`tryToDeleteCDStage` returns no error and clears the finalizer, but the cleanup edited the
derived stream `pipe-dev-app-verified`, and the pipeline's input stream `app-main` still
carries the label `pipe/qa`. And for the stage of `TestTryToDeleteCDStage_Success` on a
store without the input stream, nothing blocks the deletion, yet `tryToDeleteCDStage`
returns an error and the stage keeps its finalizer. -/
theorem tryToDeleteCDStage_input_label_stays :
    tryToDeleteCDStage (storeReconcileStage 5 "envLabelDeletion") qaStageDeleting
        qaDeletingStore
      = .done (some {}, none)
          { qaDeletingStore with streams := [rawStreamBoth, devVerifiedCleaned],
                                 stages := [devStageLabelled, qaStageReleased] }
    ∧ qaDeletingStore.stages.any (blocksDeletion qaStageDeleting) = false
    ∧ pipePipeline.Spec.InputDockerStreams = ["app-main"]
    ∧ rawStreamBoth.meta.hasKey { Namespace := "ns", Name := "app-main" } = true
    ∧ rawStreamBoth.meta.hasLabel "pipe/qa" "v1" = true
    ∧ tryToDeleteCDStage (storeReconcileStage 5 "envLabelDeletion") successStage
        { successStore with streams := [] }
      = .done (some {}, some (Wrapf (Wrapf (.notFound "docker-image-name")
          "couldn't get docker-image-name codebase image stream") "failed to delete Stage"))
          { successStore with streams := [] }
    ∧ ({ successStore with streams := [] } : StageStore).stages.any
        (blocksDeletion successStage) = false
    ∧ "envLabelDeletion" ∈ successStage.meta.Finalizers := by
  refine ⟨by decide, by decide, rfl, by decide, by decide, by decide, by decide, by decide⟩

/-! ## C19: the verified stream a stage derives -/

/-- Two metadata blocks cannot be addressed by the same key when their keys differ. -/
theorem hasKey_false_of_ne (m : ObjectMeta) (k1 k2 : NamespacedName) (hne : k1 ≠ k2)
    (h : m.hasKey k2 = true) : m.hasKey k1 = false := by
  rw [hasKey_eq_decide] at h ⊢
  rw [decide_eq_true_iff] at h
  rw [decide_eq_false_iff_not]
  intro h1
  exact hne (h1.trans h.symm)

/-- Replacing the elements picked by `q` with an element that `q` picks makes `find? q`
answer that element, when `q` picks some element. -/
theorem find?_map_replace_same {α : Type} (q : α → Bool) (y : α) (l : List α)
    (hy : q y = true) (hany : l.any q = true) :
    (l.map (fun x => if q x then y else x)).find? q = some y := by
  induction l with
  | nil => simp at hany
  | cons x t ih =>
    by_cases hq : q x = true
    · simp [List.find?_cons, hq, hy]
    · have ht : t.any q = true := by
        simpa [List.any_cons, hq] using hany
      simp [List.find?_cons, hq, ih ht]

/-- C21: `GetPlatformTypeEnv` returns the value the platform variable was set to and
`openshift` when the variable is unset; `IsKubernetes` is true exactly when that value is
`kubernetes`. Hence with the variable unset, `IsKubernetes` is false, and with namespace
management enabled (whatever the kiosk setting) `DelegateNamespaceCreation.ServeRequest`
hands the request to `PutOpenshiftProject`, and `DelegateNamespaceDeletion.ServeRequest`
hands it to `DeleteOpenshiftProject`. -/
theorem platform_defaults_to_openshift {σ : Type} (env : Env) (value : String)
    (manage kiosk : Bool) (impl : StepImpl σ) (next : Option (CdStageHandler σ))
    (stage : Stage) (s : σ) (log : List NamespaceStep) :
    platform.GetPlatformTypeEnv (Setenv env platform.TypeEnv value) = value
    ∧ platform.GetPlatformTypeEnv (Unsetenv env platform.TypeEnv) = "openshift"
    ∧ (platform.IsKubernetes env = true ↔ platform.GetPlatformTypeEnv env = "kubernetes")
    ∧ platform.IsKubernetes (Setenv env platform.TypeEnv "kubernetes") = true
    ∧ platform.IsKubernetes (Setenv env platform.TypeEnv "openshift") = false
    ∧ platform.IsKubernetes (Unsetenv env platform.TypeEnv) = false
    ∧ DelegateNamespaceCreation.ServeRequest
          { ManageNamespace := true,
            IsKubernetes := platform.IsKubernetes (Unsetenv env platform.TypeEnv),
            KioskEnabled := kiosk } impl next stage s
        = impl .PutOpenshiftProject next stage s
    ∧ DelegateNamespaceCreation.ServeRequest
          { ManageNamespace := true,
            IsKubernetes := platform.IsKubernetes (Unsetenv env platform.TypeEnv),
            KioskEnabled := kiosk } recordingImpl none stage log
        = (none, log ++ [NamespaceStep.PutOpenshiftProject])
    ∧ DelegateNamespaceDeletion.ServeRequest
          { ManageNamespace := manage,
            IsKubernetes := platform.IsKubernetes (Unsetenv env platform.TypeEnv),
            KioskEnabled := kiosk } impl next stage s
        = impl .DeleteOpenshiftProject next stage s
    ∧ DelegateNamespaceDeletion.ServeRequest
          { ManageNamespace := manage,
            IsKubernetes := platform.IsKubernetes (Unsetenv env platform.TypeEnv),
            KioskEnabled := kiosk } recordingImpl none stage log
        = (none, log ++ [NamespaceStep.DeleteOpenshiftProject]) := by
  have hset : ∀ v, platform.GetPlatformTypeEnv (Setenv env platform.TypeEnv v) = v := by
    intro v
    simp [platform.GetPlatformTypeEnv, Setenv]
  have hunset : platform.GetPlatformTypeEnv (Unsetenv env platform.TypeEnv) = "openshift" := by
    simp [platform.GetPlatformTypeEnv, Unsetenv, platform.Openshift]
  have hk : platform.IsKubernetes (Unsetenv env platform.TypeEnv) = false := by
    simp [platform.IsKubernetes, hunset, platform.Kubernetes]
  refine ⟨hset value, hunset, ?_, ?_, ?_, hk, ?_, ?_, ?_, ?_⟩
  · simp [platform.IsKubernetes, platform.Kubernetes]
  · simp [platform.IsKubernetes, hset, platform.Kubernetes]
  · simp [platform.IsKubernetes, hset, platform.Kubernetes]
  · simp [DelegateNamespaceCreation.ServeRequest, hk, nextServeOrNil]
  · simp [DelegateNamespaceCreation.ServeRequest, hk, nextServeOrNil, recordingImpl]
  · simp [DelegateNamespaceDeletion.ServeRequest, hk, nextServeOrNil]
  · simp [DelegateNamespaceDeletion.ServeRequest, hk, nextServeOrNil, recordingImpl]

/-! ## C22: the namespaces of one `ConfigureRbac` run -/

/-- Over any client, ensuring one object logs only the read of that object and the
creation of the object built from the step's options. -/
theorem ensure_traced_madeFor {σ : Type} (c : RbacClient σ)
    (next : Option (CdStageHandler (σ × List RbacCall))) (ns : String) (step : EnsureStep)
    (x : σ × List RbacCall) :
    ∃ calls, ((tracedConfigureRbac c next).ensure ns step x).2.2 = x.2 ++ calls
      ∧ ∀ call ∈ calls, call.madeFor ns step = true := by
  obtain ⟨s, log⟩ := x
  obtain ⟨isRole, name, opts⟩ := step
  cases isRole with
  | true =>
    simp only [ConfigureRbac.ensure, if_true, ConfigureRbac.createRole,
      ConfigureRbac.roleExists, tracedConfigureRbac, InitRbacManager, KubernetesRbac.GetRole,
      KubernetesRbac.CreateRole, RbacClient.traced]
    rcases c.GetRole { Namespace := ns, Name := name } s with ⟨_ | _, s1⟩
    · rename_i e
      by_cases hnf : IsNotFound e = true
      · rcases hc : c.CreateRole { meta := { Name := name, Namespace := ns }, Rules := opts.pr }
          s1 with ⟨_ | e2, s2⟩ <;>
        · refine ⟨[.getRole { Namespace := ns, Name := name },
            .createRole { meta := { Name := name, Namespace := ns }, Rules := opts.pr }],
            by simp [hnf, hc], ?_⟩
          intro call hcall
          simp only [List.mem_cons, List.mem_singleton, List.not_mem_nil, or_false] at hcall
          rcases hcall with rfl | rfl <;> simp [RbacCall.madeFor]
      · refine ⟨[.getRole { Namespace := ns, Name := name }], by simp [hnf], ?_⟩
        intro call hcall
        rw [List.mem_singleton.1 hcall]
        simp [RbacCall.madeFor]
    · refine ⟨[.getRole { Namespace := ns, Name := name }], by simp, ?_⟩
      intro call hcall
      rw [List.mem_singleton.1 hcall]
      simp [RbacCall.madeFor]
  | false =>
    simp only [ConfigureRbac.ensure, Bool.false_eq_true, if_false,
      ConfigureRbac.createRoleBinding, ConfigureRbac.roleBindingExists, tracedConfigureRbac,
      InitRbacManager, KubernetesRbac.GetRoleBinding, KubernetesRbac.CreateRoleBinding,
      RbacClient.traced]
    rcases c.GetRoleBinding { Namespace := ns, Name := name } s with ⟨_ | _, s1⟩
    · rename_i e
      by_cases hnf : IsNotFound e = true
      · rcases hc : c.CreateRoleBinding
          { meta := { Name := name, Namespace := ns }, Subjects := opts.subjects,
            RoleRef := opts.rf } s1 with ⟨_ | e2, s2⟩ <;>
        · refine ⟨[.getRoleBinding { Namespace := ns, Name := name },
            .createRoleBinding { meta := { Name := name, Namespace := ns },
                                 Subjects := opts.subjects, RoleRef := opts.rf }],
            by simp [hnf, hc], ?_⟩
          intro call hcall
          simp only [List.mem_cons, List.mem_singleton, List.not_mem_nil, or_false] at hcall
          rcases hcall with rfl | rfl <;> simp [RbacCall.madeFor]
      · refine ⟨[.getRoleBinding { Namespace := ns, Name := name }], by simp [hnf], ?_⟩
        intro call hcall
        rw [List.mem_singleton.1 hcall]
        simp [RbacCall.madeFor]
    · refine ⟨[.getRoleBinding { Namespace := ns, Name := name }], by simp, ?_⟩
      intro call hcall
      rw [List.mem_singleton.1 hcall]
      simp [RbacCall.madeFor]

/-- Over any client, ensuring a list of objects logs only calls made for objects of the
list. -/
theorem ensureInOrder_traced_madeFor {σ : Type} (c : RbacClient σ)
    (next : Option (CdStageHandler (σ × List RbacCall))) (ns : String)
    (steps : List EnsureStep) :
    ∀ x : σ × List RbacCall, ∃ added,
      ((tracedConfigureRbac c next).ensureInOrder ns steps x).2.2 = x.2 ++ added
      ∧ ∀ call ∈ added, ∃ step ∈ steps, call.madeFor ns step = true := by
  induction steps with
  | nil =>
    intro x
    exact ⟨[], by simp [ConfigureRbac.ensureInOrder], by simp⟩
  | cons step rest ih =>
    intro x
    obtain ⟨calls, hcalls, hall⟩ := ensure_traced_madeFor c next ns step x
    rcases hres : (tracedConfigureRbac c next).ensure ns step x with ⟨_ | e, x1⟩
    · rw [hres] at hcalls
      simp only [] at hcalls
      obtain ⟨added, hadded, hrest⟩ := ih x1
      refine ⟨calls ++ added, ?_, ?_⟩
      · simp only [ConfigureRbac.ensureInOrder, hres, hadded, hcalls, List.append_assoc]
      · intro call hcall
        rcases List.mem_append.1 hcall with h | h
        · exact ⟨step, List.mem_cons_self _ _, hall call h⟩
        · obtain ⟨st, hst, hmade⟩ := hrest call h
          exact ⟨st, List.mem_cons_of_mem _ hst, hmade⟩
    · rw [hres] at hcalls
      refine ⟨calls, ?_, ?_⟩
      · simp only [ConfigureRbac.ensureInOrder, hres]
        exact hcalls
      · intro call hcall
        exact ⟨step, List.mem_cons_self _ _, hall call hcall⟩

/-- Every subject in the options of the objects of a run is a service account of the
source namespace or a group named after it. -/
theorem rbacSteps_subjects (platformType sourceNamespace : String) :
    ∀ step ∈ rbacSteps platformType sourceNamespace, ∀ subject ∈ step.opts.subjects,
      (subject.Kind = "ServiceAccount" ∧ subject.Namespace = sourceNamespace
        ∧ (subject.Name = "edp-admin-console" ∨ subject.Name = "jenkins"))
      ∨ (subject.Kind = "Group" ∧ subject.Namespace = ""
        ∧ (subject.Name = sourceNamespace ++ "-edp-super-admin"
          ∨ subject.Name = sourceNamespace ++ "-edp-admin"
          ∨ subject.Name = sourceNamespace ++ "-edp-view")) := by
  intro step hstep subject hsubject
  by_cases hp : platformType = clusterOpenshiftType
  · simp only [rbacSteps, hp, beq_self_eq_true, if_true, List.cons_append, List.nil_append,
      List.mem_cons, List.mem_singleton, List.not_mem_nil, or_false] at hstep
    rcases hstep with rfl | rfl | rfl | rfl <;>
      simp [buildAcViewRoleOptions, buildJenkinsAdminRoleOptions, getJenkinsAdminRoleSubjects,
        buildViewGroupRoleOptions, clusterOpenshiftType] at hsubject <;>
      (try rcases hsubject with rfl | rfl | rfl) <;>
      simp [serviceAccountKind, groupKind, adminConsoleServiceAccountName,
        jenkinsServiceAccountName]
  · have hp' : (platformType == clusterOpenshiftType) = false := by
      simpa using hp
    simp only [rbacSteps, hp', Bool.false_eq_true, if_false, List.append_nil,
      List.mem_cons, List.mem_singleton, List.not_mem_nil, or_false] at hstep
    rcases hstep with rfl | rfl | rfl <;>
      simp [buildAcViewRoleOptions, buildJenkinsAdminRoleOptions, getJenkinsAdminRoleSubjects,
        hp] at hsubject <;>
      subst hsubject <;>
      simp [serviceAccountKind, adminConsoleServiceAccountName, jenkinsServiceAccountName]

/-- C22: run as the last handler over any client, `ConfigureRbac.ServeRequest` only adds to
the log calls that address the target namespace `{stage.Namespace}-{stage.Name}`: every
Role or RoleBinding it reads or creates is in that namespace. Every subject of a
RoleBinding it creates is a service account of the source namespace `stage.Namespace` or a
group whose name is the source namespace followed by `-edp-super-admin`, `-edp-admin` or
`-edp-view`. -/
theorem configureRbac_target_namespace {σ : Type} (c : RbacClient σ) (platformType : String)
    (stage : Stage) (x : σ × List RbacCall) :
    ∃ added,
      (ConfigureRbac.ServeRequest platformType (tracedConfigureRbac c none) stage x).2.2
        = x.2 ++ added
      ∧ (∀ call ∈ added,
          call.key.Namespace = stage.meta.Namespace ++ "-" ++ stage.meta.Name)
      ∧ (∀ rb, RbacCall.createRoleBinding rb ∈ added → ∀ subject ∈ rb.Subjects,
          (subject.Kind = "ServiceAccount" ∧ subject.Namespace = stage.meta.Namespace
            ∧ (subject.Name = "edp-admin-console" ∨ subject.Name = "jenkins"))
          ∨ (subject.Kind = "Group" ∧ subject.Namespace = ""
            ∧ (subject.Name = stage.meta.Namespace ++ "-edp-super-admin"
              ∨ subject.Name = stage.meta.Namespace ++ "-edp-admin"
              ∨ subject.Name = stage.meta.Namespace ++ "-edp-view"))) := by
  obtain ⟨added, hadded, hall⟩ := ensureInOrder_traced_madeFor c none
    (generateTargetNamespaceName stage) (rbacSteps platformType stage.meta.Namespace) x
  have hlog : (ConfigureRbac.ServeRequest platformType (tracedConfigureRbac c none) stage x).2.2
      = ((tracedConfigureRbac c none).ensureInOrder (generateTargetNamespaceName stage)
          (rbacSteps platformType stage.meta.Namespace) x).2.2 := by
    rw [serveRequest_eq_ensureInOrder]
    rcases (tracedConfigureRbac c none).ensureInOrder (generateTargetNamespaceName stage)
      (rbacSteps platformType stage.meta.Namespace) x with ⟨_ | e, x1⟩ <;> rfl
  refine ⟨added, hlog.trans hadded, ?_, ?_⟩
  · intro call hcall
    obtain ⟨step, -, hmade⟩ := hall call hcall
    cases call <;>
      simp only [RbacCall.madeFor, Bool.and_eq_true, beq_iff_eq] at hmade <;>
      simp [RbacCall.key, ObjectMeta.key, hmade.2, generateTargetNamespaceName]
  · intro rb hrb subject hsubject
    obtain ⟨step, hstep, hmade⟩ := hall _ hrb
    simp only [RbacCall.madeFor, Bool.and_eq_true, beq_iff_eq] at hmade
    rw [hmade.2] at hsubject
    exact rbacSteps_subjects platformType stage.meta.Namespace step hstep subject hsubject

/-- Witness for C22: on openshift and an empty store, every call of the run for stage
`test-stage` of `test-ns` addresses `test-ns-test-stage`, and the subjects of the created
bindings are named after `test-ns`. -/
theorem configureRbac_target_namespace_witness :
    (runConfigureRbac "openshift" rbacTestStage {}).2.2.map (fun call => call.key.Namespace)
      = List.replicate 8 "test-ns-test-stage"
    ∧ (runConfigureRbac "openshift" rbacTestStage {}).2.1.roleBindings.map
        (fun rb => rb.Subjects.map (fun subject => (subject.Name, subject.Namespace)))
      = [[("edp-admin-console", "test-ns")],
         [("test-ns-edp-super-admin", ""), ("test-ns-edp-admin", ""), ("jenkins", "test-ns")],
         [("test-ns-edp-view", "")]]
    ∧ ∃ added,
      (ConfigureRbac.ServeRequest "openshift" (tracedConfigureRbac storeRbacClient none)
        rbacTestStage ({}, [])).2.2 = [] ++ added
      ∧ (∀ call ∈ added, call.key.Namespace = "test-ns" ++ "-" ++ "test-stage") := by
  obtain ⟨added, hadded, hns, -⟩ :=
    configureRbac_target_namespace storeRbacClient "openshift" rbacTestStage ({}, [])
  exact ⟨by decide, by decide, added, hadded, hns⟩

/-! ## C24: label removal -/

theorem mapDelete_any_other (labels : List (String × String)) (k label value : String)
    (hne : label ≠ k) :
    (mapDelete labels k).any (fun p => p.1 == label && p.2 == value)
      = labels.any (fun p => p.1 == label && p.2 == value) := by
  induction labels with
  | nil => rfl
  | cons p t ih =>
    simp only [mapDelete] at ih ⊢
    by_cases hp : p.1 = k
    · simp only [List.filter_cons, hp, bne_self_eq_false, Bool.false_eq_true, if_false,
        List.any_cons, ih]
      have hpl : (k == label) = false := by
        rw [beq_eq_false_iff_ne]
        exact fun h => hne h.symm
      simp [hpl]
    · simp [List.filter_cons, hp, ih]

theorem mapDelete_of_absent (labels : List (String × String)) (k : String)
    (h : ∀ p ∈ labels, p.1 ≠ k) : mapDelete labels k = labels := by
  simp only [mapDelete]
  rw [List.filter_eq_self]
  intro p hp
  simpa using h p hp

/-- C24: after `deleteLabel` the labels hold no entry for the key `k`, every other key
holds the values it held, and nothing but the labels changed. When the label map is nil
or holds no entry for `k`, the metadata is unchanged (a nil map stays nil). Deleting twice
is deleting once. -/
theorem deleteLabel_frame (m : ObjectMeta) (k : String) :
    (∀ labels, (deleteLabel m k).Labels = some labels → ∀ p ∈ labels, p.1 ≠ k)
    ∧ (∀ value, (deleteLabel m k).hasLabel k value = false)
    ∧ (∀ label value, label ≠ k →
        (deleteLabel m k).hasLabel label value = m.hasLabel label value)
    ∧ deleteLabel m k = { m with Labels := (deleteLabel m k).Labels }
    ∧ (m.Labels = none → deleteLabel m k = m)
    ∧ ((deleteLabel m k).Labels = none ↔ m.Labels = none)
    ∧ (∀ labels, m.Labels = some labels → (∀ p ∈ labels, p.1 ≠ k) → deleteLabel m k = m)
    ∧ deleteLabel (deleteLabel m k) k = deleteLabel m k := by
  cases hm : m.Labels with
  | none =>
    have hd : deleteLabel m k = m := by
      simp [deleteLabel, hm]
    rw [hd]
    refine ⟨?_, ?_, fun _ _ _ => rfl, rfl, fun _ => rfl, by simp [hm], ?_, ?_⟩
    · intro labels hl
      rw [hm] at hl
      cases hl
    · intro value
      simp [ObjectMeta.hasLabel, hm]
    · intro labels hl
      cases hl
    · exact hd
  | some labels0 =>
    have hd : deleteLabel m k = { m with Labels := some (mapDelete labels0 k) } := by
      simp [deleteLabel, hm]
    have hnone : ∀ p ∈ mapDelete labels0 k, p.1 ≠ k := by
      intro p hp
      simpa [mapDelete] using (List.mem_filter.1 hp).2
    refine ⟨?_, ?_, ?_, ?_, ?_, ?_, ?_, ?_⟩
    · intro labels hl
      rw [hd] at hl
      cases hl
      exact hnone
    · intro value
      rw [hd, Bool.eq_false_iff]
      intro h
      obtain ⟨p, hp, hpv⟩ := List.any_eq_true.1 h
      simp only [Bool.and_eq_true, beq_iff_eq] at hpv
      exact hnone p hp hpv.1
    · intro label value hne
      rw [hd]
      simp only [ObjectMeta.hasLabel, hm, Option.getD_some]
      exact mapDelete_any_other labels0 k label value hne
    · rw [hd]
    · intro h
      cases h
    · rw [hd]
      simp
    · intro labels hl habsent
      injection hl with hl
      subst hl
      rw [hd, mapDelete_of_absent labels0 k habsent]
      cases m
      simp only [] at hm
      simp [hm]
    · rw [hd]
      simp only [deleteLabel]
      rw [mapDelete_of_absent _ k hnone]

/-- Witness for C24: a nil label map stays nil; a map without the key is unchanged; with
the key, only that entry goes. -/
theorem deleteLabel_frame_witness :
    deleteLabel { Name := "app-main", Namespace := "ns" } "pipe/dev"
      = { Name := "app-main", Namespace := "ns" }
    ∧ deleteLabel { Name := "app-main", Namespace := "ns", Labels := some [("pipe/qa", "v1")] }
        "pipe/dev"
      = { Name := "app-main", Namespace := "ns", Labels := some [("pipe/qa", "v1")] }
    ∧ deleteLabel
        { Name := "app-main", Namespace := "ns",
          Labels := some [("pipe/dev", "v1"), ("pipe/qa", "v2")] } "pipe/dev"
      = { Name := "app-main", Namespace := "ns", Labels := some [("pipe/qa", "v2")] }
    ∧ (deleteLabel
        { Name := "app-main", Namespace := "ns",
          Labels := some [("pipe/dev", "v1"), ("pipe/qa", "v2")] } "pipe/dev").hasLabel
        "pipe/qa" "v2" = true :=
  ⟨(deleteLabel_frame { Name := "app-main", Namespace := "ns" } "pipe/dev").2.2.2.2.1 rfl,
   (deleteLabel_frame
      { Name := "app-main", Namespace := "ns", Labels := some [("pipe/qa", "v1")] }
      "pipe/dev").2.2.2.2.2.2.1 [("pipe/qa", "v1")] rfl (by decide),
   by decide,
   ((deleteLabel_frame
      { Name := "app-main", Namespace := "ns",
        Labels := some [("pipe/dev", "v1"), ("pipe/qa", "v2")] } "pipe/dev").2.2.1
      "pipe/qa" "v2" (by decide)).trans (by decide)⟩

/-! ## C25: the cases of `buildAnnotationValue` -/

theorem findVal_iff_mem (envs : List String) (val : String) :
    findVal envs val = true ↔ val ∈ envs := by
  induction envs with
  | nil => simp [findVal]
  | cons e t ih =>
    by_cases he : e = val
    · simp [findVal, he]
    · have hne : ¬ val = e := fun h => he h.symm
      simp [findVal, he, hne, ih]

theorem length_eq_zero_iff_empty (s : String) : (s.length == 0) = true ↔ s = "" := by
  rw [beq_iff_eq]
  constructor
  · intro h
    apply String.ext
    exact List.length_eq_zero.1 h
  · intro h
    rw [h]
    rfl

theorem buildAnnotationValue_of_empty (envs val : String) (h : envs = "") :
    buildAnnotationValue envs val = val := by
  simp [buildAnnotationValue, h]

theorem buildAnnotationValue_of_mem (envs val : String) (hne : envs ≠ "")
    (hmem : val ∈ Split envs ',') : buildAnnotationValue envs val = envs := by
  have hlen : (envs.length == 0) = false := by
    rw [Bool.eq_false_iff]
    exact fun h => hne ((length_eq_zero_iff_empty envs).1 h)
  simp [buildAnnotationValue, hlen, (findVal_iff_mem _ _).2 hmem]

theorem buildAnnotationValue_of_not_mem (envs val : String) (hne : envs ≠ "")
    (hmem : val ∉ Split envs ',') : buildAnnotationValue envs val = envs ++ "," ++ val := by
  have hlen : (envs.length == 0) = false := by
    rw [Bool.eq_false_iff]
    exact fun h => hne ((length_eq_zero_iff_empty envs).1 h)
  have hf : findVal (Split envs ',') val = false := by
    rw [Bool.eq_false_iff]
    exact fun h => hmem ((findVal_iff_mem _ _).1 h)
  simp [buildAnnotationValue, hlen, hf]

/-- C25: `buildAnnotationValue envs val` is `val` when `envs` is empty, `envs` when `val`
is one of the pieces of `envs` split at `,`, and `envs` followed by `,` and `val`
otherwise. In every case the result starts with `envs`, and for a history that is not
empty the pieces of `envs` are the first pieces of the result, in their order. -/
theorem buildAnnotationValue_cases (envs val : String) :
    (envs = "" → buildAnnotationValue envs val = val)
    ∧ (envs ≠ "" → val ∈ Split envs ',' → buildAnnotationValue envs val = envs)
    ∧ (envs ≠ "" → val ∉ Split envs ',' → buildAnnotationValue envs val = envs ++ "," ++ val)
    ∧ (∃ added, buildAnnotationValue envs val = envs ++ added)
    ∧ envs.data <+: (buildAnnotationValue envs val).data
    ∧ (envs ≠ "" → Split envs ',' <+: Split (buildAnnotationValue envs val) ',') := by
  have h1 := buildAnnotationValue_of_empty envs val
  have h2 := buildAnnotationValue_of_mem envs val
  have h3 := buildAnnotationValue_of_not_mem envs val
  have h4 : ∃ added, buildAnnotationValue envs val = envs ++ added := by
    by_cases he : envs = ""
    · exact ⟨val, by rw [h1 he, he]; simp⟩
    · by_cases hmem : val ∈ Split envs ','
      · exact ⟨"", by rw [h2 he hmem]; simp⟩
      · exact ⟨"," ++ val, by rw [h3 he hmem, String.append_assoc]⟩
  refine ⟨h1, h2, h3, h4, ?_, ?_⟩
  · obtain ⟨added, hadded⟩ := h4
    rw [hadded, String.data_append]
    exact List.prefix_append _ _
  · intro he
    by_cases hmem : val ∈ Split envs ','
    · rw [h2 he hmem]
    · rw [h3 he hmem, Split_append_comma]
      exact List.prefix_append _ _

/-- Witness for C25: an empty history, a recorded environment, a new environment. -/
theorem buildAnnotationValue_cases_witness :
    buildAnnotationValue "" "pipe/dev" = "pipe/dev"
    ∧ buildAnnotationValue "pipe/qa,pipe/dev" "pipe/dev" = "pipe/qa,pipe/dev"
    ∧ buildAnnotationValue "pipe/qa" "pipe/dev" = "pipe/qa" ++ "," ++ "pipe/dev" :=
  ⟨(buildAnnotationValue_cases "" "pipe/dev").1 rfl,
   (buildAnnotationValue_cases "pipe/qa,pipe/dev" "pipe/dev").2.1 (by decide) (by decide),
   (buildAnnotationValue_cases "pipe/qa" "pipe/dev").2.2.1 (by decide) (by decide)⟩

/-! ## C23 and C29: what the cleanup step records -/

theorem mapGet_mapSet_self (l : List (String × String)) (k v : String) :
    mapGet (mapSet l k v) k = v := by
  unfold mapSet
  by_cases hany : l.any (fun p => p.1 == k) = true
  · rw [if_pos hany]
    unfold mapGet
    rw [find?_map_replace_same (fun p : String × String => p.1 == k) (k, v) l (by simp) hany]
  · rw [if_neg hany]
    have hnone : l.find? (fun p => p.1 == k) = none :=
      find?_none_of_any_false _ _ (Bool.eq_false_iff.2 hany)
    simp [mapGet, List.find?_append, hnone]

theorem find?_mapSet_other (l : List (String × String)) (k v other : String)
    (hne : other ≠ k) :
    (mapSet l k v).find? (fun p => p.1 == other) = l.find? (fun p => p.1 == other) := by
  unfold mapSet
  have hk : ((k, v).1 == other) = false := by
    rw [beq_eq_false_iff_ne]
    exact fun h => hne h.symm
  by_cases hany : l.any (fun p => p.1 == k) = true
  · rw [if_pos hany]
    refine find?_map_replace (fun p : String × String => p.1 == other)
      (fun p : String × String => p.1 == k) (k, v) l hk ?_
    intro x hx
    rw [beq_iff_eq] at hx
    rw [beq_eq_false_iff_ne, hx]
    exact fun h => hne h.symm
  · rw [if_neg hany]
    simp [List.find?_append, hk]

theorem mapSet_any_self (l : List (String × String)) (k v : String) :
    (mapSet l k v).find? (fun p => p.1 == k) = some (k, v) := by
  unfold mapSet
  by_cases hany : l.any (fun p => p.1 == k) = true
  · rw [if_pos hany]
    exact find?_map_replace_same (fun p : String × String => p.1 == k) (k, v) l (by simp) hany
  · rw [if_neg hany]
    have hnone : l.find? (fun p => p.1 == k) = none :=
      find?_none_of_any_false _ _ (Bool.eq_false_iff.2 hany)
    simp [List.find?_append, hnone]

/-- What `setAnnotation` leaves in the annotations, and that it leaves the labels alone. -/
theorem setAnnotation_fields (m : ObjectMeta) (val : String) :
    ( setAnnotation m val).Annotations
        = some (mapSet m.GetAnnotations lastDeletedEnvsAnnotationKey
            (buildAnnotationValue (mapGet m.GetAnnotations lastDeletedEnvsAnnotationKey) val))
    ∧ ( setAnnotation m val).Labels = m.Labels := by
  unfold setAnnotation
  cases hm : m.Annotations <;> simp [ObjectMeta.GetAnnotations, hm]

theorem deleteLabel_annotations (m : ObjectMeta) (label : String) :
    (deleteLabel m label).Annotations = m.Annotations := by
  unfold deleteLabel
  cases m.Labels <;> rfl

/-- A value without a comma is among the pieces of the history it was recorded into. -/
theorem buildAnnotationValue_records (envs val : String) (hval : ',' ∉ val.data) :
    val ∈ Split (buildAnnotationValue envs val) ',' := by
  by_cases he : envs = ""
  · rw [buildAnnotationValue_of_empty envs val he, Split_of_not_mem val ',' hval]
    exact List.mem_singleton.2 rfl
  · by_cases hmem : val ∈ Split envs ','
    · rw [buildAnnotationValue_of_mem envs val he hmem]
      exact hmem
    · rw [buildAnnotationValue_of_not_mem envs val he hmem, Split_append_comma,
        Split_of_not_mem val ',' hval]
      exact List.mem_append_right _ (List.mem_singleton.2 rfl)

/-- Recording a value without a comma adds no piece but that value. -/
theorem buildAnnotationValue_adds_only (envs val : String) (hval : ',' ∉ val.data) :
    ∀ piece ∈ Split (buildAnnotationValue envs val) ',',
      piece = val ∨ piece ∈ Split envs ',' := by
  intro piece hpiece
  by_cases he : envs = ""
  · rw [buildAnnotationValue_of_empty envs val he, Split_of_not_mem val ',' hval] at hpiece
    exact Or.inl (List.mem_singleton.1 hpiece)
  · by_cases hmem : val ∈ Split envs ','
    · rw [buildAnnotationValue_of_mem envs val he hmem] at hpiece
      exact Or.inr hpiece
    · rw [buildAnnotationValue_of_not_mem envs val he hmem, Split_append_comma,
        Split_of_not_mem val ',' hval] at hpiece
      rcases List.mem_append.1 hpiece with h | h
      · exact Or.inr h
      · exact Or.inl (List.mem_singleton.1 h)

/-- C23 as stated fails: the entry that the cleanup step adds to the history is the label
key, not the value the label had. The stream `app-main` carries `pipe/dev` with the value
`v1`; after the step the label is gone, the history is `pipe/dev`, and `v1` is not among
its entries. -/
theorem cleanup_records_key_not_value :
    rawStream.meta.hasLabel "pipe/dev" "v1" = true
    ∧ (deleteLabel ( setAnnotation rawStream.meta "pipe/dev") "pipe/dev").hasLabel
        "pipe/dev" "v1" = false
    ∧ mapGet (deleteLabel ( setAnnotation rawStream.meta "pipe/dev") "pipe/dev").GetAnnotations
        lastDeletedEnvsAnnotationKey = "pipe/dev"
    ∧ "v1" ∉ Split
        (mapGet (deleteLabel ( setAnnotation rawStream.meta "pipe/dev") "pipe/dev").GetAnnotations
          lastDeletedEnvsAnnotationKey) ','
    ∧ ¬ (∀ (m : ObjectMeta) (env v : String), m.hasLabel env v = true →
          v ∈ Split (mapGet (deleteLabel ( setAnnotation m env) env).GetAnnotations
            lastDeletedEnvsAnnotationKey) ',') := by
  refine ⟨by decide, by decide, by decide, by decide, ?_⟩
  intro h
  exact absurd (h rawStream.meta "pipe/dev" "v1" (by decide)) (by decide)

/-- C23, amended: for every metadata and every environment string `env` (the label key
`{pipeline}/{stage}`) without a comma, after the cleanup step (`setAnnotation` followed by
`deleteLabel`) no label `env` is left, every other label is as it was, `env` itself is
among the comma-separated entries of the history annotation, and every entry of the
history is `env` or was an entry before: the value the label had is not recorded. -/
theorem cleanup_moves_key_to_history (m : ObjectMeta) (env : String)
    (hcomma : ',' ∉ env.data) :
    (∀ v, (deleteLabel ( setAnnotation m env) env).hasLabel env v = false)
    ∧ (∀ label v, label ≠ env →
        (deleteLabel ( setAnnotation m env) env).hasLabel label v = m.hasLabel label v)
    ∧ env ∈ Split (mapGet (deleteLabel ( setAnnotation m env) env).GetAnnotations
        lastDeletedEnvsAnnotationKey) ','
    ∧ (∀ piece ∈ Split (mapGet (deleteLabel ( setAnnotation m env) env).GetAnnotations
          lastDeletedEnvsAnnotationKey) ',',
        piece = env ∨ piece ∈ Split (mapGet m.GetAnnotations lastDeletedEnvsAnnotationKey) ',') := by
  have hval : mapGet (deleteLabel ( setAnnotation m env) env).GetAnnotations
      lastDeletedEnvsAnnotationKey
      = buildAnnotationValue (mapGet m.GetAnnotations lastDeletedEnvsAnnotationKey) env := by
    simp only [ObjectMeta.GetAnnotations, deleteLabel_annotations,
      (setAnnotation_fields m env).1, Option.getD_some]
    exact mapGet_mapSet_self _ _ _
  refine ⟨fun v => hasLabel_deleteLabel m env v, ?_, ?_, ?_⟩
  · intro label v hne
    have h1 : (deleteLabel ( setAnnotation m env) env).hasLabel label v
        = ( setAnnotation m env).hasLabel label v := by
      unfold deleteLabel
      cases hl : ( setAnnotation m env).Labels with
      | none => rfl
      | some labels =>
        simp only [ObjectMeta.hasLabel, hl, Option.getD_some]
        exact mapDelete_any_other labels env label v hne
    rw [h1]
    simp only [ObjectMeta.hasLabel, (setAnnotation_fields m env).2]
  · rw [hval]
    exact buildAnnotationValue_records _ env hcomma
  · rw [hval]
    exact buildAnnotationValue_adds_only _ env hcomma

/-- Witness for C23, amended: the cleanup of `app-main` for `pipe/dev`. -/
theorem cleanup_moves_key_to_history_witness :
    "pipe/dev" ∈ Split
      (mapGet (deleteLabel ( setAnnotation rawStream.meta "pipe/dev") "pipe/dev").GetAnnotations
        lastDeletedEnvsAnnotationKey) ','
    ∧ deleteLabel ( setAnnotation rawStream.meta "pipe/dev") "pipe/dev" = rawStreamCleaned.meta :=
  ⟨(cleanup_moves_key_to_history rawStream.meta "pipe/dev" (by decide)).2.2.1, by decide⟩

/-- C29: for every metadata, whatever its labels, after the cleanup step (`setAnnotation`
followed by `deleteLabel`) the annotation map is not nil and holds the history annotation,
whose value is `buildAnnotationValue` of the value before and the environment string; every
other annotation is what it was; from a nil annotation map the step makes the map with the
single history entry. For an environment string without a comma, the environment is among
the comma-separated entries of the history. -/
theorem cleanup_writes_history (m : ObjectMeta) (env : String) :
    ∃ anns : List (String × String),
      (deleteLabel ( setAnnotation m env) env).Annotations = some anns
      ∧ anns.find? (fun p => p.1 == lastDeletedEnvsAnnotationKey)
        = some (lastDeletedEnvsAnnotationKey,
            buildAnnotationValue (mapGet m.GetAnnotations lastDeletedEnvsAnnotationKey) env)
      ∧ (∀ k, k ≠ lastDeletedEnvsAnnotationKey →
          anns.find? (fun p => p.1 == k) = m.GetAnnotations.find? (fun p => p.1 == k))
      ∧ (m.Annotations = none → anns = [(lastDeletedEnvsAnnotationKey, env)])
      ∧ (',' ∉ env.data → env ∈ Split (mapGet anns lastDeletedEnvsAnnotationKey) ',') := by
  refine ⟨_, (deleteLabel_annotations _ _).trans (setAnnotation_fields m env).1,
    mapSet_any_self _ _ _, fun k hk => find?_mapSet_other _ _ _ k hk, ?_, ?_⟩
  · intro hnil
    simp [ObjectMeta.GetAnnotations, hnil, mapSet, mapGet, buildAnnotationValue]
  · intro hcomma
    rw [mapGet_mapSet_self]
    exact buildAnnotationValue_records _ env hcomma

/-- Witness for C29: a stream without labels and without annotations, and a stream that
carries another annotation and an older history. -/
theorem cleanup_writes_history_witness :
    deleteLabel ( setAnnotation { Name := "app-main", Namespace := "ns" } "pipe/dev") "pipe/dev"
      = { Name := "app-main", Namespace := "ns",
          Annotations := some [("deploy.edp.epam.com/last-deleted-envs", "pipe/dev")] }
    ∧ deleteLabel ( setAnnotation
        { Name := "app-main", Namespace := "ns",
          Annotations := some [("owner", "team"),
            ("deploy.edp.epam.com/last-deleted-envs", "pipe/qa")] } "pipe/dev") "pipe/dev"
      = { Name := "app-main", Namespace := "ns",
          Annotations := some [("owner", "team"),
            ("deploy.edp.epam.com/last-deleted-envs", "pipe/qa,pipe/dev")] }
    ∧ ∃ anns : List (String × String),
      (deleteLabel ( setAnnotation { Name := "app-main", Namespace := "ns" } "pipe/dev")
        "pipe/dev").Annotations = some anns
      ∧ anns = [(lastDeletedEnvsAnnotationKey, "pipe/dev")]
      ∧ "pipe/dev" ∈ Split (mapGet anns lastDeletedEnvsAnnotationKey) ',' := by
  obtain ⟨anns, h1, -, -, h4, h5⟩ :=
    cleanup_writes_history { Name := "app-main", Namespace := "ns" } "pipe/dev"
  exact ⟨by decide, by decide, anns, h1, h4 rfl, h5 (by decide)⟩

/-! ## C26: the pipeline names in the label key and in the derived stream name -/

/-- C26 as stated fails for a pipeline whose metadata name is not its `Spec.Name`: for the
pipeline object `cdp` with `Spec.Name` `pipe`, the cleanup of stage `qa` reads the derived
stream `cdp-dev-app-verified` and removes and records the label key `pipe/qa`; no one
pipeline name builds both strings. -/
theorem deleteEnvironmentLabel_two_pipeline_names :
    deleteEnvironmentLabel storeStageClient.traced cdpQaStage (cdpStore, [])
      = .done none
          ({ cdpStore with streams := [rawStream, cdpDevVerifiedCleaned] },
           [.getCdPipeline cdpQaStage,
            .getCodebaseImageStream "app-main" "ns", .findPreviousStage 1 "pipe" "ns",
            .getCodebaseImageStream "cdp-dev-app-verified" "ns",
            .updateCodebaseImageStream cdpDevVerifiedCleaned])
    ∧ cdpDevVerifiedStream.meta.hasLabel "pipe/qa" "v1" = true
    ∧ cdpDevVerifiedCleaned.meta.hasLabel "pipe/qa" "v1" = false
    ∧ mapGet cdpDevVerifiedCleaned.meta.GetAnnotations lastDeletedEnvsAnnotationKey = "pipe/qa"
    ∧ ¬ (∃ pipeline : String,
          "pipe/qa" = pipeline ++ "/" ++ "qa"
          ∧ "cdp-dev-app-verified" = pipeline ++ "-" ++ "dev" ++ "-" ++ "app" ++ "-verified") := by
  refine ⟨by decide, by decide, by decide, by decide, ?_⟩
  rintro ⟨pipeline, h1, h2⟩
  have hp : pipeline = "pipe" := by
    have hd := congrArg String.data h1
    have hd' : "pipe".data ++ "/qa".data = pipeline.data ++ "/qa".data := by
      simpa [String.data_append] using hd
    exact (String.ext (List.append_cancel_right hd')).symm
  rw [hp] at h2
  exact absurd h2 (by decide)

/-- C26, amended: in a round of the loop for a stage that is not first, the derived stream
is read under the name `{pipe.Name}-{previousStage.Spec.Name}-{codebase}-verified`, built
from the metadata name of the pipeline object, and the stream written back has lost the
label `{pipe.Spec.Name}/{stage.Spec.Name}` and, that string holding no comma, records it
in the history annotation: the label key and the history entry are one string, built from
the pipeline's `Spec.Name`. The previous stage is looked up under `pipe.Spec.Name` too.
The two pipeline names build the same strings when `pipe.Spec.Name` is `pipe.Name`. -/
theorem deleteEnvironmentLabel_label_key {σ : Type} (h : StageClient σ) (stage : Stage)
    (horder : stage.Spec.Order ≠ 0) (pipe : CDPipeline) (name : String) (rest : List String)
    (s s1 s2 s3 : σ) (log : List StageCall) (raw derived : CodebaseImageStream)
    (previousStage : Stage)
    (hraw : h.GetCodebaseImageStream name stage.meta.Namespace s = ((some raw, none), s1))
    (hprev : h.FindPreviousStage stage.Spec.Order pipe.Spec.Name stage.meta.Namespace s1
      = ((some previousStage, none), s2))
    (hder : h.GetCodebaseImageStream
        (pipe.meta.Name ++ "-" ++ previousStage.Spec.Name ++ "-" ++ raw.Spec.Codebase
          ++ "-verified")
        stage.meta.Namespace s2 = ((some derived, none), s3)) :
    ∃ (updated : CodebaseImageStream) (calls : List StageCall),
      updated.Spec = derived.Spec
      ∧ updated.meta = deleteLabel
          ( setAnnotation derived.meta (pipe.Spec.Name ++ "/" ++ stage.Spec.Name))
          (pipe.Spec.Name ++ "/" ++ stage.Spec.Name)
      ∧ (∀ v, updated.meta.hasLabel (pipe.Spec.Name ++ "/" ++ stage.Spec.Name) v = false)
      ∧ (',' ∉ (pipe.Spec.Name ++ "/" ++ stage.Spec.Name).data →
          pipe.Spec.Name ++ "/" ++ stage.Spec.Name
            ∈ Split (mapGet updated.meta.GetAnnotations lastDeletedEnvsAnnotationKey) ',')
      ∧ calls =
          [.getCodebaseImageStream name stage.meta.Namespace,
           .findPreviousStage stage.Spec.Order pipe.Spec.Name stage.meta.Namespace,
           .getCodebaseImageStream
             (pipe.meta.Name ++ "-" ++ previousStage.Spec.Name ++ "-" ++ raw.Spec.Codebase
               ++ "-verified") stage.meta.Namespace,
           .updateCodebaseImageStream updated]
      ∧ deleteEnvironmentLabelLoop h.traced stage pipe (name :: rest) (s, log) =
          (match h.UpdateCodebaseImageStream updated s3 with
          | (some err, s4) =>
            .done (some (Wrapf err ("couldn't update " ++ sprintStream updated
              ++ " codebase image stream"))) (s4, log ++ calls)
          | (none, s4) =>
            deleteEnvironmentLabelLoop h.traced stage pipe rest (s4, log ++ calls))
      ∧ (pipe.Spec.Name = pipe.meta.Name →
          pipe.meta.Name ++ "-" ++ previousStage.Spec.Name ++ "-" ++ raw.Spec.Codebase
              ++ "-verified"
            = pipe.Spec.Name ++ "-" ++ previousStage.Spec.Name ++ "-" ++ raw.Spec.Codebase
              ++ "-verified") := by
  have hfirst : stage.IsFirst = false := by
    simp [Stage.IsFirst, horder]
  refine ⟨{ derived with
      meta := deleteLabel
        ( setAnnotation derived.meta (pipe.Spec.Name ++ "/" ++ stage.Spec.Name))
        (pipe.Spec.Name ++ "/" ++ stage.Spec.Name) }, _, rfl, rfl,
    fun v => hasLabel_deleteLabel _ _ v, ?_, rfl, ?_, ?_⟩
  · intro hcomma
    simp only [ObjectMeta.GetAnnotations, deleteLabel_annotations,
      (setAnnotation_fields derived.meta _).1, Option.getD_some]
    rw [mapGet_mapSet_self]
    exact buildAnnotationValue_records _ _ hcomma
  · rw [deleteEnvironmentLabelLoop]
    simp only [StageClient.traced, hraw, hprev, hder, hfirst]
    cases hu : h.UpdateCodebaseImageStream
        { derived with
          meta := deleteLabel
            ( setAnnotation derived.meta (pipe.Spec.Name ++ "/" ++ stage.Spec.Name))
            (pipe.Spec.Name ++ "/" ++ stage.Spec.Name) } s3 with
    | mk r s4 =>
      cases r <;> simp [hu]
  · intro hsame
    rw [hsame]

/-- Witness for C26, amended: the round of stage `qa` on the pipeline object `cdp` with
`Spec.Name` `pipe`. -/
theorem deleteEnvironmentLabel_label_key_witness :
    ∃ (updated : CodebaseImageStream),
      updated = cdpDevVerifiedCleaned
      ∧ (∀ v, updated.meta.hasLabel "pipe/qa" v = false)
      ∧ "pipe/qa" ∈ Split (mapGet updated.meta.GetAnnotations lastDeletedEnvsAnnotationKey) ','
      ∧ deleteEnvironmentLabelLoop storeStageClient.traced cdpQaStage cdpPipeline ["app-main"]
          (cdpStore, [])
        = .done none
            ({ cdpStore with streams := [rawStream, cdpDevVerifiedCleaned] },
             [.getCodebaseImageStream "app-main" "ns", .findPreviousStage 1 "pipe" "ns",
              .getCodebaseImageStream "cdp-dev-app-verified" "ns",
              .updateCodebaseImageStream updated]) := by
  obtain ⟨updated, calls, hspec, hmeta, hlabel, hentry, hcalls, hrun, -⟩ :=
    deleteEnvironmentLabel_label_key storeStageClient cdpQaStage (by decide) cdpPipeline
      "app-main" [] cdpStore cdpStore cdpStore cdpStore [] rawStream cdpDevVerifiedStream
      cdpDevStage rfl rfl rfl
  have hupd : updated = cdpDevVerifiedCleaned := by
    cases updated
    simp only [] at hspec hmeta
    subst hspec hmeta
    decide
  refine ⟨updated, hupd, hlabel, hentry (by decide), ?_⟩
  rw [hrun, hcalls, hupd]
  decide

/-! ## C27: target namespaces of different stages -/

/-- C27 as stated fails: the stage `c` of the namespace `a-b` and the stage `b-c` of the
namespace `a` differ in namespace and in name, and both get the target namespace
`a-b-c`. -/
theorem generateTargetNamespaceName_collision :
    generateTargetNamespaceName { meta := { Name := "c", Namespace := "a-b" } } = "a-b-c"
    ∧ generateTargetNamespaceName { meta := { Name := "b-c", Namespace := "a" } } = "a-b-c"
    ∧ ¬ (∀ s1 s2 : Stage,
          s1.meta.Namespace ≠ s2.meta.Namespace ∨ s1.meta.Name ≠ s2.meta.Name →
          generateTargetNamespaceName s1 ≠ generateTargetNamespaceName s2) := by
  refine ⟨by decide, by decide, ?_⟩
  intro h
  exact h { meta := { Name := "c", Namespace := "a-b" } }
    { meta := { Name := "b-c", Namespace := "a" } } (Or.inl (by decide)) (by decide)

/-- Two lists cut at their first separator are equal only part by part. -/
theorem append_sep_cancel {α : Type} (sep : α) :
    ∀ (a c b d : List α), sep ∉ a → sep ∉ c → a ++ sep :: b = c ++ sep :: d → a = c ∧ b = d := by
  intro a
  induction a with
  | nil =>
    intro c b d _ hc h
    cases c with
    | nil => exact ⟨rfl, by simpa using h⟩
    | cons y c =>
      simp only [List.nil_append, List.cons_append, List.cons.injEq] at h
      exact absurd (h.1 ▸ List.mem_cons_self _ _) hc
  | cons x a ih =>
    intro c b d ha hc h
    cases c with
    | nil =>
      simp only [List.nil_append, List.cons_append, List.cons.injEq] at h
      exact absurd (h.1 ▸ List.mem_cons_self _ _) ha
    | cons y c =>
      simp only [List.cons_append, List.cons.injEq] at h
      obtain ⟨hac, hbd⟩ := ih c b d (fun hm => ha (List.mem_cons_of_mem _ hm))
        (fun hm => hc (List.mem_cons_of_mem _ hm)) h.2
      exact ⟨by rw [h.1, hac], hbd⟩

/-- C27, amended: two stages of the same source namespace that have the same target
namespace have the same name, and two stages of the same name that have the same target
namespace have the same source namespace; when neither source namespace holds a `-`, the
target namespace determines both the source namespace and the name. -/
theorem generateTargetNamespaceName_injective (s1 s2 : Stage)
    (htarget : generateTargetNamespaceName s1 = generateTargetNamespaceName s2) :
    (s1.meta.Namespace = s2.meta.Namespace → s1.meta.Name = s2.meta.Name)
    ∧ (s1.meta.Name = s2.meta.Name → s1.meta.Namespace = s2.meta.Namespace)
    ∧ ('-' ∉ s1.meta.Namespace.data → '-' ∉ s2.meta.Namespace.data →
        s1.meta.Namespace = s2.meta.Namespace ∧ s1.meta.Name = s2.meta.Name) := by
  have hd : s1.meta.Namespace.data ++ '-' :: s1.meta.Name.data
      = s2.meta.Namespace.data ++ '-' :: s2.meta.Name.data := by
    have := congrArg String.data htarget
    simpa [generateTargetNamespaceName, String.data_append] using this
  refine ⟨?_, ?_, ?_⟩
  · intro hns
    rw [hns] at hd
    have := List.append_cancel_left hd
    simp only [List.cons.injEq, true_and] at this
    exact String.ext this
  · intro hname
    rw [hname] at hd
    exact String.ext (List.append_cancel_right hd)
  · intro h1 h2
    obtain ⟨ha, hb⟩ := append_sep_cancel '-' _ _ _ _ h1 h2 hd
    exact ⟨String.ext ha, String.ext hb⟩

/-- Witness for C27, amended: the stage `pipe-dev` of the namespace `ns`, read at two
moments of its life (two values of `Order`), has the one target namespace `ns-pipe-dev`. -/
theorem generateTargetNamespaceName_injective_witness :
    generateTargetNamespaceName devStage = "ns-pipe-dev"
    ∧ generateTargetNamespaceName { devStage with Spec := { devStage.Spec with Order := 5 } }
        = "ns-pipe-dev"
    ∧ devStage.meta.Namespace = "ns" ∧ devStage.meta.Name = "pipe-dev" :=
  ⟨by decide, by decide,
   (generateTargetNamespaceName_injective devStage
      { devStage with Spec := { devStage.Spec with Order := 5 } } rfl).2.2
      (by decide) (by decide)⟩

/-! ## C28: the binding names of one run -/

/-- Appending a binding of another name leaves the count under a name as it was. -/
theorem roleBindingCount_append_other (s s1 : RbacStore) (ns name other : String)
    (subjects : List Subject) (rf : RoleRef) (hne : other ≠ name)
    (happ : s1.roleBindings = s.roleBindings ++
      [{ meta := { Name := other, Namespace := ns }, Subjects := subjects, RoleRef := rf }]) :
    s1.roleBindingCount { Namespace := ns, Name := name }
      = s.roleBindingCount { Namespace := ns, Name := name } := by
  simp [RbacStore.roleBindingCount, happ, List.countP_append, List.countP_cons,
    ObjectMeta.hasKey, hne]

/-- C28: for every source namespace, the names `ac-deployments-viewer`, `jenkins-admin` and
`{ns}-view` are pairwise distinct, and so are the names of the RoleBindings of one run on
every platform type. Hence on a store whose target namespace holds none of the run's
bindings, the run returns no error and appends one binding per name, each with its own
subjects and role reference: none is skipped because of an earlier one. -/
theorem roleBinding_names_distinct (platformType : String) (stage : Stage) (s : RbacStore) :
    [acViewRbName, jenkinsAdminRbName, generateViewGroupRbName stage.meta.Namespace].Nodup
    ∧ (((rbacSteps platformType stage.meta.Namespace).filter (fun st => !st.isRole)).map
        (fun st => st.name)).Nodup
    ∧ ((∀ st ∈ rbacSteps platformType stage.meta.Namespace, st.isRole = false →
          s.roleBindingCount
            { Namespace := generateTargetNamespaceName stage, Name := st.name } = 0) →
        (runConfigureRbac platformType stage s).1 = none
        ∧ (runConfigureRbac platformType stage s).2.1.roleBindings
          = s.roleBindings ++
            ((rbacSteps platformType stage.meta.Namespace).filter (fun st => !st.isRole)).map
              (fun st =>
                ({ meta := { Name := st.name, Namespace := generateTargetNamespaceName stage },
                   Subjects := st.opts.subjects, RoleRef := st.opts.rf } : RoleBinding))) := by
  obtain ⟨-, hv2, hv3⟩ := viewGroupRbName_ne stage.meta.Namespace
  have h23 : acViewRbName ≠ jenkinsAdminRbName := by decide
  refine ⟨?_, ?_, ?_⟩
  · simp only [List.nodup_cons, List.mem_cons, List.mem_singleton, List.not_mem_nil,
      not_or, List.nodup_nil, and_true, not_false_eq_true]
    exact ⟨⟨h23, fun h => hv2 h.symm⟩, fun h => hv3 h.symm⟩
  · by_cases hp : platformType = clusterOpenshiftType
    · simp only [rbacSteps, hp, beq_self_eq_true, if_true, List.cons_append, List.nil_append,
        List.filter_cons, Bool.not_true, Bool.false_eq_true, if_false, Bool.not_false,
        List.filter_nil, List.map_cons, List.map_nil, List.nodup_cons, List.mem_cons,
        List.mem_singleton, List.not_mem_nil, not_or, List.nodup_nil, and_true,
        not_false_eq_true]
      exact ⟨⟨h23, fun h => hv2 h.symm⟩, fun h => hv3 h.symm⟩
    · have hp' : (platformType == clusterOpenshiftType) = false := by
        simpa using hp
      simp only [rbacSteps, hp', Bool.false_eq_true, if_false, List.append_nil,
        List.filter_cons, Bool.not_true, Bool.not_false, if_true,
        List.filter_nil, List.map_cons, List.map_nil, List.nodup_cons,
        List.mem_singleton, List.not_mem_nil, List.nodup_nil, and_true,
        not_false_eq_true]
      exact h23
  · intro hfree
    obtain ⟨x1, e1, -, -, -, b1⟩ := createRole_step acViewRoleName
      (generateTargetNamespaceName stage) (buildAcViewRoleOptions stage.meta.Namespace) (s, [])
    obtain ⟨x2, e2, -, h2⟩ := createRoleBinding_appends acViewRbName
      (generateTargetNamespaceName stage) (buildAcViewRoleOptions stage.meta.Namespace) x1
    obtain ⟨x3, e3, -, h3⟩ := createRoleBinding_appends jenkinsAdminRbName
      (generateTargetNamespaceName stage)
      (buildJenkinsAdminRoleOptions platformType stage.meta.Namespace) x2
    have hb1 : x1.1.roleBindings = s.roleBindings := b1
    have hc1 : x1.1.roleBindingCount
        { Namespace := generateTargetNamespaceName stage, Name := acViewRbName } = 0 := by
      rw [RbacStore.roleBindingCount, hb1]
      exact hfree { isRole := false, name := acViewRbName,
                    opts := buildAcViewRoleOptions stage.meta.Namespace }
        (by simp [rbacSteps]) rfl
    have h2' := h2 hc1
    have hc2 : x2.1.roleBindingCount
        { Namespace := generateTargetNamespaceName stage, Name := jenkinsAdminRbName } = 0 := by
      rw [roleBindingCount_append_other x1.1 x2.1 _ _ _ _ _ h23 h2']
      rw [RbacStore.roleBindingCount, hb1]
      exact hfree { isRole := false, name := jenkinsAdminRbName,
                    opts := buildJenkinsAdminRoleOptions platformType stage.meta.Namespace }
        (by simp [rbacSteps]) rfl
    have h3' := h3 hc2
    by_cases hp : platformType = clusterOpenshiftType
    · obtain ⟨x4, e4, -, h4⟩ := createRoleBinding_appends
        (generateViewGroupRbName stage.meta.Namespace) (generateTargetNamespaceName stage)
        (buildViewGroupRoleOptions stage.meta.Namespace) x3
      have hc3 : x3.1.roleBindingCount
          { Namespace := generateTargetNamespaceName stage,
            Name := generateViewGroupRbName stage.meta.Namespace } = 0 := by
        rw [roleBindingCount_append_other x2.1 x3.1 _ _ _ _ _ (fun h => hv3 h.symm) h3',
          roleBindingCount_append_other x1.1 x2.1 _ _ _ _ _ (fun h => hv2 h.symm) h2']
        rw [RbacStore.roleBindingCount, hb1]
        exact hfree { isRole := false, name := generateViewGroupRbName stage.meta.Namespace,
                      opts := buildViewGroupRoleOptions stage.meta.Namespace }
          (by simp [rbacSteps, hp]) rfl
      have h4' := h4 hc3
      have hrun : runConfigureRbac platformType stage s = (none, x4) := by
        simp only [runConfigureRbac, ConfigureRbac.ServeRequest, e1, e2, e3, e4]
        simp [hp, nextServeOrNil, tracedConfigureRbac]
      rw [hrun]
      refine ⟨rfl, ?_⟩
      simp only [h4', h3', h2', hb1]
      simp [rbacSteps, hp]
    · have hrun : runConfigureRbac platformType stage s = (none, x3) := by
        simp only [runConfigureRbac, ConfigureRbac.ServeRequest, e1, e2, e3]
        simp [hp, nextServeOrNil, tracedConfigureRbac]
      rw [hrun]
      refine ⟨rfl, ?_⟩
      simp only [h3', h2', hb1]
      simp [rbacSteps, hp]

/-- Witness for C28: on openshift and an empty store, the run for stage `test-stage` of
`test-ns` appends the three bindings, the last one named `test-ns-view`. -/
theorem roleBinding_names_distinct_witness :
    (runConfigureRbac "openshift" rbacTestStage {}).1 = none
    ∧ (runConfigureRbac "openshift" rbacTestStage {}).2.1.roleBindings.map (fun rb => rb.meta.key)
      = [{ Namespace := "test-ns-test-stage", Name := "ac-deployments-viewer" },
         { Namespace := "test-ns-test-stage", Name := "jenkins-admin" },
         { Namespace := "test-ns-test-stage", Name := "test-ns-view" }] := by
  have h := (roleBinding_names_distinct "openshift" rbacTestStage {}).2.2 (by decide)
  exact ⟨h.1, by rw [h.2]; decide⟩

/-! ## C30: the status `CreateCDPipeline` leaves -/

/-- From the status `initialized`, `CreateCDPipeline` returns no error with the status
`created`, or an error with the status `failed`; the metadata and the spec are as they
were. -/
theorem createCDPipeline_from_init {σ J : Type} (w : service.Collaborators σ J)
    (cr : edpv1alpha1.CDPipeline) (s : σ) (hinit : cr.Status.Status = "initialized") :
    (((service.CreateCDPipeline w cr s).1 = none
        ∧ (service.CreateCDPipeline w cr s).2.1.Status.Status = "created")
      ∨ ((service.CreateCDPipeline w cr s).1 ≠ none
        ∧ (service.CreateCDPipeline w cr s).2.1.Status.Status = "failed"))
    ∧ (service.CreateCDPipeline w cr s).2.1.meta = cr.meta
    ∧ (service.CreateCDPipeline w cr s).2.1.Spec = cr.Spec := by
  have hne : (cr.Status.Status != service.StatusInit) = false := by
    simp [hinit, service.StatusInit]
  simp only [service.CreateCDPipeline, hne, Bool.false_eq_true, if_false]
  rcases service.getJenkinsCreds w
      (service.setCdPipelineStatusFields cr service.StatusInProgress (w.Now s).1).meta.Namespace
      (w.Now s).2 with ⟨⟨token, username, _ | err⟩, s1⟩
  · simp only []
    rcases w.Init _ username token s1 with ⟨err | jenkins, s2⟩
    · exact ⟨Or.inr ⟨by simp, rfl⟩, rfl, rfl⟩
    · simp only []
      rcases w.CreateFolder jenkins _ s2 with ⟨_ | err, s3⟩
      · exact ⟨Or.inl ⟨rfl, rfl⟩, rfl, rfl⟩
      · exact ⟨Or.inr ⟨by simp, rfl⟩, rfl, rfl⟩
  · exact ⟨Or.inr ⟨by simp, rfl⟩, rfl, rfl⟩

/-- C30: when the status is not `initialized`, `CreateCDPipeline` returns an error and
leaves the pipeline object (its status fields included) and the world as they were. When
it is `initialized`, on return the status is `created` exactly when no error is returned
and `failed` exactly when an error is returned, and it is never `in progress`; nothing but
the status fields changed. -/
theorem createCDPipeline_status {σ J : Type} (w : service.Collaborators σ J)
    (cr : edpv1alpha1.CDPipeline) (s : σ) :
    (cr.Status.Status ≠ "initialized" →
      service.CreateCDPipeline w cr s
        = (some (.errorf ("CD Pipeline " ++ cr.Spec.Name ++ " is not in init status. Skipped")),
            cr, s))
    ∧ (cr.Status.Status = "initialized" →
        ((service.CreateCDPipeline w cr s).1 = none
          ↔ (service.CreateCDPipeline w cr s).2.1.Status.Status = "created")
        ∧ ((service.CreateCDPipeline w cr s).1 ≠ none
          ↔ (service.CreateCDPipeline w cr s).2.1.Status.Status = "failed")
        ∧ (service.CreateCDPipeline w cr s).2.1.Status.Status ≠ "in progress"
        ∧ (service.CreateCDPipeline w cr s).2.1.meta = cr.meta
        ∧ (service.CreateCDPipeline w cr s).2.1.Spec = cr.Spec) := by
  refine ⟨?_, ?_⟩
  · intro hne
    have hb : (cr.Status.Status != service.StatusInit) = true := by
      simpa [service.StatusInit] using hne
    simp [service.CreateCDPipeline, hb]
  · intro hinit
    obtain ⟨hcases, hmeta, hspec⟩ := createCDPipeline_from_init w cr s hinit
    refine ⟨?_, ?_, ?_, hmeta, hspec⟩
    · rcases hcases with ⟨h1, h2⟩ | ⟨h1, h2⟩
      · exact ⟨fun _ => h2, fun _ => h1⟩
      · refine ⟨fun h => absurd h h1, fun h => ?_⟩
        rw [h2] at h
        exact absurd h (by decide)
    · rcases hcases with ⟨h1, h2⟩ | ⟨h1, h2⟩
      · refine ⟨fun h => absurd h1 h, fun h => ?_⟩
        rw [h2] at h
        exact absurd h (by decide)
      · exact ⟨fun _ => h2, fun _ => h1⟩
    · rcases hcases with ⟨-, h2⟩ | ⟨-, h2⟩ <;>
      · rw [h2]
        decide

/-- Witness for C30: a pipeline in the status `created` is refused and left as it was; an
initialized pipeline is created on the second tick of the clock; without the secret it
fails. -/
theorem createCDPipeline_status_witness :
    service.CreateCDPipeline (service.clockCollaborators ["ns"] "none")
        { service.initPipeline with Status := { Status := "created", LastTimeUpdated := 3 } } 10
      = (some (.errorf "CD Pipeline pipe is not in init status. Skipped"),
          { service.initPipeline with Status := { Status := "created", LastTimeUpdated := 3 } },
          10)
    ∧ service.CreateCDPipeline (service.clockCollaborators ["ns"] "none") service.initPipeline 10
      = (none,
          { service.initPipeline with Status := { Status := "created", LastTimeUpdated := 11 } },
          12)
    ∧ service.CreateCDPipeline (service.clockCollaborators [] "none") service.initPipeline 10
      = (some (.errorf "secrets jenkins-token not found"),
          { service.initPipeline with Status := { Status := "failed", LastTimeUpdated := 11 } },
          12)
    ∧ (service.CreateCDPipeline (service.clockCollaborators ["ns"] "pipe-cd-pipeline")
        service.initPipeline 10).2.1.Status.Status = "failed" := by
  have h1 := (createCDPipeline_status (service.clockCollaborators ["ns"] "none")
    { service.initPipeline with Status := { Status := "created", LastTimeUpdated := 3 } }
    10).1 (by decide)
  have h2 := ((createCDPipeline_status (service.clockCollaborators ["ns"] "pipe-cd-pipeline")
    service.initPipeline 10).2 rfl).2.1.1 (by decide)
  exact ⟨h1.trans (by decide), by decide, by decide, h2⟩

/-! ## C9: an input stream that is named like the derived stream -/

/-- On the store, writing back the cleaned stream that `Get` answered under a key succeeds;
afterwards `Get` answers the cleaned stream under that key and what it answered before
under every other key. -/
theorem update_cleaned_store (store : StageStore) (k0 : NamespacedName) (env : String)
    (target : CodebaseImageStream)
    (hfind : store.streams.find? (fun x => x.meta.hasKey k0) = some target) :
    ∃ streams1 : List CodebaseImageStream,
      storeStageClient.UpdateCodebaseImageStream
          { target with meta := deleteLabel ( setAnnotation target.meta env) env } store
        = (none, { store with streams := streams1 })
      ∧ streams1.find? (fun x => x.meta.hasKey k0)
        = some { target with meta := deleteLabel ( setAnnotation target.meta env) env }
      ∧ (∀ k, k ≠ k0 → streams1.find? (fun x => x.meta.hasKey k)
          = store.streams.find? (fun x => x.meta.hasKey k)) := by
  have hk : target.meta.hasKey k0 = true := by
    simpa using List.find?_some hfind
  have hmem : target ∈ store.streams := List.mem_of_find?_eq_some hfind
  have hkey : (deleteLabel ( setAnnotation target.meta env) env).key = k0 := by
    rw [deleteLabel_key, setAnnotation_key]
    have := hk
    rw [hasKey_eq_decide, decide_eq_true_iff] at this
    exact this.symm
  have hany : store.streams.any (fun x => x.meta.hasKey k0) = true :=
    List.any_eq_true.2 ⟨target, hmem, hk⟩
  have hnewk : (deleteLabel ( setAnnotation target.meta env) env).hasKey k0 = true := by
    rw [hasKey_eq_decide, hkey]
    simp
  refine ⟨store.streams.map (fun x => if x.meta.hasKey k0
    then { target with meta := deleteLabel ( setAnnotation target.meta env) env } else x),
    ?_, ?_, ?_⟩
  · simp only [storeStageClient, hkey, hany, if_true]
  · exact find?_map_replace_same (fun x : CodebaseImageStream => x.meta.hasKey k0) _ _
      hnewk hany
  · intro k hne
    exact find?_map_replace (fun x : CodebaseImageStream => x.meta.hasKey k)
      (fun x : CodebaseImageStream => x.meta.hasKey k0) _ _
      (hasKey_false_of_ne _ _ _ hne hnewk) (fun x hx => hasKey_false_of_ne _ _ _ hne hx)

theorem option_map_eq_some {α β : Type} (f : α → β) (o1 o2 : Option α) (x : α)
    (h : o1.map f = o2.map f) (h2 : o2 = some x) : ∃ y, o1 = some y ∧ f y = f x := by
  subst h2
  cases o1 with
  | none => simp at h
  | some y => exact ⟨y, rfl, by simpa using h⟩

/-- On the store, the cleanup loop of a stage that is not first, whose previous stage is
found, over input names that are all present together with the streams the previous stage
derived for them, succeeds. Afterwards `Get` answers under every key a stream with the spec
it had, under a key that is not such a derived name the very stream it answered, never a
label that was not there, and under each derived name a stream without the label. -/
theorem deleteEnvironmentLabelLoop_store_later (stage : Stage) (pipe : CDPipeline)
    (previousStage : Stage) (hfirst : stage.IsFirst = false) (env : String)
    (henv : pipe.Spec.Name ++ "/" ++ stage.Spec.Name = env) :
    ∀ (names : List String) (store : StageStore),
      previousStageOf stage.Spec.Order pipe.Spec.Name stage.meta.Namespace store.stages
        = some previousStage →
      (∀ name ∈ names, ∃ raw,
        store.streams.find? (fun x => x.meta.hasKey
          { Namespace := stage.meta.Namespace, Name := name }) = some raw
        ∧ ∃ d, store.streams.find? (fun x => x.meta.hasKey
            { Namespace := stage.meta.Namespace,
              Name := pipe.meta.Name ++ "-" ++ previousStage.Spec.Name ++ "-"
                ++ raw.Spec.Codebase ++ "-verified" }) = some d) →
      ∃ streams1 : List CodebaseImageStream,
        deleteEnvironmentLabelLoop storeStageClient stage pipe names store
          = .done none { store with streams := streams1 }
        ∧ (∀ k, (streams1.find? (fun x => x.meta.hasKey k)).map (fun x => x.Spec)
            = (store.streams.find? (fun x => x.meta.hasKey k)).map (fun x => x.Spec))
        ∧ (∀ k, (∀ name ∈ names, ∀ raw,
              store.streams.find? (fun x => x.meta.hasKey
                { Namespace := stage.meta.Namespace, Name := name }) = some raw →
              k ≠ { Namespace := stage.meta.Namespace,
                    Name := pipe.meta.Name ++ "-" ++ previousStage.Spec.Name ++ "-"
                      ++ raw.Spec.Codebase ++ "-verified" }) →
            streams1.find? (fun x => x.meta.hasKey k)
              = store.streams.find? (fun x => x.meta.hasKey k))
        ∧ (∀ k x y, store.streams.find? (fun x => x.meta.hasKey k) = some x →
            (∀ v, x.meta.hasLabel env v = false) →
            streams1.find? (fun x => x.meta.hasKey k) = some y →
            ∀ v, y.meta.hasLabel env v = false)
        ∧ (∀ name ∈ names, ∀ raw,
            store.streams.find? (fun x => x.meta.hasKey
              { Namespace := stage.meta.Namespace, Name := name }) = some raw →
            ∃ d, streams1.find? (fun x => x.meta.hasKey
                { Namespace := stage.meta.Namespace,
                  Name := pipe.meta.Name ++ "-" ++ previousStage.Spec.Name ++ "-"
                    ++ raw.Spec.Codebase ++ "-verified" }) = some d
              ∧ ∀ v, d.meta.hasLabel env v = false) := by
  intro names
  induction names with
  | nil =>
    intro store _ _
    refine ⟨store.streams, by simp [deleteEnvironmentLabelLoop], fun _ => rfl, fun _ _ => rfl,
      ?_, ?_⟩
    · intro k x y hx hlabel hy
      rw [hx] at hy
      cases hy
      exact hlabel
    · intro name hname
      cases hname
  | cons name0 rest ih =>
    intro store hprev hpresent
    obtain ⟨raw0, hraw0, d0, hd0⟩ := hpresent name0 (List.mem_cons_self _ _)
    obtain ⟨streamsA, hupd, hsame, hother⟩ := update_cleaned_store store _ env d0 hd0
    -- what `Get` answers after the round, spec by spec
    have hspecA : ∀ k, (streamsA.find? (fun x => x.meta.hasKey k)).map (fun x => x.Spec)
        = (store.streams.find? (fun x => x.meta.hasKey k)).map (fun x => x.Spec) := by
      intro k
      by_cases hk : k =
          { Namespace := stage.meta.Namespace,
            Name := pipe.meta.Name ++ "-" ++ previousStage.Spec.Name ++ "-"
              ++ raw0.Spec.Codebase ++ "-verified" }
      · rw [hk, hsame, hd0]
        rfl
      · rw [hother k hk]
    have hlabelA : ∀ k x y, store.streams.find? (fun x => x.meta.hasKey k) = some x →
        (∀ v, x.meta.hasLabel env v = false) →
        streamsA.find? (fun x => x.meta.hasKey k) = some y →
        ∀ v, y.meta.hasLabel env v = false := by
      intro k x y hx hlabel hy
      by_cases hk : k =
          { Namespace := stage.meta.Namespace,
            Name := pipe.meta.Name ++ "-" ++ previousStage.Spec.Name ++ "-"
              ++ raw0.Spec.Codebase ++ "-verified" }
      · rw [hk, hsame] at hy
        cases hy
        exact fun v => hasLabel_deleteLabel _ _ v
      · rw [hother k hk, hx] at hy
        cases hy
        exact hlabel
    have hstep : deleteEnvironmentLabelLoop storeStageClient stage pipe (name0 :: rest) store
        = deleteEnvironmentLabelLoop storeStageClient stage pipe rest
            { store with streams := streamsA } := by
      have hget : storeStageClient.GetCodebaseImageStream name0 stage.meta.Namespace store
          = ((some raw0, none), store) := by
        simp only [storeStageClient, hraw0]
      have hfindp : storeStageClient.FindPreviousStage stage.Spec.Order pipe.Spec.Name
          stage.meta.Namespace store = ((some previousStage, none), store) := by
        simp only [storeStageClient, hprev]
      have hgetd : storeStageClient.GetCodebaseImageStream
          (pipe.meta.Name ++ "-" ++ previousStage.Spec.Name ++ "-" ++ raw0.Spec.Codebase
            ++ "-verified") stage.meta.Namespace store = ((some d0, none), store) := by
        simp only [storeStageClient, hd0]
      rw [deleteEnvironmentLabelLoop, hget]
      simp only [hfirst, Bool.not_false, if_true, hfindp, hgetd, henv, hupd]
    have hpresentA : ∀ name ∈ rest, ∃ raw,
        ({ store with streams := streamsA } : StageStore).streams.find?
          (fun x => x.meta.hasKey { Namespace := stage.meta.Namespace, Name := name })
          = some raw
        ∧ ∃ d, ({ store with streams := streamsA } : StageStore).streams.find?
            (fun x => x.meta.hasKey
              { Namespace := stage.meta.Namespace,
                Name := pipe.meta.Name ++ "-" ++ previousStage.Spec.Name ++ "-"
                  ++ raw.Spec.Codebase ++ "-verified" }) = some d := by
      intro name hname
      obtain ⟨raw, hraw, d, hd⟩ := hpresent name (List.mem_cons_of_mem _ hname)
      obtain ⟨rawA, hrawA, hspec⟩ := option_map_eq_some (fun x : CodebaseImageStream => x.Spec)
        _ _ raw (hspecA _) hraw
      obtain ⟨dA, hdA, -⟩ := option_map_eq_some (fun x : CodebaseImageStream => x.Spec)
        _ _ d (hspecA _) hd
      exact ⟨rawA, hrawA, dA, by rw [hspec]; exact hdA⟩
    obtain ⟨streams1, hrun, hspec1, hother1, hlabel1, hderived1⟩ :=
      ih { store with streams := streamsA } hprev hpresentA
    refine ⟨streams1, ?_, ?_, ?_, ?_, ?_⟩
    · rw [hstep, hrun]
    · intro k
      rw [hspec1 k]
      exact hspecA k
    · intro k hk
      have hk0 : k ≠
          { Namespace := stage.meta.Namespace,
            Name := pipe.meta.Name ++ "-" ++ previousStage.Spec.Name ++ "-"
              ++ raw0.Spec.Codebase ++ "-verified" } :=
        hk name0 (List.mem_cons_self _ _) raw0 hraw0
      rw [hother1 k ?_]
      · exact hother k hk0
      · intro name hname rawA hrawA
        obtain ⟨raw, hraw, -⟩ := hpresent name (List.mem_cons_of_mem _ hname)
        obtain ⟨rawB, hrawB, hspec⟩ := option_map_eq_some
          (fun x : CodebaseImageStream => x.Spec) _ _ raw (hspecA _) hraw
        have hAB : rawA = rawB := by
          have := hrawA.symm.trans hrawB
          exact Option.some.inj this
        rw [hAB, hspec]
        exact hk name (List.mem_cons_of_mem _ hname) raw hraw
    · intro k x y hx hlabel hy
      obtain ⟨xA, hxA, -⟩ := option_map_eq_some (fun x : CodebaseImageStream => x.Spec)
        _ _ x (hspecA k) hx
      exact hlabel1 k xA y hxA (hlabelA k x xA hx hlabel hxA) hy
    · intro name hname raw hraw
      rcases List.mem_cons.1 hname with h | h
      · subst h
        have hr : raw = raw0 := Option.some.inj (hraw.symm.trans hraw0)
        subst hr
        obtain ⟨y, hy, -⟩ := option_map_eq_some (fun x : CodebaseImageStream => x.Spec)
          _ _ _ (hspec1 _) hsame
        exact ⟨y, hy, hlabel1 _ _ y hsame (fun v => hasLabel_deleteLabel _ _ v) hy⟩
      · obtain ⟨rawA, hrawA, hspec⟩ := option_map_eq_some
          (fun x : CodebaseImageStream => x.Spec) _ _ raw (hspecA _) hraw
        obtain ⟨d, hd, hlabel⟩ := hderived1 name h rawA hrawA
        rw [hspec] at hd
        exact ⟨d, hd, hlabel⟩

/-- When no listed stage blocks the deletion and the cleanup chain returns an error on the
store, `tryToDeleteCDStage` returns that error wrapped and updates no stage: the stages,
with their finalizers, are as they were. -/
theorem tryToDeleteCDStage_store_cleanup_fails (wait : Nat) (finalizer : String)
    (stage : Stage) (store cleaned : StageStore) (ts : Nat) (err : Err)
    (hdel : stage.meta.DeletionTimestamp = some ts)
    (hnoblock : ∀ x ∈ store.stages, x.meta.Namespace = stage.meta.Namespace →
      x.meta.hasLabel StageCdPipelineLabelName stage.Spec.CdPipeline = true →
      x.meta.Name ≠ stage.meta.Name → x.Spec.Order < stage.Spec.Order)
    (hclean : deleteEnvironmentLabel storeStageClient stage store = .done (some err) cleaned) :
    tryToDeleteCDStage (storeReconcileStage wait finalizer) stage store
        = .done (some {}, some (Wrapf err "failed to delete Stage")) cleaned
      ∧ cleaned.stages = store.stages := by
  have hany : (store.stages.filter (fun x => x.meta.Namespace == stage.meta.Namespace
      && x.meta.hasLabel StageCdPipelineLabelName stage.Spec.CdPipeline)).any
        (blocksDeletion stage) = false := by
    rw [Bool.eq_false_iff]
    intro h
    obtain ⟨x, hx, hb⟩ := List.any_eq_true.1 h
    obtain ⟨hmem, hf⟩ := List.mem_filter.1 hx
    simp only [Bool.and_eq_true, beq_iff_eq] at hf
    simp only [blocksDeletion, Bool.and_eq_true, bne_iff_ne, ne_eq, decide_eq_true_eq] at hb
    have := hnoblock x hmem hf.1 hf.2 hb.1
    omega
  have hstages : cleaned.stages = store.stages := by
    have := deleteEnvironmentLabel_store_stages stage store
    rw [hclean] at this
    exact this
  refine ⟨?_, hstages⟩
  simp only [tryToDeleteCDStage, storeReconcileStage, hdel, Option.isNone_some,
    Bool.false_eq_true, if_false]
  simp only [storeStageClient, hany, Bool.false_eq_true, if_false]
  simp only [storeStageClient] at hclean
  rw [hclean]

/-- C14, amended: a stage marked for deletion that is in the store, with no other stage of
its namespace and pipeline label whose `Order` is greater than or equal to its own. When
the label cleanup succeeds, `tryToDeleteCDStage` returns no error, the streams are those
the cleanup left, and the stage in the store no longer holds the deletion finalizer. When
the label cleanup returns an error, `tryToDeleteCDStage` returns that error wrapped and the
stages, with their finalizers, are as they were. For a stage with `Order = 0` whose
pipeline is in the store with a non-empty input list whose streams are all in the stage's
namespace, the cleanup does succeed, and afterwards each input stream is still there and
carries no label `{pipeline}/{stage}`. For a stage with `Order != 0` whose pipeline is in
the store with a non-empty input list, whose previous stage is found and whose input
streams and the streams the previous stage derived for them are in the stage's namespace,
the cleanup does succeed too; afterwards `Get` answers under each derived name
`{pipe.Name}-{previousStage.Spec.Name}-{codebase}-verified` a stream without the label, and
under every key that is not such a derived name (an input stream of another name
included) the stream it answered before. -/
theorem tryToDeleteCDStage_proceeds (wait : Nat) (finalizer : String) (stage : Stage)
    (store : StageStore) (ts : Nat)
    (hdel : stage.meta.DeletionTimestamp = some ts)
    (hnoblock : ∀ x ∈ store.stages, x.meta.Namespace = stage.meta.Namespace →
      x.meta.hasLabel StageCdPipelineLabelName stage.Spec.CdPipeline = true →
      x.meta.Name ≠ stage.meta.Name → x.Spec.Order < stage.Spec.Order)
    (hstage : ∃ x ∈ store.stages, x.meta.hasKey stage.meta.key = true) :
    (∀ cleaned : StageStore,
      deleteEnvironmentLabel storeStageClient stage store = .done none cleaned →
      ∃ after : StageStore,
        tryToDeleteCDStage (storeReconcileStage wait finalizer) stage store
          = .done (some {}, none) after
        ∧ after.streams = cleaned.streams
        ∧ (∃ x ∈ after.stages, x.meta.hasKey stage.meta.key = true)
        ∧ (∀ x ∈ after.stages, x.meta.hasKey stage.meta.key = true →
            finalizer ∉ x.meta.Finalizers))
    ∧ (∀ (cleaned : StageStore) (err : Err),
      deleteEnvironmentLabel storeStageClient stage store = .done (some err) cleaned →
      tryToDeleteCDStage (storeReconcileStage wait finalizer) stage store
          = .done (some {}, some (Wrapf err "failed to delete Stage")) cleaned
        ∧ cleaned.stages = store.stages)
    ∧ (∀ pipe : CDPipeline,
      stage.Spec.Order = 0 →
      store.pipelines.find? (fun p => p.meta.hasKey
        { Namespace := stage.meta.Namespace, Name := cdPipelineNameOf stage }) = some pipe →
      pipe.Spec.InputDockerStreams ≠ [] →
      (∀ name ∈ pipe.Spec.InputDockerStreams, ∃ x ∈ store.streams,
        x.meta.hasKey { Namespace := stage.meta.Namespace, Name := name } = true) →
      ∃ after : StageStore,
        tryToDeleteCDStage (storeReconcileStage wait finalizer) stage store
          = .done (some {}, none) after
        ∧ (∀ name ∈ pipe.Spec.InputDockerStreams,
            (∃ x ∈ after.streams,
              x.meta.hasKey { Namespace := stage.meta.Namespace, Name := name } = true)
            ∧ ∀ x ∈ after.streams,
              x.meta.hasKey { Namespace := stage.meta.Namespace, Name := name } = true →
              ∀ v, x.meta.hasLabel (pipe.Spec.Name ++ "/" ++ stage.Spec.Name) v = false)
        ∧ (∃ x ∈ after.stages, x.meta.hasKey stage.meta.key = true)
        ∧ (∀ x ∈ after.stages, x.meta.hasKey stage.meta.key = true →
            finalizer ∉ x.meta.Finalizers))
    ∧ (∀ (pipe : CDPipeline) (previousStage : Stage),
      stage.Spec.Order ≠ 0 →
      store.pipelines.find? (fun p => p.meta.hasKey
        { Namespace := stage.meta.Namespace, Name := cdPipelineNameOf stage }) = some pipe →
      pipe.Spec.InputDockerStreams ≠ [] →
      previousStageOf stage.Spec.Order pipe.Spec.Name stage.meta.Namespace store.stages
        = some previousStage →
      (∀ name ∈ pipe.Spec.InputDockerStreams, ∃ raw,
        store.streams.find? (fun x => x.meta.hasKey
          { Namespace := stage.meta.Namespace, Name := name }) = some raw
        ∧ ∃ d, store.streams.find? (fun x => x.meta.hasKey
            { Namespace := stage.meta.Namespace,
              Name := pipe.meta.Name ++ "-" ++ previousStage.Spec.Name ++ "-"
                ++ raw.Spec.Codebase ++ "-verified" }) = some d) →
      ∃ after : StageStore,
        tryToDeleteCDStage (storeReconcileStage wait finalizer) stage store
          = .done (some {}, none) after
        ∧ (∀ name ∈ pipe.Spec.InputDockerStreams, ∀ raw,
            store.streams.find? (fun x => x.meta.hasKey
              { Namespace := stage.meta.Namespace, Name := name }) = some raw →
            ∃ d, after.streams.find? (fun x => x.meta.hasKey
                { Namespace := stage.meta.Namespace,
                  Name := pipe.meta.Name ++ "-" ++ previousStage.Spec.Name ++ "-"
                    ++ raw.Spec.Codebase ++ "-verified" }) = some d
              ∧ ∀ v, d.meta.hasLabel (pipe.Spec.Name ++ "/" ++ stage.Spec.Name) v = false)
        ∧ (∀ k, (∀ name ∈ pipe.Spec.InputDockerStreams, ∀ raw,
              store.streams.find? (fun x => x.meta.hasKey
                { Namespace := stage.meta.Namespace, Name := name }) = some raw →
              k ≠ { Namespace := stage.meta.Namespace,
                    Name := pipe.meta.Name ++ "-" ++ previousStage.Spec.Name ++ "-"
                      ++ raw.Spec.Codebase ++ "-verified" }) →
            after.streams.find? (fun x => x.meta.hasKey k)
              = store.streams.find? (fun x => x.meta.hasKey k))
        ∧ (∃ x ∈ after.stages, x.meta.hasKey stage.meta.key = true)
        ∧ (∀ x ∈ after.stages, x.meta.hasKey stage.meta.key = true →
            finalizer ∉ x.meta.Finalizers)) := by
  refine ⟨fun cleaned hclean =>
    tryToDeleteCDStage_store_clears wait finalizer stage store cleaned ts hdel hnoblock hstage
      hclean,
    fun cleaned err hclean =>
      tryToDeleteCDStage_store_cleanup_fails wait finalizer stage store cleaned ts err hdel
        hnoblock hclean, ?_, ?_⟩
  · intro pipe horder hpipe hinputs hstreams
    have hfirst : stage.IsFirst = true := by
      simp [Stage.IsFirst, horder]
    obtain ⟨f, hfkey, -, hfnames, hloop⟩ :=
      deleteEnvironmentLabelLoop_store_first stage pipe hfirst _ rfl
        pipe.Spec.InputDockerStreams store hstreams
    have hlen : (pipe.Spec.InputDockerStreams.length == 0) = false := by
      cases hl : pipe.Spec.InputDockerStreams with
      | nil => exact absurd hl hinputs
      | cons a t => rfl
    have hclean : deleteEnvironmentLabel storeStageClient stage store
        = .done none { store with streams := store.streams.map f } := by
      rw [← hloop]
      simp only [deleteEnvironmentLabel, storeStageClient, hpipe, hlen, Bool.false_eq_true,
        if_false]
    obtain ⟨after, hrun, hs, hex, hfin⟩ :=
      tryToDeleteCDStage_store_clears wait finalizer stage store _ ts hdel hnoblock hstage
        hclean
    refine ⟨after, hrun, ?_, hex, hfin⟩
    intro name hname
    rw [hs]
    constructor
    · obtain ⟨a, ha, hk⟩ := hstreams name hname
      refine ⟨f a, List.mem_map.2 ⟨a, ha, rfl⟩, ?_⟩
      rw [hasKey_eq_decide] at hk ⊢
      rw [hfkey a]
      exact hk
    · intro x hx hk
      obtain ⟨a, _, hax⟩ := List.mem_map.1 hx
      subst hax
      refine hfnames name hname a ?_
      rw [hasKey_eq_decide] at hk ⊢
      rw [← hfkey a]
      exact hk
  · intro pipe previousStage horder hpipe hinputs hprev hstreams
    have hfirst : stage.IsFirst = false := by
      simp [Stage.IsFirst, horder]
    obtain ⟨streams1, hloop, -, hother, -, hderived⟩ :=
      deleteEnvironmentLabelLoop_store_later stage pipe previousStage hfirst _ rfl
        pipe.Spec.InputDockerStreams store hprev hstreams
    have hlen : (pipe.Spec.InputDockerStreams.length == 0) = false := by
      cases hl : pipe.Spec.InputDockerStreams with
      | nil => exact absurd hl hinputs
      | cons a t => rfl
    have hclean : deleteEnvironmentLabel storeStageClient stage store
        = .done none { store with streams := streams1 } := by
      rw [← hloop]
      simp only [deleteEnvironmentLabel, storeStageClient, hpipe, hlen, Bool.false_eq_true,
        if_false]
    obtain ⟨after, hrun, hs, hex, hfin⟩ :=
      tryToDeleteCDStage_store_clears wait finalizer stage store _ ts hdel hnoblock hstage
        hclean
    refine ⟨after, hrun, ?_, ?_, hex, hfin⟩
    · rw [hs]
      exact hderived
    · rw [hs]
      exact hother

/-- Witness for C14, amended: `TestTryToDeleteCDStage_Success`, where the stage of Order 0
is marked for deletion and is the only stage: afterwards the input stream
`docker-image-name` has no labels and the stage has no finalizer. And the deletion of stage
`qa` (Order 1): afterwards `pipe-dev-app-verified` is without the label `pipe/qa`, and the
input stream `app-main` is the object it was. -/
theorem tryToDeleteCDStage_proceeds_witness :
    (∃ after : StageStore,
      tryToDeleteCDStage (storeReconcileStage 5 "envLabelDeletion") successStage successStore
        = .done (some {}, none) after
      ∧ (∀ name ∈ successPipeline.Spec.InputDockerStreams,
          (∃ x ∈ after.streams,
            x.meta.hasKey { Namespace := "stub-namespace", Name := name } = true)
          ∧ ∀ x ∈ after.streams,
            x.meta.hasKey { Namespace := "stub-namespace", Name := name } = true →
            ∀ v, x.meta.hasLabel "stub-name/stub-name" v = false)
      ∧ (∃ x ∈ after.stages, x.meta.hasKey successStage.meta.key = true)
      ∧ (∀ x ∈ after.stages, x.meta.hasKey successStage.meta.key = true →
          "envLabelDeletion" ∉ x.meta.Finalizers))
    ∧ tryToDeleteCDStage (storeReconcileStage 5 "envLabelDeletion") successStage successStore
        = .done (some {}, none)
            { successStore with streams := [successImageCleaned],
                                stages := [successStageReleased] }
    ∧ (∃ after : StageStore,
      tryToDeleteCDStage (storeReconcileStage 5 "envLabelDeletion") qaStageDeleting
          qaDeletingStore = .done (some {}, none) after
      ∧ (∃ d, after.streams.find? (fun x => x.meta.hasKey
            { Namespace := "ns", Name := "pipe-dev-app-verified" }) = some d
          ∧ ∀ v, d.meta.hasLabel "pipe/qa" v = false)
      ∧ after.streams.find? (fun x => x.meta.hasKey { Namespace := "ns", Name := "app-main" })
        = some rawStreamBoth
      ∧ (∀ x ∈ after.stages, x.meta.hasKey qaStageDeleting.meta.key = true →
          "envLabelDeletion" ∉ x.meta.Finalizers))
    ∧ tryToDeleteCDStage (storeReconcileStage 5 "envLabelDeletion") successStage
        { successStore with streams := [] }
      = .done (some {}, some (Wrapf (Wrapf (.notFound "docker-image-name")
          "couldn't get docker-image-name codebase image stream") "failed to delete Stage"))
          { successStore with streams := [] } := by
  have hqa := (tryToDeleteCDStage_proceeds 5 "envLabelDeletion" qaStageDeleting
    qaDeletingStore 1 rfl (by decide) ⟨qaStageDeleting, by decide⟩).2.2.2 pipePipeline
    devStageLabelled (by decide) rfl (by decide) (by decide)
    (by
      intro name hname
      rw [List.mem_singleton.1 hname]
      exact ⟨rawStreamBoth, rfl, devVerifiedStream, rfl⟩)
  obtain ⟨after, hrun, hderived, hother, -, hfin⟩ := hqa
  refine ⟨(tryToDeleteCDStage_proceeds 5 "envLabelDeletion" successStage successStore 1 rfl
      (by decide) ⟨successStage, by decide⟩).2.2.1 successPipeline rfl rfl (by decide)
      (by decide), by decide, ⟨after, hrun, ?_, ?_, hfin⟩, ?_⟩
  · exact hderived "app-main" (List.mem_singleton.2 rfl) rawStreamBoth rfl
  · refine (hother { Namespace := "ns", Name := "app-main" } ?_).trans rfl
    intro name hname raw hraw
    rw [List.mem_singleton.1 hname] at hraw
    have hr : raw = rawStreamBoth := (Option.some.inj hraw).symm
    rw [hr]
    decide
  · exact ((tryToDeleteCDStage_proceeds 5 "envLabelDeletion" successStage
      { successStore with streams := [] } 1 rfl (by decide)
      ⟨successStage, by decide⟩).2.1 _ _ (by decide)).1

/-! ## C17: the view-group binding, read and created -/

/-- Over any client, when the read of a binding answers NotFound, `createRoleBinding` logs
the read and then the `Create` of the binding built from the name, the namespace and the
options. -/
theorem createRoleBinding_traced_absent {σ : Type} (c : RbacClient σ)
    (next : Option (CdStageHandler (σ × List RbacCall))) (name ns : String) (opts : options)
    (x : σ × List RbacCall) (e : Err) (s1 : σ)
    (hget : c.GetRoleBinding { Namespace := ns, Name := name } x.1 = (.error e, s1))
    (hnf : IsNotFound e = true) :
    ((tracedConfigureRbac c next).createRoleBinding name ns opts x).2.2
      = x.2 ++ [.getRoleBinding { Namespace := ns, Name := name },
          .createRoleBinding { meta := { Name := name, Namespace := ns },
                               Subjects := opts.subjects, RoleRef := opts.rf }] := by
  obtain ⟨s, log⟩ := x
  simp only [ConfigureRbac.createRoleBinding, ConfigureRbac.roleBindingExists,
    tracedConfigureRbac, InitRbacManager, KubernetesRbac.GetRoleBinding,
    KubernetesRbac.CreateRoleBinding, RbacClient.traced]
  simp only [] at hget
  rw [hget]
  simp only [hnf, if_true]
  rcases hc : c.CreateRoleBinding
      { meta := { Name := name, Namespace := ns }, Subjects := opts.subjects,
        RoleRef := opts.rf } s1 with ⟨_ | e2, s2⟩ <;> simp [hc]

/-- Over any client, when the read of a binding answers a binding, `createRoleBinding` logs
the read alone. -/
theorem createRoleBinding_traced_present {σ : Type} (c : RbacClient σ)
    (next : Option (CdStageHandler (σ × List RbacCall))) (name ns : String) (opts : options)
    (x : σ × List RbacCall) (rb : RoleBinding) (s1 : σ)
    (hget : c.GetRoleBinding { Namespace := ns, Name := name } x.1 = (.ok rb, s1)) :
    ((tracedConfigureRbac c next).createRoleBinding name ns opts x).2.2
      = x.2 ++ [.getRoleBinding { Namespace := ns, Name := name }] := by
  obtain ⟨s, log⟩ := x
  simp only [ConfigureRbac.createRoleBinding, ConfigureRbac.roleBindingExists,
    tracedConfigureRbac, InitRbacManager, KubernetesRbac.GetRoleBinding,
    KubernetesRbac.CreateRoleBinding, RbacClient.traced]
  simp only [] at hget
  rw [hget]

/-- The count of the bindings under a name is the same after `createRoleBinding` for
another name. -/
theorem createRoleBinding_count_other (name other ns : String) (opts : options)
    (x x1 : RbacStore × List RbacCall) (hne : other ≠ name)
    (happ : x1.1.roleBindings = x.1.roleBindings
      ∨ x1.1.roleBindings = x.1.roleBindings ++
          [{ meta := { Name := other, Namespace := ns }, Subjects := opts.subjects,
             RoleRef := opts.rf }]) :
    x1.1.roleBindingCount { Namespace := ns, Name := name }
      = x.1.roleBindingCount { Namespace := ns, Name := name } := by
  rcases happ with h | h
  · simp only [RbacStore.roleBindingCount, h]
  · exact roleBindingCount_append_other x.1 x1.1 ns name other _ _ hne h

/-- C17: the view-group binding is named `{ns}-view`, has the single subject Group
`{ns}-edp-view` and references ClusterRole `view`. On a platform type other than openshift
no call of `ConfigureRbac.ServeRequest` addresses that name. On openshift, once the three
earlier objects are ensured, `ServeRequest` goes on with `createRoleBinding` for that name
and these options in the target namespace, which reads the binding, and its result decides
between the error and the next handler; when the read answers NotFound, the next call is
the `Create` of the binding `{ns}-view` of the target namespace with that subject and that
role reference, and when the read answers a binding, nothing is created. On the object
store an openshift run returns no error and leaves a binding under that name; when the
store held none, the run has created it and the store holds the binding with that subject
and that role reference. -/
theorem viewGroup_binding_platform {σ : Type} (c : RbacClient σ) (platformType : String)
    (stage : Stage) :
    (generateViewGroupRbName stage.meta.Namespace = stage.meta.Namespace ++ "-view"
      ∧ buildViewGroupRoleOptions stage.meta.Namespace
        = { subjects := [{ Kind := "Group", Name := stage.meta.Namespace ++ "-edp-view" }],
            rf := { Name := "view", APIGroup := "rbac.authorization.k8s.io",
                    Kind := "ClusterRole" } })
    ∧ (platformType ≠ "openshift" → ∀ (s : σ),
        ∀ call ∈ (ConfigureRbac.ServeRequest platformType (tracedConfigureRbac c none) stage
            (s, [])).2.2,
          call.key.Name ≠ stage.meta.Namespace ++ "-view")
    ∧ (platformType = "openshift" →
        ∀ (next : Option (CdStageHandler (σ × List RbacCall))) (x x3 : σ × List RbacCall),
        (tracedConfigureRbac c next).ensureInOrder (generateTargetNamespaceName stage)
            ((rbacSteps platformType stage.meta.Namespace).take 3) x = (none, x3) →
        ConfigureRbac.ServeRequest platformType (tracedConfigureRbac c next) stage x
          = (match (tracedConfigureRbac c next).createRoleBinding
                (stage.meta.Namespace ++ "-view") (generateTargetNamespaceName stage)
                (buildViewGroupRoleOptions stage.meta.Namespace) x3 with
              | (some err, x4) => (some err, x4)
              | (none, x4) => nextServeOrNil next stage x4)
        ∧ RbacCall.getRoleBinding
            { Namespace := generateTargetNamespaceName stage,
              Name := stage.meta.Namespace ++ "-view" }
          ∈ ((tracedConfigureRbac c next).createRoleBinding
                (stage.meta.Namespace ++ "-view") (generateTargetNamespaceName stage)
                (buildViewGroupRoleOptions stage.meta.Namespace) x3).2.2)
    ∧ (platformType = "openshift" →
        ∀ (x x3 : σ × List RbacCall),
        (tracedConfigureRbac c none).ensureInOrder (generateTargetNamespaceName stage)
            ((rbacSteps platformType stage.meta.Namespace).take 3) x = (none, x3) →
        (∀ (e : Err) (s1 : σ),
          c.GetRoleBinding
              { Namespace := generateTargetNamespaceName stage,
                Name := stage.meta.Namespace ++ "-view" } x3.1 = (.error e, s1) →
          IsNotFound e = true →
          (ConfigureRbac.ServeRequest platformType (tracedConfigureRbac c none) stage x).2.2
            = x3.2 ++
              [.getRoleBinding { Namespace := generateTargetNamespaceName stage,
                                 Name := stage.meta.Namespace ++ "-view" },
               .createRoleBinding
                 { meta := { Name := stage.meta.Namespace ++ "-view",
                             Namespace := generateTargetNamespaceName stage },
                   Subjects := [{ Kind := "Group",
                                  Name := stage.meta.Namespace ++ "-edp-view" }],
                   RoleRef := { Name := "view", APIGroup := "rbac.authorization.k8s.io",
                                Kind := "ClusterRole" } }])
        ∧ (∀ (rb : RoleBinding) (s1 : σ),
          c.GetRoleBinding
              { Namespace := generateTargetNamespaceName stage,
                Name := stage.meta.Namespace ++ "-view" } x3.1 = (.ok rb, s1) →
          (ConfigureRbac.ServeRequest platformType (tracedConfigureRbac c none) stage x).2.2
            = x3.2 ++
              [.getRoleBinding { Namespace := generateTargetNamespaceName stage,
                                 Name := stage.meta.Namespace ++ "-view" }]))
    ∧ (platformType = "openshift" → ∀ s : RbacStore,
        (runConfigureRbac platformType stage s).1 = none
        ∧ 0 < (runConfigureRbac platformType stage s).2.1.roleBindingCount
            { Namespace := generateTargetNamespaceName stage,
              Name := stage.meta.Namespace ++ "-view" }
        ∧ (s.roleBindingCount
              { Namespace := generateTargetNamespaceName stage,
                Name := stage.meta.Namespace ++ "-view" } = 0 →
            ({ meta := { Name := stage.meta.Namespace ++ "-view",
                         Namespace := generateTargetNamespaceName stage },
               Subjects := [{ Kind := "Group", Name := stage.meta.Namespace ++ "-edp-view" }],
               RoleRef := { Name := "view", APIGroup := "rbac.authorization.k8s.io",
                            Kind := "ClusterRole" } } : RoleBinding)
              ∈ (runConfigureRbac platformType stage s).2.1.roleBindings
            ∧ RbacCall.createRoleBinding
                { meta := { Name := stage.meta.Namespace ++ "-view",
                            Namespace := generateTargetNamespaceName stage },
                  Subjects := [{ Kind := "Group",
                                 Name := stage.meta.Namespace ++ "-edp-view" }],
                  RoleRef := { Name := "view", APIGroup := "rbac.authorization.k8s.io",
                               Kind := "ClusterRole" } }
              ∈ (runConfigureRbac platformType stage s).2.2)) := by
  have hcont : platformType = "openshift" →
      ∀ (next : Option (CdStageHandler (σ × List RbacCall))) (x x3 : σ × List RbacCall),
      (tracedConfigureRbac c next).ensureInOrder (generateTargetNamespaceName stage)
          ((rbacSteps platformType stage.meta.Namespace).take 3) x = (none, x3) →
      ConfigureRbac.ServeRequest platformType (tracedConfigureRbac c next) stage x
        = (match (tracedConfigureRbac c next).createRoleBinding
              (stage.meta.Namespace ++ "-view") (generateTargetNamespaceName stage)
              (buildViewGroupRoleOptions stage.meta.Namespace) x3 with
            | (some err, x4) => (some err, x4)
            | (none, x4) => nextServeOrNil next stage x4) := by
    intro hp next x x3 hpre
    have hsteps : rbacSteps platformType stage.meta.Namespace
        = (rbacSteps platformType stage.meta.Namespace).take 3
          ++ [{ isRole := false, name := stage.meta.Namespace ++ "-view",
                opts := buildViewGroupRoleOptions stage.meta.Namespace }] := by
      simp [rbacSteps, hp, clusterOpenshiftType, generateViewGroupRbName]
    rw [serveRequest_eq_ensureInOrder, hsteps, ensureInOrder_append, hpre]
    simp only [ConfigureRbac.ensureInOrder, ConfigureRbac.ensure, Bool.false_eq_true, if_false]
    rcases (tracedConfigureRbac c next).createRoleBinding (stage.meta.Namespace ++ "-view")
      (generateTargetNamespaceName stage) (buildViewGroupRoleOptions stage.meta.Namespace) x3
      with ⟨_ | e, x4⟩ <;> rfl
  have hlast : platformType = "openshift" → ∀ (x x3 : σ × List RbacCall),
      (tracedConfigureRbac c none).ensureInOrder (generateTargetNamespaceName stage)
          ((rbacSteps platformType stage.meta.Namespace).take 3) x = (none, x3) →
      (ConfigureRbac.ServeRequest platformType (tracedConfigureRbac c none) stage x).2.2
        = ((tracedConfigureRbac c none).createRoleBinding
              (stage.meta.Namespace ++ "-view") (generateTargetNamespaceName stage)
              (buildViewGroupRoleOptions stage.meta.Namespace) x3).2.2 := by
    intro hp x x3 hpre
    rw [hcont hp none x x3 hpre]
    rcases (tracedConfigureRbac c none).createRoleBinding (stage.meta.Namespace ++ "-view")
      (generateTargetNamespaceName stage) (buildViewGroupRoleOptions stage.meta.Namespace) x3
      with ⟨_ | e, x4⟩ <;> rfl
  refine ⟨⟨rfl, rfl⟩, ?_, ?_, ?_, ?_⟩
  · intro hp s call hcall
    have hrun : (ConfigureRbac.ServeRequest platformType (tracedConfigureRbac c none) stage
        (s, [])).2.2
        = ((tracedConfigureRbac c none).ensureInOrder (generateTargetNamespaceName stage)
            (rbacSteps platformType stage.meta.Namespace) (s, [])).2.2 := by
      rw [serveRequest_eq_ensureInOrder]
      rcases (tracedConfigureRbac c none).ensureInOrder (generateTargetNamespaceName stage)
        (rbacSteps platformType stage.meta.Namespace) (s, []) with ⟨_ | e, x1⟩ <;> rfl
    rw [hrun] at hcall
    obtain ⟨n, logs, -, hfor, hlog, -⟩ := ensureInOrder_traced_log c none
      (generateTargetNamespaceName stage) (rbacSteps platformType stage.meta.Namespace) (s, [])
    rw [hlog] at hcall
    simp only [List.nil_append] at hcall
    obtain ⟨l, hl, hcl⟩ := List.mem_flatten.1 hcall
    obtain ⟨p, hp', -, hr⟩ := forall₂_exists_left _ _ _ hfor l hl
    have hp'' : p ∈ rbacSteps platformType stage.meta.Namespace := List.mem_of_mem_take hp'
    have haddr := hr call hcl
    simp only [RbacCall.addresses, Bool.and_eq_true, beq_iff_eq] at haddr
    have hname : call.key.Name = p.name := by rw [haddr.1]
    obtain ⟨h1, h2, h3⟩ := viewGroupRbName_ne stage.meta.Namespace
    have hpt : ¬ platformType = clusterOpenshiftType := hp
    simp only [rbacSteps, hpt, beq_iff_eq, if_false, List.append_nil, List.mem_cons,
      List.mem_singleton, List.not_mem_nil, or_false] at hp''
    rw [hname]
    rcases hp'' with rfl | rfl | rfl
    · exact fun h => h1 h.symm
    · exact fun h => h2 h.symm
    · exact fun h => h3 h.symm
  · intro hp next x x3 hpre
    exact ⟨hcont hp next x x3 hpre, createRoleBinding_traced_get_mem c next _ _ _ x3⟩
  · intro hp x x3 hpre
    refine ⟨?_, ?_⟩
    · intro e s1 hget hnf
      rw [hlast hp x x3 hpre]
      exact createRoleBinding_traced_absent c none _ _ _ x3 e s1 hget hnf
    · intro rb s1 hget
      rw [hlast hp x x3 hpre]
      exact createRoleBinding_traced_present c none _ _ _ x3 rb s1 hget
  · intro hp s
    have hp' : platformType = clusterOpenshiftType := hp
    obtain ⟨-, hv2, hv3⟩ := viewGroupRbName_ne stage.meta.Namespace
    obtain ⟨x1, e1, -, -, -, b1⟩ := createRole_step acViewRoleName
      (generateTargetNamespaceName stage) (buildAcViewRoleOptions stage.meta.Namespace) (s, [])
    obtain ⟨x2, e2, h2, -⟩ := createRoleBinding_appends acViewRbName
      (generateTargetNamespaceName stage) (buildAcViewRoleOptions stage.meta.Namespace) x1
    obtain ⟨x3, e3, h3, -⟩ := createRoleBinding_appends jenkinsAdminRbName
      (generateTargetNamespaceName stage)
      (buildJenkinsAdminRoleOptions platformType stage.meta.Namespace) x2
    obtain ⟨x4, e4, -, h4⟩ := createRoleBinding_appends
      (generateViewGroupRbName stage.meta.Namespace) (generateTargetNamespaceName stage)
      (buildViewGroupRoleOptions stage.meta.Namespace) x3
    obtain ⟨x4', e4', hpos, -⟩ := createRoleBinding_step
      (generateViewGroupRbName stage.meta.Namespace) (generateTargetNamespaceName stage)
      (buildViewGroupRoleOptions stage.meta.Namespace) x3
    have hx4 : x4' = x4 := by
      have := e4'.symm.trans e4
      exact (Prod.mk.inj this).2
    subst hx4
    have hrun : runConfigureRbac platformType stage s = (none, x4') := by
      simp only [runConfigureRbac, ConfigureRbac.ServeRequest, e1, e2, e3, e4]
      simp [hp', nextServeOrNil, tracedConfigureRbac]
    rw [hrun]
    refine ⟨rfl, hpos, ?_⟩
    intro hzero
    have hb1 : x1.1.roleBindings = s.roleBindings := b1
    have hc3 : x3.1.roleBindingCount
        { Namespace := generateTargetNamespaceName stage,
          Name := generateViewGroupRbName stage.meta.Namespace } = 0 := by
      rw [createRoleBinding_count_other _ _ _ _ x2 x3 (fun h => hv3 h.symm) h3,
        createRoleBinding_count_other _ _ _ _ x1 x2 (fun h => hv2 h.symm) h2]
      rw [RbacStore.roleBindingCount, hb1]
      exact hzero
    refine ⟨?_, ?_⟩
    · simp only []
      rw [h4 hc3]
      exact List.mem_append_right _ (List.mem_singleton.2 rfl)
    · have hnone : x3.1.roleBindings.find? (fun rb => rb.meta.hasKey
          { Namespace := generateTargetNamespaceName stage,
            Name := generateViewGroupRbName stage.meta.Namespace }) = none := by
        apply find?_none_of_any_false
        rw [Bool.eq_false_iff]
        intro hany
        have := (any_hasKey_iff_pos (fun r : RoleBinding => r.meta) x3.1.roleBindings
          { Namespace := generateTargetNamespaceName stage,
            Name := generateViewGroupRbName stage.meta.Namespace }).1 hany
        simp only [RbacStore.roleBindingCount] at hc3
        omega
      have hget : storeRbacClient.GetRoleBinding
          { Namespace := generateTargetNamespaceName stage,
            Name := generateViewGroupRbName stage.meta.Namespace } x3.1
          = (.error (.notFound (generateViewGroupRbName stage.meta.Namespace)), x3.1) := by
        simp only [storeRbacClient, hnone]
      have hlog := createRoleBinding_traced_absent storeRbacClient none
        (generateViewGroupRbName stage.meta.Namespace) (generateTargetNamespaceName stage)
        (buildViewGroupRoleOptions stage.meta.Namespace) x3 _ _ hget rfl
      rw [e4] at hlog
      simp only [] at hlog ⊢
      rw [hlog]
      exact List.mem_append_right _ (List.mem_cons_of_mem _ (List.mem_singleton.2 rfl))

/-- Witness for C17: on kubernetes a run on the empty store makes no call for
`test-ns-view`; on openshift the three earlier objects are ensured on the empty store and
the run reads the binding `test-ns-view` of the target namespace, creates it with the
subject Group `test-ns-edp-view` and the role reference ClusterRole `view`, and the store
holds it afterwards. -/
theorem viewGroup_binding_platform_witness :
    (∀ call ∈ (ConfigureRbac.ServeRequest "kubernetes" (tracedConfigureRbac storeRbacClient none)
          rbacTestStage ({}, [])).2.2,
        call.key.Name ≠ rbacTestStage.meta.Namespace ++ "-view")
    ∧ RbacCall.getRoleBinding
        { Namespace := generateTargetNamespaceName rbacTestStage,
          Name := rbacTestStage.meta.Namespace ++ "-view" }
      ∈ ((tracedConfigureRbac storeRbacClient none).createRoleBinding
            (rbacTestStage.meta.Namespace ++ "-view") (generateTargetNamespaceName rbacTestStage)
            (buildViewGroupRoleOptions rbacTestStage.meta.Namespace)
            ((tracedConfigureRbac storeRbacClient none).ensureInOrder
              (generateTargetNamespaceName rbacTestStage)
              ((rbacSteps "openshift" rbacTestStage.meta.Namespace).take 3) ({}, [])).2).2.2
    ∧ (runConfigureRbac "openshift" rbacTestStage {}).1 = none
    ∧ ({ meta := { Name := "test-ns-view", Namespace := "test-ns-test-stage" },
         Subjects := [{ Kind := "Group", Name := "test-ns-edp-view" }],
         RoleRef := { Name := "view", APIGroup := "rbac.authorization.k8s.io",
                      Kind := "ClusterRole" } } : RoleBinding)
        ∈ (runConfigureRbac "openshift" rbacTestStage {}).2.1.roleBindings
    ∧ RbacCall.createRoleBinding
        { meta := { Name := "test-ns-view", Namespace := "test-ns-test-stage" },
          Subjects := [{ Kind := "Group", Name := "test-ns-edp-view" }],
          RoleRef := { Name := "view", APIGroup := "rbac.authorization.k8s.io",
                       Kind := "ClusterRole" } }
        ∈ (runConfigureRbac "openshift" rbacTestStage {}).2.2
    ∧ (∀ rb ∈ (runConfigureRbac "kubernetes" rbacTestStage {}).2.1.roleBindings,
        rb.meta.Name ≠ "test-ns-view") := by
  have h5 := (viewGroup_binding_platform storeRbacClient "openshift" rbacTestStage).2.2.2.2
    rfl {}
  exact ⟨(viewGroup_binding_platform storeRbacClient "kubernetes" rbacTestStage).2.1
      (by decide) {},
    ((viewGroup_binding_platform storeRbacClient "openshift" rbacTestStage).2.2.1 rfl none
      ({}, []) _ (by decide)).2,
    h5.1, (h5.2.2 (by decide)).1, (h5.2.2 (by decide)).2, by decide⟩

end CdPipeline
